import Mathlib

/-!
# SSD1306 I2C/DMA driver: update engine and framebuffer

A shallow embedding of `Drivers/ssd1306.c` / `Drivers/ssd1306.h`.

* The two display geometries selected by `SSD1306_128X64` / `SSD1306_128X32`
  are the two constructors of `SSD1306_Geometry`; `SSD1306_WIDTH`,
  `SSD1306_HEIGHT` and `SSD1306_BUFFER_SIZE` are functions of the geometry.
* The three builds of the transfer code (`SSD1306_USE_DMA == 0`,
  `SSD1306_USE_DMA == 1 && SSD1306_CONTUPDATE == 0`,
  `SSD1306_USE_DMA == 1 && SSD1306_CONTUPDATE == 1`) live in the namespaces
  `Blocking`, `DmaOneShot` and `DmaCont`.
* The I2C transport is not part of the driver.  Every call of
  `HAL_I2C_Mem_Write` / `HAL_I2C_Mem_Write_DMA` is recorded as a `BusEvent`
  in the list a function returns next to the new state; a data transaction
  records the bytes of the buffer at the moment the call is made.
* `uint8_t` variables are natural numbers; `% 256` is written where the C
  code can wrap.
-/

/-- The enumeration `SSD1306_Geometry` of `ssd1306.h`. -/
inductive SSD1306_Geometry where
  | GEOMETRY_128_64
  | GEOMETRY_128_32
  deriving DecidableEq, Repr

/-- The macro `SSD1306_WIDTH`: 128 in both geometries. -/
def SSD1306_WIDTH : SSD1306_Geometry → Nat
  | .GEOMETRY_128_64 => 128
  | .GEOMETRY_128_32 => 128

/-- The macro `SSD1306_HEIGHT`: 64 or 32. -/
def SSD1306_HEIGHT : SSD1306_Geometry → Nat
  | .GEOMETRY_128_64 => 64
  | .GEOMETRY_128_32 => 32

/-- The macro `SSD1306_BUFFER_SIZE`, `SSD1306_WIDTH * SSD1306_HEIGHT / 8`. -/
def SSD1306_BUFFER_SIZE (g : SSD1306_Geometry) : Nat :=
  SSD1306_WIDTH g * SSD1306_HEIGHT g / 8

/-- Number of pages, `SSD1306_HEIGHT / 8` in the source. -/
def pageCount (g : SSD1306_Geometry) : Nat := SSD1306_HEIGHT g / 8

/-- Display command `SETLOWCOLUMN`. -/
def SETLOWCOLUMN : Nat := 0x00

/-- Display command `SETHIGHCOLUMN`. -/
def SETHIGHCOLUMN : Nat := 0x10

/-- The enumeration `SSD1306_COLOR`. -/
inductive SSD1306_COLOR where
  | Black
  | White
  | Inverse
  deriving DecidableEq, Repr

/-- Numeric value of a colour: `Black = 0`, `White = 1`, `Inverse = 2`. -/
def SSD1306_COLOR.toNat : SSD1306_COLOR → Nat
  | .Black => 0
  | .White => 1
  | .Inverse => 2

/-- The cast `(SSD1306_COLOR) !color` of `ssd1306_DrawPixel`: `!0 = 1`, and
`!c = 0` for every non-zero `c`. -/
def SSD1306_COLOR.lnot : SSD1306_COLOR → SSD1306_COLOR
  | .Black => .White
  | .White => .Black
  | .Inverse => .Black

/-- The struct `SSD1306_t`. -/
structure SSD1306_t where
  CurrentX : Nat
  CurrentY : Nat
  Inverted : Nat
  Color : SSD1306_COLOR
  Initialized : Nat
  deriving DecidableEq, Repr

/-- The two file-scope objects of the drawing code: the screen object
`SSD1306` and the frame buffer `SSD1306_Buffer`. -/
structure Screen where
  SSD1306 : SSD1306_t
  SSD1306_Buffer : List Nat
  deriving DecidableEq, Repr

/-- What the driver does towards the outside, in program order. -/
inductive BusEvent where
  /-- A one byte write to register `0x00`: `HAL_I2C_Mem_Write[_DMA](.., 0x00, 1, &c, 1)`. -/
  | command (c : Nat)
  /-- A write to register `0x40` of `bytes`, read from `&SSD1306_Buffer[offset]`. -/
  | data (offset : Nat) (bytes : List Nat)
  /-- A call of the user hook `ssd1306_RasterIntCallback(r)`. -/
  | rasterInt (r : Nat)
  deriving DecidableEq, Repr

/-- Bus transactions are the events other than hook calls. -/
def BusEvent.isTransaction : BusEvent → Bool
  | .command _ => true
  | .data _ _ => true
  | .rasterInt _ => false

/-- The bus transactions of an event list. -/
def transactions (evs : List BusEvent) : List BusEvent :=
  evs.filter BusEvent.isTransaction

/-- The page a data transaction reads from: buffer offset divided by the width. -/
def dataPages (g : SSD1306_Geometry) : List BusEvent → List Nat
  | [] => []
  | .data offset _ :: evs => offset / SSD1306_WIDTH g :: dataPages g evs
  | _ :: evs => dataPages g evs

/-- The bytes `&SSD1306_Buffer[offset] .. + size` handed to the transport. -/
def bufferBytes (d : Screen) (offset size : Nat) : List Nat :=
  (d.SSD1306_Buffer.drop offset).take size

/-! ## Drawing -/

/-- `ssd1306_SetColor`. -/
def ssd1306_SetColor (color : SSD1306_COLOR) (d : Screen) : Screen :=
  { d with SSD1306 := { d.SSD1306 with Color := color } }

/-- `ssd1306_Fill`: every byte of the buffer becomes `0x00` or `0xFF`. -/
def ssd1306_Fill (g : SSD1306_Geometry) (d : Screen) : Screen :=
  let v := if d.SSD1306.Color = SSD1306_COLOR.Black then 0x00 else 0xFF
  { d with SSD1306_Buffer := List.replicate (SSD1306_BUFFER_SIZE g) v }

/-- `ssd1306_DrawPixel(uint8_t x, uint8_t y)`.  The arguments are the values
of the `uint8_t` parameters; callers holding wider integers truncate them. -/
def ssd1306_DrawPixel (g : SSD1306_Geometry) (x y : Nat) (d : Screen) : Screen :=
  if x ≥ SSD1306_WIDTH g ∨ y ≥ SSD1306_HEIGHT g then
    d
  else
    let color := if d.SSD1306.Inverted ≠ 0 then d.SSD1306.Color.lnot else d.SSD1306.Color
    let i := x + (y / 8) * SSD1306_WIDTH g
    let b := d.SSD1306_Buffer.getD i 0
    if color = SSD1306_COLOR.White then
      { d with SSD1306_Buffer := d.SSD1306_Buffer.set i ((b ||| (1 <<< (y % 8))) % 256) }
    else
      { d with SSD1306_Buffer := d.SSD1306_Buffer.set i (b &&& (0xFF ^^^ (1 <<< (y % 8)))) }

/-! ## Blocking build (`SSD1306_USE_DMA == 0`) -/

namespace Blocking

/-- Body of the loop of `ssd1306_UpdateScreen` for page `i`, reading `d`. -/
def updatePage (g : SSD1306_Geometry) (i : Nat) (d : Screen) : List BusEvent :=
  [ BusEvent.command (0xB0 + i),
    BusEvent.command SETLOWCOLUMN,
    BusEvent.command SETHIGHCOLUMN,
    BusEvent.data (SSD1306_WIDTH g * i) (bufferBytes d (SSD1306_WIDTH g * i) (SSD1306_WIDTH g)) ]

/-- The loop `for (i = ..; i < SSD1306_HEIGHT / 8; i++)` with `n` iterations left. -/
def updateLoop (g : SSD1306_Geometry) (d : Screen) : Nat → Nat → List BusEvent
  | _, 0 => []
  | i, n + 1 => updatePage g i d ++ updateLoop g d (i + 1) n

/-- `ssd1306_UpdateScreen` of the blocking build. -/
def ssd1306_UpdateScreen (g : SSD1306_Geometry) (d : Screen) : List BusEvent :=
  updateLoop g d 0 (SSD1306_HEIGHT g / 8)

end Blocking

/-! ## DMA build, one-shot update (`SSD1306_CONTUPDATE == 0`) -/

namespace DmaOneShot

/-- The state of the build: the two `volatile uint8_t` session variables and
the drawing state. -/
structure Engine where
  ssd1306_updatestatus : Nat
  ssd1306_updateend : Nat
  screen : Screen
  deriving DecidableEq, Repr

/-- `ssd1306_UpdateScreen` of the one-shot build. -/
def ssd1306_UpdateScreen (g : SSD1306_Geometry) (s : Engine) : Engine × List BusEvent :=
  if s.ssd1306_updatestatus = 0 then
    ({ s with
        ssd1306_updatestatus := SSD1306_HEIGHT g
        ssd1306_updateend := SSD1306_HEIGHT g + SSD1306_HEIGHT g / 2 },
     [BusEvent.command 0xB0])
  else if s.ssd1306_updatestatus ≥ SSD1306_HEIGHT g then
    let st := (s.ssd1306_updatestatus - SSD1306_HEIGHT g / 2) % 256
    ({ s with
        ssd1306_updatestatus := st
        ssd1306_updateend := (st + (SSD1306_HEIGHT g / 2 + 1)) &&& 0xFC },
     [])
  else
    (s, [])

/-- `ssd1306_UpdateScreenCompleted`. -/
def ssd1306_UpdateScreenCompleted (s : Engine) : Nat :=
  if s.ssd1306_updatestatus ≠ 0 then 0 else 1

/-- The `__weak` default `ssd1306_UpdateCompletedCallback`, an empty body. -/
def ssd1306_UpdateCompletedCallback (s : Engine) : Engine := s

/-- `HAL_I2C_MemTxCpltCallback` of the one-shot build, for a completion on
the display's I2C port. -/
def HAL_I2C_MemTxCpltCallback (g : SSD1306_Geometry) (s : Engine) : Engine × List BusEvent :=
  if s.ssd1306_updatestatus ≠ 0 then
    if s.ssd1306_updatestatus < s.ssd1306_updateend then
      let st := (s.ssd1306_updatestatus + 1) % 256
      let s1 := { s with ssd1306_updatestatus := st }
      let phase := st &&& 3
      let page := (st >>> 2) &&& (SSD1306_HEIGHT g / 8 - 1)
      if phase = 3 then
        (s1, [BusEvent.data (SSD1306_WIDTH g * page)
                (bufferBytes s1.screen (SSD1306_WIDTH g * page) (SSD1306_WIDTH g))])
      else if phase = 0 then
        (s1, [BusEvent.command (0xB0 + page)])
      else if phase = 1 then
        (s1, [BusEvent.command SETLOWCOLUMN])
      else -- `phase == 2`, the only value left
        (s1, [BusEvent.command SETHIGHCOLUMN])
    else
      (ssd1306_UpdateCompletedCallback { s with ssd1306_updatestatus := 0 }, [])
  else
    (s, [])

/-- The completion handler run `n` times in a row, with the events it issues. -/
def completions (g : SSD1306_Geometry) : Nat → Engine → Engine × List BusEvent
  | 0, s => (s, [])
  | n + 1, s =>
    let r := HAL_I2C_MemTxCpltCallback g s
    let r' := completions g n r.1
    (r'.1, r.2 ++ r'.2)

/-- What can happen to the engine: a mainline call of `ssd1306_UpdateScreen`
or a transport completion. -/
inductive Action where
  | updateScreen
  | txCplt
  deriving DecidableEq, Repr

/-- One action. -/
def step (g : SSD1306_Geometry) (s : Engine) : Action → Engine × List BusEvent
  | .updateScreen => ssd1306_UpdateScreen g s
  | .txCplt => HAL_I2C_MemTxCpltCallback g s

/-- A sequence of actions, with all events issued. -/
def exec (g : SSD1306_Geometry) : List Action → Engine → Engine × List BusEvent
  | [], s => (s, [])
  | a :: as, s =>
    let r := step g s a
    let r' := exec g as r.1
    (r'.1, r.2 ++ r'.2)

/-- State after reset: `ssd1306_updatestatus = 0`, cleared buffer. -/
def reset (g : SSD1306_Geometry) : Engine :=
  { ssd1306_updatestatus := 0
    ssd1306_updateend := 0
    screen :=
      { SSD1306 := { CurrentX := 0, CurrentY := 0, Inverted := 0,
                     Color := SSD1306_COLOR.Black, Initialized := 0 }
        SSD1306_Buffer := List.replicate (SSD1306_BUFFER_SIZE g) 0 } }

end DmaOneShot


/-! ## DMA build, continuous update (`SSD1306_CONTUPDATE == 1`) -/

namespace DmaCont

/-- The state of the build: the `volatile uint8_t` variables of the transfer
code and the drawing state. -/
structure Engine where
  ssd1306_updatestatus : Nat
  ssd1306_updateend : Nat
  ssd1306_command : Nat
  i2c_command : Nat
  ssd1306_ContUpdate : Nat
  ssd1306_RasterIntRegs : Nat
  screen : Screen
  deriving DecidableEq, Repr

/-- The `__weak` default `ssd1306_RasterIntCallback`, an empty body.  The
handler below takes the hook linked into the program as the argument
`hook`; a hook acts on the drawing state. -/
def ssd1306_RasterIntCallback (_r : Nat) (d : Screen) : Screen := d

/-- `ssd1306_SetRasterInt`. -/
def ssd1306_SetRasterInt (r : Nat) (s : Engine) : Engine :=
  { s with ssd1306_RasterIntRegs := r }

/-- `ssd1306_ContUpdateEnable`.  The wait for `HAL_I2C_STATE_READY` is a wait
on the transport and leaves the state alone. -/
def ssd1306_ContUpdateEnable (g : SSD1306_Geometry) (s : Engine) : Engine × List BusEvent :=
  if s.ssd1306_ContUpdate = 0 then
    ({ s with
        ssd1306_updatestatus := SSD1306_HEIGHT g
        ssd1306_updateend := SSD1306_HEIGHT g + SSD1306_HEIGHT g / 2
        i2c_command := 0xB0
        ssd1306_ContUpdate := 1 },
     [BusEvent.command 0xB0])
  else
    (s, [])

/-- `HAL_I2C_MemTxCpltCallback` of the continuous build, for a completion on
the display's I2C port; `hook` is the linked `ssd1306_RasterIntCallback`. -/
def HAL_I2C_MemTxCpltCallback (g : SSD1306_Geometry) (hook : Nat → Screen → Screen)
    (s : Engine) : Engine × List BusEvent :=
  if s.ssd1306_updatestatus ≠ 0 then
    if s.ssd1306_updatestatus < s.ssd1306_updateend then
      let st := (s.ssd1306_updatestatus + 1) % 256
      let s1 := { s with ssd1306_updatestatus := st }
      let phase := st &&& 3
      if phase = 3 then
        let raster := (st >>> 2) &&& (SSD1306_HEIGHT g / 8 - 1)
        let r : Engine × List BusEvent :=
          if s1.ssd1306_RasterIntRegs &&& (1 <<< raster) ≠ 0 then
            ({ s1 with screen := hook raster s1.screen }, [BusEvent.rasterInt raster])
          else
            (s1, [])
        let page := (st >>> 2) &&& (SSD1306_HEIGHT g / 8 - 1)
        (r.1, r.2 ++ [BusEvent.data (SSD1306_WIDTH g * page)
                        (bufferBytes r.1.screen (SSD1306_WIDTH g * page) (SSD1306_WIDTH g))])
      else
        let c :=
          if phase = 0 then 0xB0 + ((st >>> 2) &&& (SSD1306_HEIGHT g / 8 - 1))
          else if phase = 1 then SETLOWCOLUMN
          else if phase = 2 then SETHIGHCOLUMN
          else s1.i2c_command
        ({ s1 with i2c_command := c }, [BusEvent.command c])
    else
      -- refresh end
      let s1 :=
        if s.ssd1306_command ≠ 0 then
          { s with i2c_command := s.ssd1306_command, ssd1306_command := 0 }
        else if s.ssd1306_ContUpdate ≠ 0 then
          { s with i2c_command := 0xB0, ssd1306_updatestatus := SSD1306_HEIGHT g }
        else
          { s with ssd1306_updatestatus := 0 }
      if s1.ssd1306_updatestatus ≠ 0 then
        (s1, [BusEvent.command s1.i2c_command])
      else
        (s1, [])
  else
    (s, [])

/-- The completion handler run `n` times in a row, with the events it issues. -/
def completions (g : SSD1306_Geometry) (hook : Nat → Screen → Screen) :
    Nat → Engine → Engine × List BusEvent
  | 0, s => (s, [])
  | n + 1, s =>
    let r := HAL_I2C_MemTxCpltCallback g hook s
    let r' := completions g hook n r.1
    (r'.1, r.2 ++ r'.2)

/-- The loop `while(ssd1306_command);` of `ssd1306_WriteCommand`.  While the
mainline spins the only code that runs is the completion handler; `fuel`
bounds the number of completions waited for, `none` means the loop is still
spinning when the fuel is used up. -/
def waitCommandFree (g : SSD1306_Geometry) (hook : Nat → Screen → Screen) :
    Nat → Engine → Option (Engine × List BusEvent)
  | 0, s => if s.ssd1306_command ≠ 0 then none else some (s, [])
  | fuel + 1, s =>
    if s.ssd1306_command ≠ 0 then
      let r := HAL_I2C_MemTxCpltCallback g hook s
      match waitCommandFree g hook fuel r.1 with
      | none => none
      | some r' => some (r'.1, r.2 ++ r'.2)
    else
      some (s, [])

/-- `ssd1306_WriteCommand` of the continuous build.  The wait for
`HAL_I2C_STATE_READY` in the idle branch is a wait on the transport. -/
def ssd1306_WriteCommand (g : SSD1306_Geometry) (hook : Nat → Screen → Screen)
    (fuel : Nat) (command : Nat) (s : Engine) : Option (Engine × List BusEvent) :=
  if s.ssd1306_updatestatus ≠ 0 then
    match waitCommandFree g hook fuel s with
    | none => none
    | some r => some ({ r.1 with ssd1306_command := command }, r.2)
  else
    some ({ s with i2c_command := command }, [BusEvent.command command])

/-- What can happen to the running engine: a transport completion, or a
mainline call of `ssd1306_WriteCommand` or `ssd1306_SetRasterInt`. -/
inductive Action where
  | txCplt
  | writeCommand (b : Nat)
  | setRasterInt (r : Nat)
  deriving DecidableEq, Repr

/-- One action; `fuel` is handed to `ssd1306_WriteCommand`. -/
def step (g : SSD1306_Geometry) (hook : Nat → Screen → Screen) (fuel : Nat) (s : Engine) :
    Action → Option (Engine × List BusEvent)
  | .txCplt => some (HAL_I2C_MemTxCpltCallback g hook s)
  | .writeCommand b => ssd1306_WriteCommand g hook fuel b s
  | .setRasterInt r => some (ssd1306_SetRasterInt r s, [])

/-- A sequence of actions, with all events issued. -/
def exec (g : SSD1306_Geometry) (hook : Nat → Screen → Screen) (fuel : Nat) :
    List Action → Engine → Option (Engine × List BusEvent)
  | [], s => some (s, [])
  | a :: as, s =>
    match step g hook fuel s a with
    | none => none
    | some r =>
      match exec g hook fuel as r.1 with
      | none => none
      | some r' => some (r'.1, r.2 ++ r'.2)

/-- State after reset: all transfer variables zero, cleared buffer. -/
def reset (g : SSD1306_Geometry) : Engine :=
  { ssd1306_updatestatus := 0
    ssd1306_updateend := 0
    ssd1306_command := 0
    i2c_command := 0
    ssd1306_ContUpdate := 0
    ssd1306_RasterIntRegs := 0
    screen :=
      { SSD1306 := { CurrentX := 0, CurrentY := 0, Inverted := 0,
                     Color := SSD1306_COLOR.Black, Initialized := 0 }
        SSD1306_Buffer := List.replicate (SSD1306_BUFFER_SIZE g) 0 } }

end DmaCont

/-! ## Raster hook of `App/app_ssd1306_testcont.c` -/

namespace TestCont

/-- The `ssd1306_RasterIntCallback` of the continuous-update demo: page 1
fills the buffer black, page 2 fills it white. -/
def ssd1306_RasterIntCallback (g : SSD1306_Geometry) (r : Nat) (d : Screen) : Screen :=
  if r = 1 then
    ssd1306_Fill g (ssd1306_SetColor SSD1306_COLOR.Black d)
  else if r = 2 then
    ssd1306_Fill g (ssd1306_SetColor SSD1306_COLOR.White d)
  else
    d

end TestCont

/-! ## Description of a refresh pass

The session counter `ssd1306_updatestatus` runs from `SSD1306_HEIGHT` to
`SSD1306_HEIGHT + SSD1306_HEIGHT / 2`; `passEvent g d i` is the transaction
issued by the completion step that moves it to `SSD1306_HEIGHT + i`. -/

/-- The transaction issued when the counter reaches `SSD1306_HEIGHT g + i`,
reading the drawing state `d`. -/
def passEvent (g : SSD1306_Geometry) (d : Screen) (i : Nat) : BusEvent :=
  if i % 4 = 3 then
    BusEvent.data (SSD1306_WIDTH g * (i / 4 % pageCount g))
      (bufferBytes d (SSD1306_WIDTH g * (i / 4 % pageCount g)) (SSD1306_WIDTH g))
  else if i % 4 = 0 then BusEvent.command (0xB0 + i / 4 % pageCount g)
  else if i % 4 = 1 then BusEvent.command SETLOWCOLUMN
  else BusEvent.command SETHIGHCOLUMN

/-- The drawing state after the completion step that moves the counter to
`SSD1306_HEIGHT g + i` in the continuous build: the hook has run if the step
is a data step and the page is selected in `regs`. -/
def passScreen (g : SSD1306_Geometry) (hook : Nat → Screen → Screen) (regs i : Nat)
    (d : Screen) : Screen :=
  if i % 4 = 3 ∧ regs &&& (1 <<< (i / 4 % pageCount g)) ≠ 0 then hook (i / 4 % pageCount g) d
  else d

/-- The events of the completion step that moves the counter to
`SSD1306_HEIGHT g + i` in the continuous build. -/
def passStep (g : SSD1306_Geometry) (hook : Nat → Screen → Screen) (regs i : Nat)
    (d : Screen) : List BusEvent :=
  (if i % 4 = 3 ∧ regs &&& (1 <<< (i / 4 % pageCount g)) ≠ 0
    then [BusEvent.rasterInt (i / 4 % pageCount g)] else [])
  ++ [passEvent g (passScreen g hook regs i d) i]

/-- The events of `k` completion steps in a row, the first of which moves the
counter to `SSD1306_HEIGHT g + i`, and the drawing state they leave. -/
def passTrace (g : SSD1306_Geometry) (hook : Nat → Screen → Screen) (regs : Nat) :
    Nat → Nat → Screen → Screen × List BusEvent
  | 0, _, d => (d, [])
  | k + 1, i, d =>
    let r := passTrace g hook regs k (i + 1) (passScreen g hook regs i d)
    (r.1, passStep g hook regs i d ++ r.2)

/-- The refresh of pages `p, p + 1, ..` (`n` of them) as the blocking loop
issues it, when before page `q` is read the hook runs if `q` is selected in
`regs`. -/
def rasterPages (g : SSD1306_Geometry) (hook : Nat → Screen → Screen) (regs : Nat) :
    Nat → Nat → Screen → List BusEvent
  | _, 0, _ => []
  | p, n + 1, d =>
    let d1 := if regs &&& (1 <<< p) ≠ 0 then hook p d else d
    Blocking.updatePage g p d1 ++ rasterPages g hook regs (p + 1) n d1

/-- The continuous engine is running: continuous update is on, the end mark
is `SSD1306_HEIGHT + SSD1306_HEIGHT / 2` and the counter lies between
`SSD1306_HEIGHT` and the end mark. -/
def DmaCont.Running (g : SSD1306_Geometry) (s : DmaCont.Engine) : Prop :=
  s.ssd1306_ContUpdate ≠ 0 ∧
  s.ssd1306_updateend = SSD1306_HEIGHT g + SSD1306_HEIGHT g / 2 ∧
  SSD1306_HEIGHT g ≤ s.ssd1306_updatestatus ∧
  s.ssd1306_updatestatus ≤ SSD1306_HEIGHT g + SSD1306_HEIGHT g / 2

/-- The page of the next data transaction of a running engine, from its
counter. -/
def DmaCont.cyclePos (g : SSD1306_Geometry) (s : DmaCont.Engine) : Nat :=
  (s.ssd1306_updatestatus - SSD1306_HEIGHT g + 1) / 4 % pageCount g

/-- The `n` pages `c, c + 1, ..` counted modulo `pc`. -/
def pagesFrom (pc c n : Nat) : List Nat :=
  (List.range n).map (fun i => (c + i) % pc)

/-- The pages sent by a piece `r` of a run from `s` continue the cycle where
the engine stood and leave it where the next piece continues. -/
def DmaCont.PagesOK (g : SSD1306_Geometry) (s : DmaCont.Engine)
    (r : DmaCont.Engine × List BusEvent) : Prop :=
  ∃ n, dataPages g r.2 = pagesFrom (pageCount g) (DmaCont.cyclePos g s) n ∧
    DmaCont.cyclePos g r.1 = (DmaCont.cyclePos g s + n) % pageCount g

/-! ## Drawing primitives

The coordinates of the line and circle functions are `int16_t` values, held
as integers; `wrap16` is written where a value is stored into an `int16_t`
and `toU8` where one is passed to a `uint8_t` parameter.  Writes through
`bufferPtr` are checked: a function returns `none` when it would touch a
byte outside `SSD1306_Buffer`, or when a loop is still running after the
fuel it was given. -/

/-- Conversion of an `int` value to `int16_t`. -/
def wrap16 (v : Int) : Int := (v + 32768) % 65536 - 32768

/-- Conversion of an `int` value to `uint8_t`. -/
def toU8 (v : Int) : Nat := (v % 256).toNat

/-- The library function `abs` on `int`. -/
def cAbs (v : Int) : Int := if v < 0 then -v else v

/-- Pixel `(x, y)` of the buffer: bit `y % 8` of the byte at page `y / 8`,
column `x`. -/
def pixelLit (g : SSD1306_Geometry) (d : Screen) (x y : Nat) : Bool :=
  (d.SSD1306_Buffer.getD (x + (y / 8) * SSD1306_WIDTH g) 0).testBit (y % 8)

/-- The point `(x, y)` is on the screen and its pixel is lit. -/
def litAt (g : SSD1306_Geometry) (d : Screen) (x y : Int) : Prop :=
  0 ≤ x ∧ x < SSD1306_WIDTH g ∧ 0 ≤ y ∧ y < SSD1306_HEIGHT g ∧
    pixelLit g d x.toNat y.toNat = true

instance (g : SSD1306_Geometry) (d : Screen) (x y : Int) : Decidable (litAt g d x y) := by
  unfold litAt
  infer_instance

/-- `ssd1306_Clear`: `memset(SSD1306_Buffer, 0, SSD1306_BUFFER_SIZE)`. -/
def ssd1306_Clear (g : SSD1306_Geometry) (d : Screen) : Screen :=
  { d with SSD1306_Buffer := List.replicate (SSD1306_BUFFER_SIZE g) 0 }

/-- The loop `for (; x0<=x1; x0++)` of `ssd1306_DrawLine`. -/
def drawLineLoop (g : SSD1306_Geometry) (steep : Bool) (x1 dx dy ystep : Int) :
    Nat → Int → Int → Int → Screen → Option Screen
  | 0, x0, _, _, d => if x0 ≤ x1 then none else some d
  | fuel + 1, x0, y0, err, d =>
    if x0 ≤ x1 then
      let d1 :=
        if steep then ssd1306_DrawPixel g (toU8 y0) (toU8 x0) d
        else ssd1306_DrawPixel g (toU8 x0) (toU8 y0) d
      let err1 := wrap16 (err - dy)
      if err1 < 0 then
        drawLineLoop g steep x1 dx dy ystep fuel (wrap16 (x0 + 1)) (wrap16 (y0 + ystep))
          (wrap16 (err1 + dx)) d1
      else
        drawLineLoop g steep x1 dx dy ystep fuel (wrap16 (x0 + 1)) y0 err1 d1
    else
      some d

/-- `ssd1306_DrawLine`.  `a0, b0, a1, b1` are `x0, y0, x1, y1` after the first
pair of swaps and `p0, q0, p1, q1` after the second. -/
def ssd1306_DrawLine (g : SSD1306_Geometry) (fuel : Nat) (x0 y0 x1 y1 : Int) (d : Screen) :
    Option Screen :=
  let steep : Bool := cAbs (y1 - y0) > cAbs (x1 - x0)
  let a0 := if steep then y0 else x0
  let b0 := if steep then x0 else y0
  let a1 := if steep then y1 else x1
  let b1 := if steep then x1 else y1
  let p0 := if a0 > a1 then a1 else a0
  let q0 := if a0 > a1 then b1 else b0
  let p1 := if a0 > a1 then a0 else a1
  let q1 := if a0 > a1 then b0 else b1
  let dx := wrap16 (p1 - p0)
  let dy := wrap16 (cAbs (q1 - q0))
  let err := wrap16 (Int.tdiv dx 2)
  let ystep : Int := if q0 < q1 then 1 else -1
  drawLineLoop g steep p1 dx dy ystep fuel p0 q0 err d

/-- A checked `*bufferPtr = f(*bufferPtr)` at offset `i` of the buffer. -/
def bufferUpdate (d : Screen) (i : Nat) (f : Nat → Nat) : Option Screen :=
  match d.SSD1306_Buffer[i]? with
  | none => none
  | some b => some { d with SSD1306_Buffer := d.SSD1306_Buffer.set i (f b) }

/-- The loops `while (length--) { *bufferPtr++ op= drawBit; }` of
`ssd1306_DrawHorizontalLine`, with `n` iterations left. -/
def hlineLoop (f : Nat → Nat) : Nat → Nat → Screen → Option Screen
  | 0, _, d => some d
  | n + 1, ptr, d =>
    match bufferUpdate d ptr f with
    | none => none
    | some d1 => hlineLoop f n (ptr + 1) d1

/-- `ssd1306_DrawHorizontalLine`. -/
def ssd1306_DrawHorizontalLine (g : SSD1306_Geometry) (x y length : Int) (d : Screen) :
    Option Screen :=
  if y < 0 ∨ y ≥ SSD1306_HEIGHT g then some d
  else
    let length1 := if x < 0 then wrap16 (length + x) else length
    let x1 := if x < 0 then 0 else x
    let length2 := if x1 + length1 > SSD1306_WIDTH g then wrap16 (SSD1306_WIDTH g - x1) else length1
    if length2 ≤ 0 then some d
    else
      let ptr := (y.toNat >>> 3) * SSD1306_WIDTH g + x1.toNat
      let drawBit := (1 <<< (y.toNat &&& 7)) % 256
      match d.SSD1306.Color with
      | .White => hlineLoop (fun b => (b ||| drawBit) % 256) length2.toNat ptr d
      | .Black => hlineLoop (fun b => b &&& ((0xFF ^^^ drawBit) % 256)) length2.toNat ptr d
      | .Inverse => hlineLoop (fun b => (b ^^^ drawBit) % 256) length2.toNat ptr d

/-- The `switch (SSD1306.Color)` of `ssd1306_DrawVerticalLine` that applies
the mask `drawBit` to the byte at `ptr`. -/
def vlineMask (d : Screen) (ptr drawBit : Nat) : Option Screen :=
  match d.SSD1306.Color with
  | .White => bufferUpdate d ptr (fun b => (b ||| drawBit) % 256)
  | .Black => bufferUpdate d ptr (fun b => b &&& ((0xFF ^^^ drawBit) % 256))
  | .Inverse => bufferUpdate d ptr (fun b => (b ^^^ drawBit) % 256)

/-- The loops `do { .. bufferPtr += width(); length -= 8; } while (length >= 8)`
of `ssd1306_DrawVerticalLine`, with `n` iterations left. -/
def vlineFull (g : SSD1306_Geometry) : Nat → Nat → Screen → Option Screen
  | 0, _, d => some d
  | n + 1, ptr, d =>
    let r :=
      match d.SSD1306.Color with
      | .White => bufferUpdate d ptr (fun _ => 0xFF)
      | .Black => bufferUpdate d ptr (fun _ => 0x00)
      | .Inverse => bufferUpdate d ptr (fun b => (0xFF ^^^ b) % 256)
    match r with
    | none => none
    | some d1 => vlineFull g n (ptr + SSD1306_WIDTH g) d1

/-- `ssd1306_DrawVerticalLine` from `if (length >= 8)` on.  The `do .. while`
runs `length / 8` times. -/
def vlineTail (g : SSD1306_Geometry) (length : Int) (ptr : Nat) (d : Screen) : Option Screen :=
  let n := if length ≥ 8 then (length / 8).toNat else 0
  match vlineFull g n ptr d with
  | none => none
  | some d1 =>
    let length1 := length - 8 * n
    let ptr1 := ptr + n * SSD1306_WIDTH g
    if length1 > 0 then
      vlineMask d1 ptr1 (((1 <<< (length1.toNat &&& 7)) - 1) % 256)
    else
      some d1

/-- `ssd1306_DrawVerticalLine`. -/
def ssd1306_DrawVerticalLine (g : SSD1306_Geometry) (x y length : Int) (d : Screen) :
    Option Screen :=
  if x < 0 ∨ x ≥ SSD1306_WIDTH g then some d
  else
    let length1 := if y < 0 then wrap16 (length + y) else length
    let y1 := if y < 0 then 0 else y
    let length2 :=
      if y1 + length1 > SSD1306_HEIGHT g then wrap16 (SSD1306_HEIGHT g - y1) else length1
    if length2 ≤ 0 then some d
    else
      let yOffset := y1.toNat &&& 7
      let ptr := (y1.toNat >>> 3) * SSD1306_WIDTH g + x.toNat
      if yOffset ≠ 0 then
        let yOffset1 := 8 - yOffset
        let drawBit := (0xFF ^^^ (0xFF >>> yOffset1)) % 256
        let drawBit1 :=
          if length2 < yOffset1 then drawBit &&& (0xFF >>> (yOffset1 - length2.toNat))
          else drawBit
        match vlineMask d ptr drawBit1 with
        | none => none
        | some d1 =>
          if length2 < yOffset1 then some d1
          else vlineTail g (wrap16 (length2 - yOffset1)) (ptr + SSD1306_WIDTH g) d1
      else
        vlineTail g length2 ptr d

/-- The update of `x`, `y` and `dp` at the head of the loops of
`ssd1306_DrawCircle`, `ssd1306_FillCircle` and `ssd1306_DrawCircleQuads`:
`if (dp < 0) dp = dp + 2 * (++x) + 3; else dp = dp + 2 * (++x) - 2 * (--y) + 5;`. -/
def midpointStep (x y dp : Int) : Int × Int × Int :=
  if dp < 0 then
    (wrap16 (x + 1), y, wrap16 (dp + 2 * wrap16 (x + 1) + 3))
  else
    (wrap16 (x + 1), wrap16 (y - 1), wrap16 (dp + 2 * wrap16 (x + 1) - 2 * wrap16 (y - 1) + 5))

/-- The eight `ssd1306_DrawPixel` calls of one step of `ssd1306_DrawCircle`. -/
def drawCirclePixels (g : SSD1306_Geometry) (x0 y0 x y : Int) (d : Screen) : Screen :=
  let d := ssd1306_DrawPixel g (toU8 (x0 + x)) (toU8 (y0 + y)) d
  let d := ssd1306_DrawPixel g (toU8 (x0 - x)) (toU8 (y0 + y)) d
  let d := ssd1306_DrawPixel g (toU8 (x0 + x)) (toU8 (y0 - y)) d
  let d := ssd1306_DrawPixel g (toU8 (x0 - x)) (toU8 (y0 - y)) d
  let d := ssd1306_DrawPixel g (toU8 (x0 + y)) (toU8 (y0 + x)) d
  let d := ssd1306_DrawPixel g (toU8 (x0 - y)) (toU8 (y0 + x)) d
  let d := ssd1306_DrawPixel g (toU8 (x0 + y)) (toU8 (y0 - x)) d
  ssd1306_DrawPixel g (toU8 (x0 - y)) (toU8 (y0 - x)) d

/-- The loop `do { .. } while (x < y)` of `ssd1306_DrawCircle`. -/
def drawCircleLoop (g : SSD1306_Geometry) (x0 y0 : Int) :
    Nat → Int → Int → Int → Screen → Option Screen
  | 0, _, _, _, _ => none
  | fuel + 1, x, y, dp, d =>
    let s := midpointStep x y dp
    let d1 := drawCirclePixels g x0 y0 s.1 s.2.1 d
    if s.1 < s.2.1 then drawCircleLoop g x0 y0 fuel s.1 s.2.1 s.2.2 d1 else some d1

/-- `ssd1306_DrawCircle`. -/
def ssd1306_DrawCircle (g : SSD1306_Geometry) (fuel : Nat) (x0 y0 radius : Int) (d : Screen) :
    Option Screen :=
  match drawCircleLoop g x0 y0 fuel 0 radius (wrap16 (1 - radius)) d with
  | none => none
  | some d1 =>
    let d2 := ssd1306_DrawPixel g (toU8 (x0 + radius)) (toU8 y0) d1
    let d3 := ssd1306_DrawPixel g (toU8 x0) (toU8 (y0 + radius)) d2
    let d4 := ssd1306_DrawPixel g (toU8 (x0 - radius)) (toU8 y0) d3
    some (ssd1306_DrawPixel g (toU8 x0) (toU8 (y0 - radius)) d4)

/-- The four `ssd1306_DrawHorizontalLine` calls of one step of
`ssd1306_FillCircle`. -/
def fillCircleLines (g : SSD1306_Geometry) (x0 y0 x y : Int) (d : Screen) : Option Screen :=
  (ssd1306_DrawHorizontalLine g (wrap16 (x0 - x)) (wrap16 (y0 - y)) (wrap16 (2 * x)) d).bind
    fun d1 =>
  (ssd1306_DrawHorizontalLine g (wrap16 (x0 - x)) (wrap16 (y0 + y)) (wrap16 (2 * x)) d1).bind
    fun d2 =>
  (ssd1306_DrawHorizontalLine g (wrap16 (x0 - y)) (wrap16 (y0 - x)) (wrap16 (2 * y)) d2).bind
    fun d3 =>
  ssd1306_DrawHorizontalLine g (wrap16 (x0 - y)) (wrap16 (y0 + x)) (wrap16 (2 * y)) d3

/-- The loop `do { .. } while (x < y)` of `ssd1306_FillCircle`. -/
def fillCircleLoop (g : SSD1306_Geometry) (x0 y0 : Int) :
    Nat → Int → Int → Int → Screen → Option Screen
  | 0, _, _, _, _ => none
  | fuel + 1, x, y, dp, d =>
    let s := midpointStep x y dp
    match fillCircleLines g x0 y0 s.1 s.2.1 d with
    | none => none
    | some d1 =>
      if s.1 < s.2.1 then fillCircleLoop g x0 y0 fuel s.1 s.2.1 s.2.2 d1 else some d1

/-- `ssd1306_FillCircle`. -/
def ssd1306_FillCircle (g : SSD1306_Geometry) (fuel : Nat) (x0 y0 radius : Int) (d : Screen) :
    Option Screen :=
  match fillCircleLoop g x0 y0 fuel 0 radius (wrap16 (1 - radius)) d with
  | none => none
  | some d1 => ssd1306_DrawHorizontalLine g (wrap16 (x0 - radius)) y0 (wrap16 (2 * radius)) d1

/-- The guarded `ssd1306_DrawPixel` pairs of one step of
`ssd1306_DrawCircleQuads`. -/
def drawQuadPixels (g : SSD1306_Geometry) (x0 y0 x y : Int) (quads : Nat) (d : Screen) : Screen :=
  let d :=
    if quads &&& 0x1 ≠ 0 then
      ssd1306_DrawPixel g (toU8 (x0 + y)) (toU8 (y0 - x))
        (ssd1306_DrawPixel g (toU8 (x0 + x)) (toU8 (y0 - y)) d)
    else d
  let d :=
    if quads &&& 0x2 ≠ 0 then
      ssd1306_DrawPixel g (toU8 (x0 - x)) (toU8 (y0 - y))
        (ssd1306_DrawPixel g (toU8 (x0 - y)) (toU8 (y0 - x)) d)
    else d
  let d :=
    if quads &&& 0x4 ≠ 0 then
      ssd1306_DrawPixel g (toU8 (x0 - x)) (toU8 (y0 + y))
        (ssd1306_DrawPixel g (toU8 (x0 - y)) (toU8 (y0 + x)) d)
    else d
  if quads &&& 0x8 ≠ 0 then
    ssd1306_DrawPixel g (toU8 (x0 + y)) (toU8 (y0 + x))
      (ssd1306_DrawPixel g (toU8 (x0 + x)) (toU8 (y0 + y)) d)
  else d

/-- The loop `while (x < y)` of `ssd1306_DrawCircleQuads`. -/
def drawQuadsLoop (g : SSD1306_Geometry) (x0 y0 : Int) (quads : Nat) :
    Nat → Int → Int → Int → Screen → Option Screen
  | 0, x, y, _, d => if x < y then none else some d
  | fuel + 1, x, y, dp, d =>
    if x < y then
      let s := midpointStep x y dp
      drawQuadsLoop g x0 y0 quads fuel s.1 s.2.1 s.2.2 (drawQuadPixels g x0 y0 s.1 s.2.1 quads d)
    else
      some d

/-- `ssd1306_DrawCircleQuads`. -/
def ssd1306_DrawCircleQuads (g : SSD1306_Geometry) (fuel : Nat) (x0 y0 radius : Int)
    (quads : Nat) (d : Screen) : Option Screen :=
  match drawQuadsLoop g x0 y0 quads fuel 0 radius (wrap16 (1 - radius)) d with
  | none => none
  | some d1 =>
    let d2 :=
      if quads &&& 0x1 ≠ 0 ∧ quads &&& 0x8 ≠ 0 then
        ssd1306_DrawPixel g (toU8 (x0 + radius)) (toU8 y0) d1
      else d1
    let d3 :=
      if quads &&& 0x4 ≠ 0 ∧ quads &&& 0x8 ≠ 0 then
        ssd1306_DrawPixel g (toU8 x0) (toU8 (y0 + radius)) d2
      else d2
    let d4 :=
      if quads &&& 0x2 ≠ 0 ∧ quads &&& 0x4 ≠ 0 then
        ssd1306_DrawPixel g (toU8 (x0 - radius)) (toU8 y0) d3
      else d3
    some
      (if quads &&& 0x1 ≠ 0 ∧ quads &&& 0x2 ≠ 0 then
        ssd1306_DrawPixel g (toU8 x0) (toU8 (y0 - radius)) d4
      else d4)

/-! ## Descriptions used by the statements about drawing -/

/-- A screen with every byte of the buffer zero (`ssd1306_Clear`), the
Inverted flag clear and current colour `c`. -/
def blankScreen (g : SSD1306_Geometry) (c : SSD1306_COLOR) : Screen :=
  { SSD1306 := { CurrentX := 0, CurrentY := 0, Inverted := 0, Color := c, Initialized := 1 }
    SSD1306_Buffer := List.replicate (SSD1306_BUFFER_SIZE g) 0 }

/-- `ssd1306_DrawPixel` called for each point of a list, in order. -/
def drawPixels (g : SSD1306_Geometry) (pts : List (Nat × Nat)) (d : Screen) : Screen :=
  pts.foldl (fun d p => ssd1306_DrawPixel g p.1 p.2 d) d

/-- Reference integer Bresenham, from the words of the spec: `n` unit steps
along the major axis from `(a, b)`; the error is decremented by `dy` each
step, and when it is negative the minor axis steps and `dx` is added. -/
def bresenhamSteps (dx dy step : Int) : Nat → Int → Int → Int → List (Int × Int)
  | 0, _, _, _ => []
  | n + 1, a, b, err =>
    (a, b) ::
      (if err - dy < 0 then bresenhamSteps dx dy step n (a + 1) (b + step) (err - dy + dx)
       else bresenhamSteps dx dy step n (a + 1) b (err - dy))

/-- Reference integer Bresenham, from the words of the spec: the major axis is
chosen by `|dy| > |dx|`, the walk starts at the endpoint with the smaller
major coordinate, the error starts at `dx / 2` truncated.  The result is the
list of points `(x, y)`. -/
def bresenhamReference (x0 y0 x1 y1 : Int) : List (Int × Int) :=
  let steep : Bool := cAbs (y1 - y0) > cAbs (x1 - x0)
  let a0 := if steep then y0 else x0
  let b0 := if steep then x0 else y0
  let a1 := if steep then y1 else x1
  let b1 := if steep then x1 else y1
  let p0 := if a0 > a1 then a1 else a0
  let q0 := if a0 > a1 then b1 else b0
  let p1 := if a0 > a1 then a0 else a1
  let q1 := if a0 > a1 then b0 else b1
  let dx := p1 - p0
  let dy := cAbs (q1 - q0)
  let step : Int := if q0 < q1 then 1 else -1
  let pts := bresenhamSteps dx dy step (dx + 1).toNat p0 q0 (Int.tdiv dx 2)
  if steep then pts.map (fun p => (p.2, p.1)) else pts

/-- The drawing state the statements about shapes start from and keep: the
Inverted flag clear, current colour White, a buffer of `SSD1306_BUFFER_SIZE`
bytes. -/
def WhiteReady (g : SSD1306_Geometry) (d : Screen) : Prop :=
  d.SSD1306.Inverted = 0 ∧ d.SSD1306.Color = SSD1306_COLOR.White ∧
    d.SSD1306_Buffer.length = SSD1306_BUFFER_SIZE g

/-- The `uint8_t` arguments `ssd1306_DrawLine` hands to `ssd1306_DrawPixel` for
the point with major coordinate `p.1` and minor coordinate `p.2`. -/
def linePixel (steep : Bool) (p : Int × Int) : Nat × Nat :=
  if steep then (toU8 p.2, toU8 p.1) else (toU8 p.1, toU8 p.2)

/-- The eight offsets from the centre that one step of `ssd1306_DrawCircle`
draws for the step value `(x, y)`, in the order of its `ssd1306_DrawPixel`
calls. -/
def octants (x y : Int) : List (Int × Int) :=
  [(x, y), (-x, y), (x, -y), (-x, -y), (y, x), (-y, x), (y, -x), (-y, -x)]

/-- The `uint8_t` arguments handed to `ssd1306_DrawPixel` for the point at
offset `o` from the centre `(x0, y0)`. -/
def circlePixel (x0 y0 : Int) (o : Int × Int) : Nat × Nat :=
  (toU8 (x0 + o.1), toU8 (y0 + o.2))

/-- A list of offsets made of whole groups of eight reflections of step
values `(u, v)` with `0 <= u, v <= r`. -/
def OctantList (r : Int) (offs : List (Int × Int)) : Prop :=
  ∀ o ∈ offs, ∃ u v : Int, 0 ≤ u ∧ u ≤ r ∧ 0 ≤ v ∧ v ≤ r ∧ o ∈ octants u v ∧
    ∀ o2 ∈ octants u v, o2 ∈ offs

/-! ## Text -/

/-- Modelled from the spec: the type `FontDef` of `fonts.h`, which is not part
of the sources.  The spec calls it a read-only mapping from character code to a
fixed-height row bitmap, each row a bit pattern left-aligned to the font width;
`ssd1306_WriteChar` reads the fields `FontWidth`, `FontHeight` and the table
`data`, one entry per glyph row. -/
structure FontDef where
  FontWidth : Nat
  FontHeight : Nat
  data : List Nat
  deriving Repr

/-- Body of the inner loop of `ssd1306_WriteChar` for row bits `b`, row `i`
and column `j`: a set bit draws in the current colour, a clear bit draws with
`SSD1306.Color = !SSD1306.Color` before and after the call. -/
def writeCharPixel (g : SSD1306_Geometry) (b i j : Nat) (d : Screen) : Screen :=
  if ((b <<< j) % 2 ^ 32) &&& 0x8000 ≠ 0 then
    ssd1306_DrawPixel g ((d.SSD1306.CurrentX + j) % 256) ((d.SSD1306.CurrentY + i) % 256) d
  else
    let d1 := { d with SSD1306 := { d.SSD1306 with Color := d.SSD1306.Color.lnot } }
    let d2 :=
      ssd1306_DrawPixel g ((d1.SSD1306.CurrentX + j) % 256) ((d1.SSD1306.CurrentY + i) % 256) d1
    { d2 with SSD1306 := { d2.SSD1306 with Color := d2.SSD1306.Color.lnot } }

/-- Body of the outer loop of `ssd1306_WriteChar` for row `i`: reads
`Font.data[(ch - 32) * Font.FontHeight + i]` (`none` when the index is outside
the table) and runs the inner loop over `j < Font.FontWidth`. -/
def writeCharRow (g : SSD1306_Geometry) (ch : Nat) (Font : FontDef) (d : Screen) (i : Nat) :
    Option Screen :=
  let idx : Int := ((ch : Int) - 32) * Font.FontHeight + i
  if idx < 0 then none
  else
    match Font.data[idx.toNat]? with
    | none => none
    | some b => some ((List.range Font.FontWidth).foldl (fun d j => writeCharPixel g b i j d) d)

/-- `ssd1306_WriteChar`: the returned character (0 when there is no room)
and the screen afterwards. -/
def ssd1306_WriteChar (g : SSD1306_Geometry) (ch : Nat) (Font : FontDef) (d : Screen) :
    Option (Nat × Screen) :=
  if SSD1306_WIDTH g ≤ d.SSD1306.CurrentX + Font.FontWidth ∨
      SSD1306_HEIGHT g ≤ d.SSD1306.CurrentY + Font.FontHeight then
    some (0, d)
  else
    match (List.range Font.FontHeight).foldlM (writeCharRow g ch Font) d with
    | none => none
    | some d1 =>
      some (ch, { d1 with
        SSD1306 := { d1.SSD1306 with
          CurrentX := (d1.SSD1306.CurrentX + Font.FontWidth) % 65536 } })

/-- A screen as `blankScreen`, with the cursor at `(cx, cy)`. -/
def cursorScreen (g : SSD1306_Geometry) (c : SSD1306_COLOR) (cx cy : Nat) : Screen :=
  { SSD1306 := { CurrentX := cx, CurrentY := cy, Inverted := 0, Color := c, Initialized := 1 }
    SSD1306_Buffer := List.replicate (SSD1306_BUFFER_SIZE g) 0 }

/-! ## Strings, bitmaps and arcs -/

/-- `ssd1306_WriteString`.  The string is the list of its characters up to the
terminating NUL; a 0 inside the list ends the loop `while (*str)` as the
terminator does.  Returns the character returned by the C function and the
screen afterwards. -/
def ssd1306_WriteString (g : SSD1306_Geometry) :
    List Nat → FontDef → Screen → Option (Nat × Screen)
  | [], _, d => some (0, d)
  | c :: rest, Font, d =>
    if c = 0 then some (0, d)
    else
      match ssd1306_WriteChar g c Font d with
      | none => none
      | some r => if r.1 ≠ c then some (c, r.2) else ssd1306_WriteString g rest Font r.2

/-- The loop `while (bL < 8)` of `ssd1306_DrawBitmap` for the source byte
`tmpCh` at column `pX` of the band at `pY`, with `8 - bL` rounds left; returns
the column for the next byte and the screen. -/
def bitmapBits (g : SSD1306_Geometry) (pY : Nat) : Nat → Nat → Nat → Nat → Screen → Nat × Screen
  | 0, pX, _, _, d => (pX, d)
  | n + 1, pX, tmpCh, bL, d =>
    let d1 := if tmpCh &&& 0x01 ≠ 0 then ssd1306_DrawPixel g pX ((pY + bL) % 256) d else d
    let t := tmpCh >>> 1
    if t ≠ 0 then bitmapBits g pY n pX t (bL + 1) d1 else ((pX + 1) % 256, d1)

/-- The loop `while (pX < X + W)` of `ssd1306_DrawBitmap`: `idx` is the offset
of `pBMP` from the start of the image; reading past the image gives `none`. -/
def bitmapColumns (g : SSD1306_Geometry) (pBMP : List Nat) (X W pY : Nat) :
    Nat → Nat → Nat → Screen → Option (Nat × Screen)
  | 0, pX, idx, d => if pX < X + W then none else some (idx, d)
  | fuel + 1, pX, idx, d =>
    if pX < X + W then
      match pBMP[idx]? with
      | none => none
      | some tmpCh =>
        if tmpCh ≠ 0 then
          let r := bitmapBits g pY 8 pX tmpCh 0 d
          bitmapColumns g pBMP X W pY fuel r.1 (idx + 1) r.2
        else
          bitmapColumns g pBMP X W pY fuel ((pX + 1) % 256) (idx + 1) d
    else some (idx, d)

/-- The loop `while (pY < Y + H)` of `ssd1306_DrawBitmap`; every band runs the
column loop with fuel `fuelX`. -/
def bitmapBands (g : SSD1306_Geometry) (pBMP : List Nat) (X Y W H fuelX : Nat) :
    Nat → Nat → Nat → Screen → Option (Nat × Screen)
  | 0, pY, idx, d => if pY < Y + H then none else some (idx, d)
  | fuel + 1, pY, idx, d =>
    if pY < Y + H then
      match bitmapColumns g pBMP X W pY fuelX X idx d with
      | none => none
      | some r => bitmapBands g pBMP X Y W H fuelX fuel ((pY + 8) % 256) r.1 r.2
    else some (idx, d)

/-- `ssd1306_DrawBitmap`: the number of source bytes consumed and the screen
afterwards. -/
def ssd1306_DrawBitmap (g : SSD1306_Geometry) (fuel : Nat) (X Y W H : Nat) (pBMP : List Nat)
    (d : Screen) : Option (Nat × Screen) :=
  bitmapBands g pBMP X Y W H fuel fuel Y 0 d

/-- `ssd1306_NormalizeTo0_360`.  In the `else` branch the remainder is stored
in `loc_angle` and then overwritten by `(par_deg != 0) ? par_deg : 360`. -/
def ssd1306_NormalizeTo0_360 (par_deg : Nat) : Nat :=
  if par_deg ≤ 360 then par_deg
  else
    let loc_angle := par_deg % 360
    let loc_angle := (fun _ => if par_deg ≠ 0 then par_deg else 360) loc_angle
    loc_angle

/-- The macro `CIRCLE_APPROXIMATION_SEGMENTS` of `ssd1306_DrawArc`. -/
def CIRCLE_APPROXIMATION_SEGMENTS : Nat := 36

/-- The value of `count` before the loop of `ssd1306_DrawArc`. -/
def ssd1306_DrawArc_count (start_angle : Nat) : Nat :=
  (ssd1306_NormalizeTo0_360 start_angle * CIRCLE_APPROXIMATION_SEGMENTS) / 360

/-- The value of `approx_segments` in `ssd1306_DrawArc`, computed in
`uint32_t`. -/
def ssd1306_DrawArc_approx_segments (sweep : Nat) : Nat :=
  ((ssd1306_NormalizeTo0_360 sweep * CIRCLE_APPROXIMATION_SEGMENTS) % 2 ^ 32) / 360

/-! ## Descriptions used by the statements about text, bitmaps and arcs -/

/-- The nearest integer to `sweep / 10`, halves rounded up. -/
def nearestTenth (sweep : Nat) : Nat := (sweep + 5) / 10

/-- The number of lit pixels of the screen. -/
def litCount (g : SSD1306_Geometry) (d : Screen) : Nat :=
  (((List.range (SSD1306_WIDTH g)).product (List.range (SSD1306_HEIGHT g))).filter
    fun p => pixelLit g d p.1 p.2).length

/-- The screen after `ssd1306_WriteChar` has written every character of the
list, in order; `none` when one of them is not written. -/
def writeGlyphs (g : SSD1306_Geometry) (Font : FontDef) : List Nat → Screen → Option Screen
  | [], d => some d
  | c :: cs, d =>
    match ssd1306_WriteChar g c Font d with
    | none => none
    | some r => if r.1 = c then writeGlyphs g Font cs r.2 else none

/-- Bit `15 - j` of the glyph row word `b`, the bit shown in column `j`
(MSB first); columns from 16 on have no bit. -/
def glyphBit (b j : Nat) : Bool := decide (j ≤ 15) && b.testBit (15 - j)

/-- Whether the pixel in row `i`, column `j` of the cell of character `ch` is
lit after an opaque glyph is drawn with colour `c`: a set bit of the row word
`Font.data[(ch - 32) * FontHeight + i]` shows `c`, a clear bit the opposite
colour. -/
def glyphPixel (Font : FontDef) (ch : Nat) (c : SSD1306_COLOR) (i j : Nat) : Bool :=
  glyphBit (Font.data.getD ((ch - 32) * Font.FontHeight + i) 0) j ==
    decide (c = SSD1306_COLOR.White)

/-- The pixel with coordinate `t` along the major axis of a line and `q` along
its minor axis is lit: `(q, t)` for a steep line, `(t, q)` otherwise. -/
def litMajor (g : SSD1306_Geometry) (d : Screen) (steep : Bool) (t q : Int) : Prop :=
  if steep then litAt g d q t else litAt g d t q

/-- The pixels of the set bits of the source byte `tmpCh` drawn at column `pX`
of the band that starts at row `pY`: bit `k` is row `pY + k`. -/
def bytePoints (pX pY tmpCh : Nat) : List (Nat × Nat) :=
  (List.range 8).filterMap fun k => if tmpCh.testBit k then some (pX, pY + k) else none

/-- The pixels of band `j` of a bitmap of width `W` at `(X, Y)`: source byte
`j * W + i` is column `X + i` of the band at row `Y + 8 * j`, columns from left
to right. -/
def bandPoints (X Y W : Nat) (pBMP : List Nat) (j : Nat) : List (Nat × Nat) :=
  (List.range W).flatMap fun i => bytePoints (X + i) (Y + 8 * j) (pBMP.getD (j * W + i) 0)

/-- The pixels of the set bits of a bitmap with `bands` bands, bands from top
to bottom. -/
def bitmapPoints (X Y W : Nat) (pBMP : List Nat) (bands : Nat) : List (Nat × Nat) :=
  (List.range bands).flatMap (bandPoints X Y W pBMP)

/-! ## Descriptions used by the statements about the one-shot engine -/

theorem and3_eq_mod (x : Nat) : x &&& 3 = x % 4 :=
  Nat.and_pow_two_sub_one_eq_mod x 2

theorem and7_eq_mod (x : Nat) : x &&& 7 = x % 8 :=
  Nat.and_pow_two_sub_one_eq_mod x 3

theorem shr2_eq_div (x : Nat) : x >>> 2 = x / 4 := by
  rw [Nat.shiftRight_eq_div_pow]

theorem passEvent_isTransaction (g : SSD1306_Geometry) (d : Screen) (i : Nat) :
    (passEvent g d i).isTransaction = true := by
  unfold passEvent
  split_ifs <;> rfl

theorem transactions_map_passEvent (g : SSD1306_Geometry) (d : Screen) (l : List Nat) :
    transactions (l.map (passEvent g d)) = l.map (passEvent g d) := by
  unfold transactions
  rw [List.filter_eq_self]
  intro e he
  obtain ⟨i, _, rfl⟩ := List.mem_map.1 he
  exact passEvent_isTransaction g d i

namespace DmaOneShot

theorem HAL_idle (g : SSD1306_Geometry) (s : Engine) (h : s.ssd1306_updatestatus = 0) :
    HAL_I2C_MemTxCpltCallback g s = (s, []) := by
  simp [HAL_I2C_MemTxCpltCallback, h]

theorem HAL_end (g : SSD1306_Geometry) (s : Engine) (h0 : s.ssd1306_updatestatus ≠ 0)
    (h : ¬ s.ssd1306_updatestatus < s.ssd1306_updateend) :
    HAL_I2C_MemTxCpltCallback g s = ({ s with ssd1306_updatestatus := 0 }, []) := by
  simp [HAL_I2C_MemTxCpltCallback, h0, h, ssd1306_UpdateCompletedCallback]

theorem HAL_active (g : SSD1306_Geometry) (s : Engine) (j : Nat)
    (hj : j < SSD1306_HEIGHT g / 2)
    (hs : s.ssd1306_updatestatus = SSD1306_HEIGHT g + j)
    (he : s.ssd1306_updateend = SSD1306_HEIGHT g + SSD1306_HEIGHT g / 2) :
    HAL_I2C_MemTxCpltCallback g s =
      ({ s with ssd1306_updatestatus := SSD1306_HEIGHT g + (j + 1) },
       [passEvent g s.screen (j + 1)]) := by
  cases g <;>
    simp only [SSD1306_HEIGHT, SSD1306_WIDTH, pageCount] at * <;>
    simp only [HAL_I2C_MemTxCpltCallback, passEvent, hs, he, and3_eq_mod, shr2_eq_div,
      SSD1306_HEIGHT, SSD1306_WIDTH, pageCount]
  · have e1 : (64 + j + 1) % 256 = 64 + (j + 1) := by omega
    have e2 : (64 + (j + 1)) % 4 = (j + 1) % 4 := by omega
    have e3 : (64 + (j + 1)) / 4 % 8 = (j + 1) / 4 % 8 := by omega
    have e4 : 64 + j < 64 + 64 / 2 := by omega
    have e5 : 64 + j ≠ 0 := by omega
    rw [if_pos e5, if_pos e4, e1, e2, show 64 / 8 - 1 = 7 from rfl, and7_eq_mod, e3]
    split_ifs <;> rfl
  · have e1 : (32 + j + 1) % 256 = 32 + (j + 1) := by omega
    have e2 : (32 + (j + 1)) % 4 = (j + 1) % 4 := by omega
    have e3 : (32 + (j + 1)) / 4 % 4 = (j + 1) / 4 % 4 := by omega
    have e4 : 32 + j < 32 + 32 / 2 := by omega
    have e5 : 32 + j ≠ 0 := by omega
    rw [if_pos e5, if_pos e4, e1, e2, show 32 / 8 - 1 = 3 from rfl, and3_eq_mod, e3]
    split_ifs <;> rfl

theorem completions_idle (g : SSD1306_Geometry) (k : Nat) (s : Engine)
    (h : s.ssd1306_updatestatus = 0) : completions g k s = (s, []) := by
  induction k with
  | zero => rfl
  | succ k ih => simp [completions, HAL_idle g s h, ih]

theorem completions_active (g : SSD1306_Geometry) (k : Nat) :
    ∀ (j : Nat) (s : Engine), j + k ≤ SSD1306_HEIGHT g / 2 →
      s.ssd1306_updatestatus = SSD1306_HEIGHT g + j →
      s.ssd1306_updateend = SSD1306_HEIGHT g + SSD1306_HEIGHT g / 2 →
      completions g k s =
        ({ s with ssd1306_updatestatus := SSD1306_HEIGHT g + (j + k) },
         (List.range' (j + 1) k).map (passEvent g s.screen)) := by
  induction k with
  | zero =>
    intro j s _ hs _
    cases s
    simp only [Nat.add_zero] at *
    simp [completions, hs]
  | succ k ih =>
    intro j s hjk hs he
    have h1 := HAL_active g s j (by omega) hs he
    have h2 := ih (j + 1) { s with ssd1306_updatestatus := SSD1306_HEIGHT g + (j + 1) }
      (by omega) rfl he
    simp only [completions, h1, h2, List.range'_succ, List.map_cons]
    simp [Nat.add_assoc, Nat.add_comm 1 k]

theorem exec_txCplt (g : SSD1306_Geometry) (k : Nat) (s : Engine) :
    exec g (List.replicate k Action.txCplt) s = completions g k s := by
  induction k generalizing s with
  | zero => rfl
  | succ k ih => simp [List.replicate_succ, exec, step, completions, ih]

theorem completions_add (g : SSD1306_Geometry) (a b : Nat) (s : Engine) :
    completions g (a + b) s =
      ((completions g b (completions g a s).1).1,
       (completions g a s).2 ++ (completions g b (completions g a s).1).2) := by
  induction a generalizing s with
  | zero => simp [completions]
  | succ a ih =>
    rw [Nat.succ_add]
    simp only [completions, ih, List.append_assoc]

/-- From Idle, `ssd1306_UpdateScreen` followed by `k ≤ SSD1306_HEIGHT / 2`
completions. -/
theorem start_then_completions (g : SSD1306_Geometry) (s : Engine) (k : Nat)
    (h : s.ssd1306_updatestatus = 0) (hk : k ≤ SSD1306_HEIGHT g / 2) :
    exec g (Action.updateScreen :: List.replicate k Action.txCplt) s =
      ({ s with
          ssd1306_updatestatus := SSD1306_HEIGHT g + k
          ssd1306_updateend := SSD1306_HEIGHT g + SSD1306_HEIGHT g / 2 },
       BusEvent.command 0xB0 :: (List.range' 1 k).map (passEvent g s.screen)) := by
  have h2 := completions_active g k 0
    { s with
        ssd1306_updatestatus := SSD1306_HEIGHT g
        ssd1306_updateend := SSD1306_HEIGHT g + SSD1306_HEIGHT g / 2 }
    (by omega) rfl rfl
  simp only [exec, step, ssd1306_UpdateScreen, h, if_true, exec_txCplt, h2]
  simp

/-- From Idle, `ssd1306_UpdateScreen` followed by more than
`SSD1306_HEIGHT / 2` completions. -/
theorem start_then_idle (g : SSD1306_Geometry) (s : Engine) (k : Nat)
    (h : s.ssd1306_updatestatus = 0) (hk : SSD1306_HEIGHT g / 2 < k) :
    exec g (Action.updateScreen :: List.replicate k Action.txCplt) s =
      ({ s with
          ssd1306_updatestatus := 0
          ssd1306_updateend := SSD1306_HEIGHT g + SSD1306_HEIGHT g / 2 },
       BusEvent.command 0xB0 ::
         (List.range' 1 (SSD1306_HEIGHT g / 2)).map (passEvent g s.screen)) := by
  obtain ⟨m, rfl⟩ : ∃ m, k = SSD1306_HEIGHT g / 2 + (1 + m) := ⟨k - SSD1306_HEIGHT g / 2 - 1, by omega⟩
  have h2 := completions_active g (SSD1306_HEIGHT g / 2) 0
    { s with
        ssd1306_updatestatus := SSD1306_HEIGHT g
        ssd1306_updateend := SSD1306_HEIGHT g + SSD1306_HEIGHT g / 2 }
    (by omega) rfl rfl
  have hH : SSD1306_HEIGHT g ≠ 0 := by cases g <;> simp [SSD1306_HEIGHT]
  simp only [exec, step, ssd1306_UpdateScreen, h, if_true, exec_txCplt, completions_add, h2]
  rw [show completions g 1 = fun s => ((HAL_I2C_MemTxCpltCallback g s).1,
      (HAL_I2C_MemTxCpltCallback g s).2 ++ []) from rfl]
  simp only [Nat.zero_add]
  rw [HAL_end g _ (by simp only [ne_eq]; omega) (by simp), completions_idle g m _ rfl]
  simp

end DmaOneShot

/-- The transactions of one pass, in the order the counter produces them, are
those of the blocking `ssd1306_UpdateScreen` followed by one more page
select of page 0. -/
theorem pass_eq_blocking (g : SSD1306_Geometry) (d : Screen) :
    BusEvent.command 0xB0 :: (List.range' 1 (SSD1306_HEIGHT g / 2)).map (passEvent g d) =
      Blocking.ssd1306_UpdateScreen g d ++ [BusEvent.command 0xB0] := by
  cases g <;> rfl

/-- C1, as amended: in the one-shot build, from Idle, `ssd1306_UpdateScreen`
followed by completions only keeps the engine Active while it issues
`4 * pageCount + 1` transactions (one per completion, after the first one of
the call itself), and the completion after the last of them makes the engine
Idle; the transactions are the `4 * pageCount` of the blocking refresh
followed by one more page select `0xB0`. -/
theorem DmaOneShot.refresh_transaction_count (g : SSD1306_Geometry) (s : DmaOneShot.Engine)
    (h : s.ssd1306_updatestatus = 0) :
    (∀ k, k ≤ 4 * pageCount g →
      (DmaOneShot.exec g (.updateScreen :: List.replicate k .txCplt) s).1.ssd1306_updatestatus ≠ 0 ∧
      (transactions (DmaOneShot.exec g (.updateScreen :: List.replicate k .txCplt) s).2).length
        = k + 1) ∧
    (∀ k, 4 * pageCount g < k →
      (DmaOneShot.exec g (.updateScreen :: List.replicate k .txCplt) s).1.ssd1306_updatestatus = 0 ∧
      (DmaOneShot.exec g (.updateScreen :: List.replicate k .txCplt) s).2
        = Blocking.ssd1306_UpdateScreen g s.screen ++ [BusEvent.command 0xB0] ∧
      (transactions (DmaOneShot.exec g (.updateScreen :: List.replicate k .txCplt) s).2).length
        = 4 * pageCount g + 1) := by
  have hpc : 4 * pageCount g = SSD1306_HEIGHT g / 2 := by cases g <;> rfl
  have hH : SSD1306_HEIGHT g ≠ 0 := by cases g <;> simp [SSD1306_HEIGHT]
  refine ⟨fun k hk => ?_, fun k hk => ?_⟩
  · rw [DmaOneShot.start_then_completions g s k h (by omega)]
    refine ⟨by simp only [ne_eq]; omega, ?_⟩
    have := transactions_map_passEvent g s.screen (List.range' 1 k)
    simp only [transactions] at this ⊢
    rw [List.filter_cons_of_pos (by rfl), this]
    simp
  · rw [DmaOneShot.start_then_idle g s k h (by omega)]
    refine ⟨rfl, pass_eq_blocking g s.screen, ?_⟩
    have := transactions_map_passEvent g s.screen (List.range' 1 (SSD1306_HEIGHT g / 2))
    simp only [transactions] at this ⊢
    rw [List.filter_cons_of_pos (by rfl), this]
    simp [hpc]

/-- Witness for `DmaOneShot.refresh_transaction_count`: the reset state of
the 128x64 display. -/
theorem DmaOneShot.refresh_transaction_count_witness :
    (DmaOneShot.reset .GEOMETRY_128_64).ssd1306_updatestatus = 0 ∧
    ((DmaOneShot.exec .GEOMETRY_128_64 (.updateScreen :: List.replicate 33 .txCplt)
        (DmaOneShot.reset .GEOMETRY_128_64)).1.ssd1306_updatestatus = 0 ∧
      (transactions (DmaOneShot.exec .GEOMETRY_128_64 (.updateScreen :: List.replicate 33 .txCplt)
        (DmaOneShot.reset .GEOMETRY_128_64)).2).length = 4 * pageCount .GEOMETRY_128_64 + 1) :=
  ⟨rfl,
   ((DmaOneShot.refresh_transaction_count .GEOMETRY_128_64
      (DmaOneShot.reset .GEOMETRY_128_64) rfl).2 33 (by decide)).1,
   ((DmaOneShot.refresh_transaction_count .GEOMETRY_128_64
      (DmaOneShot.reset .GEOMETRY_128_64) rfl).2 33 (by decide)).2.2⟩

set_option maxRecDepth 100000 in
/-- C1, counterexample: on the 128x64 display (`4 * pageCount = 32`), after
`ssd1306_UpdateScreen` from reset and 32 completions the engine has issued
33 transactions and is still Active (counter 96); it is Idle only after the
33rd completion, with 33 transactions issued, the last one `0xB0`. -/
theorem DmaOneShot.refresh_transaction_count_counterexample :
    4 * pageCount .GEOMETRY_128_64 = 32 ∧
    (DmaOneShot.exec .GEOMETRY_128_64 (.updateScreen :: List.replicate 32 .txCplt)
      (DmaOneShot.reset .GEOMETRY_128_64)).1.ssd1306_updatestatus = 96 ∧
    (transactions (DmaOneShot.exec .GEOMETRY_128_64 (.updateScreen :: List.replicate 32 .txCplt)
      (DmaOneShot.reset .GEOMETRY_128_64)).2).length = 33 ∧
    (DmaOneShot.exec .GEOMETRY_128_64 (.updateScreen :: List.replicate 33 .txCplt)
      (DmaOneShot.reset .GEOMETRY_128_64)).1.ssd1306_updatestatus = 0 ∧
    (transactions (DmaOneShot.exec .GEOMETRY_128_64 (.updateScreen :: List.replicate 33 .txCplt)
      (DmaOneShot.reset .GEOMETRY_128_64)).2).length = 33 ∧
    (transactions (DmaOneShot.exec .GEOMETRY_128_64 (.updateScreen :: List.replicate 33 .txCplt)
      (DmaOneShot.reset .GEOMETRY_128_64)).2).getLast? = some (BusEvent.command 0xB0) := by
  decide

set_option maxRecDepth 100000 in
theorem andFC_eq (x : Nat) (h : x < 256) : x &&& 0xFC = 4 * (x / 4) := by
  revert x
  decide

/-- C7, as amended: in the one-shot build `ssd1306_UpdateScreen` called in an
Active state issues no transaction and does not touch the drawing state; it
leaves `ssd1306_updatestatus` and `ssd1306_updateend` unchanged when
`ssd1306_updatestatus < SSD1306_HEIGHT`; when
`ssd1306_updatestatus >= SSD1306_HEIGHT` it moves the counter back by
`SSD1306_HEIGHT / 2` and sets `ssd1306_updateend` to the old counter plus one,
rounded down to a multiple of 4. -/
theorem DmaOneShot.updateScreen_when_active (g : SSD1306_Geometry) (s : DmaOneShot.Engine)
    (h : s.ssd1306_updatestatus ≠ 0) :
    (DmaOneShot.ssd1306_UpdateScreen g s).2 = [] ∧
    (DmaOneShot.ssd1306_UpdateScreen g s).1.screen = s.screen ∧
    (s.ssd1306_updatestatus < SSD1306_HEIGHT g → (DmaOneShot.ssd1306_UpdateScreen g s).1 = s) ∧
    (SSD1306_HEIGHT g ≤ s.ssd1306_updatestatus → s.ssd1306_updatestatus < 255 →
      (DmaOneShot.ssd1306_UpdateScreen g s).1.ssd1306_updatestatus
        = s.ssd1306_updatestatus - SSD1306_HEIGHT g / 2 ∧
      (DmaOneShot.ssd1306_UpdateScreen g s).1.ssd1306_updateend
        = 4 * ((s.ssd1306_updatestatus + 1) / 4)) := by
  refine ⟨?_, ?_, ?_, ?_⟩
  · simp only [DmaOneShot.ssd1306_UpdateScreen, if_neg h]
    split_ifs <;> rfl
  · simp only [DmaOneShot.ssd1306_UpdateScreen, if_neg h]
    split_ifs <;> rfl
  · intro hlt
    simp only [DmaOneShot.ssd1306_UpdateScreen, if_neg h, ge_iff_le]
    rw [if_neg (by omega)]
  · intro hge h255
    have hH : SSD1306_HEIGHT g / 2 ≤ SSD1306_HEIGHT g := Nat.div_le_self _ _
    have e1 : (s.ssd1306_updatestatus - SSD1306_HEIGHT g / 2) % 256
        = s.ssd1306_updatestatus - SSD1306_HEIGHT g / 2 := by omega
    have e2 : s.ssd1306_updatestatus - SSD1306_HEIGHT g / 2 + (SSD1306_HEIGHT g / 2 + 1)
        = s.ssd1306_updatestatus + 1 := by omega
    simp only [DmaOneShot.ssd1306_UpdateScreen, if_neg h, ge_iff_le, if_pos hge, e1, e2]
    exact ⟨trivial, andFC_eq _ (by omega)⟩

/-- Witness for `DmaOneShot.updateScreen_when_active`: the state right after
a start on the 128x64 display (counter 64, end 96). -/
theorem DmaOneShot.updateScreen_when_active_witness :
    (DmaOneShot.ssd1306_UpdateScreen .GEOMETRY_128_64
      (DmaOneShot.reset .GEOMETRY_128_64)).1.ssd1306_updatestatus ≠ 0 ∧
    (DmaOneShot.ssd1306_UpdateScreen .GEOMETRY_128_64
      (DmaOneShot.ssd1306_UpdateScreen .GEOMETRY_128_64
        (DmaOneShot.reset .GEOMETRY_128_64)).1).2 = [] :=
  ⟨by decide,
   (DmaOneShot.updateScreen_when_active .GEOMETRY_128_64
      (DmaOneShot.ssd1306_UpdateScreen .GEOMETRY_128_64
        (DmaOneShot.reset .GEOMETRY_128_64)).1 (by decide)).1⟩

/-- C7, counterexample: on the 128x64 display the state right after a start is
Active (counter 64, end 96), and a second `ssd1306_UpdateScreen` changes the
counter to 32 and the end to 64. -/
theorem DmaOneShot.updateScreen_when_active_counterexample :
    (DmaOneShot.ssd1306_UpdateScreen .GEOMETRY_128_64
      (DmaOneShot.reset .GEOMETRY_128_64)).1.ssd1306_updatestatus = 64 ∧
    (DmaOneShot.ssd1306_UpdateScreen .GEOMETRY_128_64
      (DmaOneShot.reset .GEOMETRY_128_64)).1.ssd1306_updateend = 96 ∧
    (DmaOneShot.ssd1306_UpdateScreen .GEOMETRY_128_64
      (DmaOneShot.ssd1306_UpdateScreen .GEOMETRY_128_64
        (DmaOneShot.reset .GEOMETRY_128_64)).1).1.ssd1306_updatestatus = 32 ∧
    (DmaOneShot.ssd1306_UpdateScreen .GEOMETRY_128_64
      (DmaOneShot.ssd1306_UpdateScreen .GEOMETRY_128_64
        (DmaOneShot.reset .GEOMETRY_128_64)).1).1.ssd1306_updateend = 64 := by
  decide

/-- C9: in the one-shot build `ssd1306_UpdateScreenCompleted` returns 1
exactly when the engine is Idle (`ssd1306_updatestatus == 0`) and 0
otherwise, in every state. -/
theorem DmaOneShot.updateScreenCompleted_iff_idle (s : DmaOneShot.Engine) :
    (DmaOneShot.ssd1306_UpdateScreenCompleted s = 1 ↔ s.ssd1306_updatestatus = 0) ∧
    (DmaOneShot.ssd1306_UpdateScreenCompleted s = 0 ↔ s.ssd1306_updatestatus ≠ 0) := by
  unfold DmaOneShot.ssd1306_UpdateScreenCompleted
  by_cases h : s.ssd1306_updatestatus = 0 <;> simp [h]

/-- C10: for `x >= SSD1306_WIDTH` or `y >= SSD1306_HEIGHT`, whatever the
colour, the inversion flag and the buffer, `ssd1306_DrawPixel(x, y)` leaves
the drawing state, and so every byte of the buffer, unchanged. -/
theorem drawPixel_out_of_range (g : SSD1306_Geometry) (x y : Nat) (d : Screen)
    (h : x ≥ SSD1306_WIDTH g ∨ y ≥ SSD1306_HEIGHT g) :
    ssd1306_DrawPixel g x y d = d ∧
    (ssd1306_DrawPixel g x y d).SSD1306_Buffer = d.SSD1306_Buffer := by
  have e : ssd1306_DrawPixel g x y d = d := by
    unfold ssd1306_DrawPixel
    rw [if_pos h]
  exact ⟨e, by rw [e]⟩

/-- Witness for `drawPixel_out_of_range`: pixel (128, 10) on the 128x64
display, colour White, on an all-`0xA5` buffer. -/
theorem drawPixel_out_of_range_witness :
    (128 ≥ SSD1306_WIDTH .GEOMETRY_128_64 ∨ 10 ≥ SSD1306_HEIGHT .GEOMETRY_128_64) ∧
    (ssd1306_DrawPixel .GEOMETRY_128_64 128 10
      { SSD1306 := { CurrentX := 0, CurrentY := 0, Inverted := 0,
                     Color := SSD1306_COLOR.White, Initialized := 1 }
        SSD1306_Buffer := List.replicate 1024 0xA5 }).SSD1306_Buffer
      = List.replicate 1024 0xA5 :=
  ⟨Or.inl (by decide),
   (drawPixel_out_of_range .GEOMETRY_128_64 128 10
      { SSD1306 := { CurrentX := 0, CurrentY := 0, Inverted := 0,
                     Color := SSD1306_COLOR.White, Initialized := 1 }
        SSD1306_Buffer := List.replicate 1024 0xA5 } (Or.inl (by decide))).2⟩

/-! ## Continuous build: one completion step -/

namespace DmaCont

theorem HAL_step (g : SSD1306_Geometry) (hook : Nat → Screen → Screen) (s : Engine) (j : Nat)
    (hj : j < SSD1306_HEIGHT g / 2)
    (hs : s.ssd1306_updatestatus = SSD1306_HEIGHT g + j)
    (he : s.ssd1306_updateend = SSD1306_HEIGHT g + SSD1306_HEIGHT g / 2) :
    ∃ c, HAL_I2C_MemTxCpltCallback g hook s =
      ({ s with
          ssd1306_updatestatus := SSD1306_HEIGHT g + (j + 1)
          i2c_command := c
          screen := passScreen g hook s.ssd1306_RasterIntRegs (j + 1) s.screen },
       passStep g hook s.ssd1306_RasterIntRegs (j + 1) s.screen) := by
  cases g <;>
    simp only [SSD1306_HEIGHT, SSD1306_WIDTH, pageCount] at * <;>
    simp only [HAL_I2C_MemTxCpltCallback, passEvent, passStep, passScreen, hs, he, and3_eq_mod,
      shr2_eq_div, SSD1306_HEIGHT, SSD1306_WIDTH, pageCount]
  · have e1 : (64 + j + 1) % 256 = 64 + (j + 1) := by omega
    have e2 : (64 + (j + 1)) % 4 = (j + 1) % 4 := by omega
    have e3 : (64 + (j + 1)) / 4 % 8 = (j + 1) / 4 % 8 := by omega
    have e4 : 64 + j < 64 + 64 / 2 := by omega
    have e5 : 64 + j ≠ 0 := by omega
    rw [if_pos e5, if_pos e4, e1, e2, show 64 / 8 - 1 = 7 from rfl, and7_eq_mod, e3,
      show 64 / 8 = 8 from rfl]
    by_cases h3 : (j + 1) % 4 = 3
    · refine ⟨s.i2c_command, ?_⟩
      by_cases hb : s.ssd1306_RasterIntRegs &&& 1 <<< ((j + 1) / 4 % 8) ≠ 0
      · simp only [h3, if_pos hb, if_true, true_and]
      · simp only [h3, if_neg hb, if_true, true_and]
    · refine ⟨if (j + 1) % 4 = 0 then 176 + (j + 1) / 4 % 8
        else if (j + 1) % 4 = 1 then SETLOWCOLUMN
        else if (j + 1) % 4 = 2 then SETHIGHCOLUMN else s.i2c_command, ?_⟩
      rw [if_neg h3]
      simp only [h3, false_and, if_false, List.nil_append]
      have h2 : (j + 1) % 4 = 0 ∨ (j + 1) % 4 = 1 ∨ (j + 1) % 4 = 2 := by omega
      rcases h2 with h | h | h <;> simp [h]
  · have e1 : (32 + j + 1) % 256 = 32 + (j + 1) := by omega
    have e2 : (32 + (j + 1)) % 4 = (j + 1) % 4 := by omega
    have e3 : (32 + (j + 1)) / 4 % 4 = (j + 1) / 4 % 4 := by omega
    have e4 : 32 + j < 32 + 32 / 2 := by omega
    have e5 : 32 + j ≠ 0 := by omega
    rw [if_pos e5, if_pos e4, e1, e2, show 32 / 8 - 1 = 3 from rfl, and3_eq_mod, e3,
      show 32 / 8 = 4 from rfl]
    by_cases h3 : (j + 1) % 4 = 3
    · refine ⟨s.i2c_command, ?_⟩
      by_cases hb : s.ssd1306_RasterIntRegs &&& 1 <<< ((j + 1) / 4 % 4) ≠ 0
      · simp only [h3, if_pos hb, if_true, true_and]
      · simp only [h3, if_neg hb, if_true, true_and]
    · refine ⟨if (j + 1) % 4 = 0 then 176 + (j + 1) / 4 % 4
        else if (j + 1) % 4 = 1 then SETLOWCOLUMN
        else if (j + 1) % 4 = 2 then SETHIGHCOLUMN else s.i2c_command, ?_⟩
      rw [if_neg h3]
      simp only [h3, false_and, if_false, List.nil_append]
      have h2 : (j + 1) % 4 = 0 ∨ (j + 1) % 4 = 1 ∨ (j + 1) % 4 = 2 := by omega
      rcases h2 with h | h | h <;> simp [h]

theorem HAL_end_pending (g : SSD1306_Geometry) (hook : Nat → Screen → Screen) (s : Engine)
    (h0 : s.ssd1306_updatestatus ≠ 0) (h : ¬ s.ssd1306_updatestatus < s.ssd1306_updateend)
    (hc : s.ssd1306_command ≠ 0) :
    HAL_I2C_MemTxCpltCallback g hook s =
      ({ s with i2c_command := s.ssd1306_command, ssd1306_command := 0 },
       [BusEvent.command s.ssd1306_command]) := by
  simp only [HAL_I2C_MemTxCpltCallback, if_pos h0, if_neg h, if_pos hc]

theorem HAL_end_restart (g : SSD1306_Geometry) (hook : Nat → Screen → Screen) (s : Engine)
    (h0 : s.ssd1306_updatestatus ≠ 0) (h : ¬ s.ssd1306_updatestatus < s.ssd1306_updateend)
    (hc : s.ssd1306_command = 0) (hu : s.ssd1306_ContUpdate ≠ 0) :
    HAL_I2C_MemTxCpltCallback g hook s =
      ({ s with i2c_command := 0xB0, ssd1306_updatestatus := SSD1306_HEIGHT g },
       [BusEvent.command 0xB0]) := by
  have hH : SSD1306_HEIGHT g ≠ 0 := by cases g <;> simp [SSD1306_HEIGHT]
  simp only [HAL_I2C_MemTxCpltCallback, if_pos h0, if_neg h, hc, ne_eq, not_true_eq_false,
    if_false, if_pos hu, if_pos hH]

theorem completions_split (g : SSD1306_Geometry) (hook : Nat → Screen → Screen) (a b : Nat)
    (s : Engine) :
    completions g hook (a + b) s =
      ((completions g hook b (completions g hook a s).1).1,
       (completions g hook a s).2 ++ (completions g hook b (completions g hook a s).1).2) := by
  induction a generalizing s with
  | zero => simp [completions]
  | succ a ih =>
    rw [Nat.succ_add]
    simp only [completions, ih, List.append_assoc]

theorem completions_one (g : SSD1306_Geometry) (hook : Nat → Screen → Screen) (s : Engine) :
    completions g hook 1 s = HAL_I2C_MemTxCpltCallback g hook s := by
  simp [completions]

theorem completions_pass (g : SSD1306_Geometry) (hook : Nat → Screen → Screen) (k : Nat) :
    ∀ (j : Nat) (s : Engine), j + k ≤ SSD1306_HEIGHT g / 2 →
      s.ssd1306_updatestatus = SSD1306_HEIGHT g + j →
      s.ssd1306_updateend = SSD1306_HEIGHT g + SSD1306_HEIGHT g / 2 →
      ∃ c, completions g hook k s =
        ({ s with
            ssd1306_updatestatus := SSD1306_HEIGHT g + (j + k)
            i2c_command := c
            screen := (passTrace g hook s.ssd1306_RasterIntRegs k (j + 1) s.screen).1 },
         (passTrace g hook s.ssd1306_RasterIntRegs k (j + 1) s.screen).2) := by
  induction k with
  | zero =>
    intro j s _ hs _
    refine ⟨s.i2c_command, ?_⟩
    cases s
    simp only [Nat.add_zero] at *
    simp [completions, passTrace, hs]
  | succ k ih =>
    intro j s hjk hs he
    obtain ⟨c1, h1⟩ := HAL_step g hook s j (by omega) hs he
    obtain ⟨c2, h2⟩ := ih (j + 1)
      { s with
          ssd1306_updatestatus := SSD1306_HEIGHT g + (j + 1)
          i2c_command := c1
          screen := passScreen g hook s.ssd1306_RasterIntRegs (j + 1) s.screen }
      (by omega) rfl he
    refine ⟨c2, ?_⟩
    simp only [completions, h1, h2, passTrace]
    simp [Nat.add_assoc, Nat.add_comm 1 k]

end DmaCont

/-! ## Facts about the pass descriptions -/

theorem passTrace_add (g : SSD1306_Geometry) (hook : Nat → Screen → Screen) (regs : Nat)
    (a b i : Nat) (d : Screen) :
    passTrace g hook regs (a + b) i d =
      ((passTrace g hook regs b (i + a) (passTrace g hook regs a i d).1).1,
       (passTrace g hook regs a i d).2 ++
         (passTrace g hook regs b (i + a) (passTrace g hook regs a i d).1).2) := by
  induction a generalizing i d with
  | zero => simp [passTrace]
  | succ a ih =>
    rw [Nat.succ_add]
    simp only [passTrace, ih, List.append_assoc]
    simp [Nat.add_assoc, Nat.add_comm 1 a]

/-- The three steps after the page select of page `p`: low column, high
column, then the hook if selected and the data of the page. -/
theorem passTrace_page (g : SSD1306_Geometry) (hook : Nat → Screen → Screen) (regs : Nat)
    (p : Nat) (hp : p < pageCount g) (d : Screen) :
    passTrace g hook regs 3 (4 * p + 1) d =
      ((if regs &&& (1 <<< p) ≠ 0 then hook p d else d),
       [BusEvent.command SETLOWCOLUMN, BusEvent.command SETHIGHCOLUMN] ++
         (if regs &&& (1 <<< p) ≠ 0 then [BusEvent.rasterInt p] else []) ++
         [BusEvent.data (SSD1306_WIDTH g * p)
            (bufferBytes (if regs &&& (1 <<< p) ≠ 0 then hook p d else d)
              (SSD1306_WIDTH g * p) (SSD1306_WIDTH g))]) := by
  have a1 : (4 * p + 1) % 4 = 1 := by omega
  have a2 : (4 * p + 1 + 1) % 4 = 2 := by omega
  have a3 : (4 * p + 1 + 1 + 1) % 4 = 3 := by omega
  have a4 : (4 * p + 1 + 1 + 1) / 4 % pageCount g = p := by
    rw [show (4 * p + 1 + 1 + 1) / 4 = p by omega]
    exact Nat.mod_eq_of_lt hp
  simp only [passTrace, passStep, passScreen, passEvent, a1, a2, a3, a4]
  simp

/-- The page select that follows the data of page `p`. -/
theorem passTrace_select (g : SSD1306_Geometry) (hook : Nat → Screen → Screen) (regs : Nat)
    (p : Nat) (d : Screen) :
    passTrace g hook regs 1 (4 * p + 4) d =
      (d, [BusEvent.command (0xB0 + (p + 1) % pageCount g)]) := by
  have a1 : (4 * p + 4) % 4 = 0 := by omega
  have a2 : (4 * p + 4) / 4 = p + 1 := by omega
  simp only [passTrace, passStep, passScreen, passEvent, a1, a2]
  simp

theorem transactions_append (a b : List BusEvent) :
    transactions (a ++ b) = transactions a ++ transactions b := by
  simp [transactions]

theorem transactions_rasterOpt (c : Prop) [Decidable c] (p : Nat) :
    transactions (if c then [BusEvent.rasterInt p] else []) = [] := by
  split_ifs <;> rfl

/-- Page select of page `p` followed by `4 * m + 3` steps: the transactions
are the refresh of the pages `p, .., p + m`. -/
theorem passTrace_pages (g : SSD1306_Geometry) (hook : Nat → Screen → Screen) (regs : Nat)
    (m : Nat) : ∀ (p : Nat) (d : Screen), p + m < pageCount g →
      transactions (BusEvent.command (0xB0 + p) ::
          (passTrace g hook regs (4 * m + 3) (4 * p + 1) d).2) =
        rasterPages g hook regs p (m + 1) d := by
  induction m with
  | zero =>
    intro p d hp
    rw [show 4 * 0 + 3 = 3 from rfl, passTrace_page g hook regs p (by omega) d]
    simp only [rasterPages, Blocking.updatePage, List.append_nil]
    rw [show ∀ l : List BusEvent, BusEvent.command (0xB0 + p) :: l
        = [BusEvent.command (0xB0 + p)] ++ l from fun _ => rfl]
    simp only [transactions_append, transactions_rasterOpt]
    rfl
  | succ m ih =>
    intro p d hp
    rw [show 4 * (m + 1) + 3 = 3 + (1 + (4 * m + 3)) by omega, passTrace_add, passTrace_add,
      passTrace_page g hook regs p (by omega) d,
      show 4 * p + 1 + 3 = 4 * p + 4 by omega, passTrace_select,
      show 4 * p + 4 + 1 = 4 * (p + 1) + 1 by omega,
      Nat.mod_eq_of_lt (show p + 1 < pageCount g by omega)]
    have h := ih (p + 1) (if regs &&& (1 <<< p) ≠ 0 then hook p d else d) (by omega)
    simp only [rasterPages, Blocking.updatePage] at h ⊢
    rw [← h]
    rw [show ∀ l : List BusEvent, BusEvent.command (0xB0 + p) :: l
        = [BusEvent.command (0xB0 + p)] ++ l from fun _ => rfl]
    simp only [transactions_append, transactions_rasterOpt]
    rfl

theorem rasterPages_zero (g : SSD1306_Geometry) (hook : Nat → Screen → Screen) (n : Nat) :
    ∀ (p : Nat) (d : Screen), rasterPages g hook 0 p n d = Blocking.updateLoop g d p n := by
  induction n with
  | zero => intro p d; rfl
  | succ n ih =>
    intro p d
    simp [rasterPages, Blocking.updateLoop, ih]

theorem rasterPages_length (g : SSD1306_Geometry) (hook : Nat → Screen → Screen) (regs n : Nat) :
    ∀ (p : Nat) (d : Screen), (rasterPages g hook regs p n d).length = 4 * n := by
  induction n with
  | zero => intro p d; rfl
  | succ n ih =>
    intro p d
    simp only [rasterPages, List.length_append, ih, Blocking.updatePage, List.length_cons,
      List.length_nil]
    omega

/-- C2: in the continuous build, `ssd1306_ContUpdateEnable` called with
continuous update off issues, with the `4 * pageCount - 1` completions that
follow, exactly `4 * pageCount` transactions: for `p = 0, .., pageCount - 1`
the commands `0xB0 + p`, `SETLOWCOLUMN`, `SETHIGHCOLUMN` and the data
transaction of the `SSD1306_WIDTH` buffer bytes at offset `SSD1306_WIDTH * p`
(read after the raster hook of page `p`, if selected, has run); the bytes lie
inside the buffer; with no page selected this is the sequence of the blocking
`ssd1306_UpdateScreen`. -/
theorem DmaCont.contUpdateEnable_first_refresh (g : SSD1306_Geometry)
    (hook : Nat → Screen → Screen) (s : DmaCont.Engine) (hc : s.ssd1306_ContUpdate = 0) :
    transactions ((DmaCont.ssd1306_ContUpdateEnable g s).2 ++
        (DmaCont.completions g hook (4 * pageCount g - 1)
          (DmaCont.ssd1306_ContUpdateEnable g s).1).2)
      = rasterPages g hook s.ssd1306_RasterIntRegs 0 (pageCount g) s.screen ∧
    (transactions ((DmaCont.ssd1306_ContUpdateEnable g s).2 ++
        (DmaCont.completions g hook (4 * pageCount g - 1)
          (DmaCont.ssd1306_ContUpdateEnable g s).1).2)).length = 4 * pageCount g ∧
    (s.ssd1306_RasterIntRegs = 0 →
      transactions ((DmaCont.ssd1306_ContUpdateEnable g s).2 ++
        (DmaCont.completions g hook (4 * pageCount g - 1)
          (DmaCont.ssd1306_ContUpdateEnable g s).1).2)
        = Blocking.ssd1306_UpdateScreen g s.screen) ∧
    (∀ p, p < pageCount g →
      SSD1306_WIDTH g * p + SSD1306_WIDTH g ≤ SSD1306_BUFFER_SIZE g) := by
  have hpc : 4 * pageCount g = SSD1306_HEIGHT g / 2 := by cases g <;> rfl
  have hpos : 0 < pageCount g := by cases g <;> decide
  obtain ⟨c, h1⟩ := DmaCont.completions_pass g hook (4 * pageCount g - 1) 0
    { s with
        ssd1306_updatestatus := SSD1306_HEIGHT g
        ssd1306_updateend := SSD1306_HEIGHT g + SSD1306_HEIGHT g / 2
        i2c_command := 0xB0
        ssd1306_ContUpdate := 1 }
    (by omega) rfl rfl
  have key : transactions ((DmaCont.ssd1306_ContUpdateEnable g s).2 ++
        (DmaCont.completions g hook (4 * pageCount g - 1)
          (DmaCont.ssd1306_ContUpdateEnable g s).1).2)
      = rasterPages g hook s.ssd1306_RasterIntRegs 0 (pageCount g) s.screen := by
    simp only [DmaCont.ssd1306_ContUpdateEnable, if_pos hc, h1]
    have h2 := passTrace_pages g hook s.ssd1306_RasterIntRegs (pageCount g - 1) 0 s.screen
      (by omega)
    rw [show pageCount g - 1 + 1 = pageCount g by omega,
      show 4 * (pageCount g - 1) + 3 = 4 * pageCount g - 1 by omega] at h2
    exact h2
  refine ⟨key, ?_, ?_, ?_⟩
  · rw [key, rasterPages_length]
  · intro hr
    rw [key, hr, rasterPages_zero]
    rfl
  · intro p hp
    cases g <;> simp only [SSD1306_WIDTH, SSD1306_BUFFER_SIZE, SSD1306_HEIGHT, pageCount] at * <;>
      omega

/-- Witness for `DmaCont.contUpdateEnable_first_refresh`: the reset state of
the 128x64 display with the raster hook of the continuous-update demo. -/
theorem DmaCont.contUpdateEnable_first_refresh_witness :
    (DmaCont.reset .GEOMETRY_128_64).ssd1306_ContUpdate = 0 ∧
    transactions ((DmaCont.ssd1306_ContUpdateEnable .GEOMETRY_128_64
          (DmaCont.reset .GEOMETRY_128_64)).2 ++
        (DmaCont.completions .GEOMETRY_128_64
          (TestCont.ssd1306_RasterIntCallback .GEOMETRY_128_64)
          (4 * pageCount .GEOMETRY_128_64 - 1)
          (DmaCont.ssd1306_ContUpdateEnable .GEOMETRY_128_64
            (DmaCont.reset .GEOMETRY_128_64)).1).2)
      = Blocking.ssd1306_UpdateScreen .GEOMETRY_128_64 (DmaCont.reset .GEOMETRY_128_64).screen :=
  ⟨rfl,
   (DmaCont.contUpdateEnable_first_refresh .GEOMETRY_128_64
      (TestCont.ssd1306_RasterIntCallback .GEOMETRY_128_64)
      (DmaCont.reset .GEOMETRY_128_64) rfl).2.2.1 rfl⟩

/-- The test `regs & (1 << p)` of the handler reads bit `p` of `regs`. -/
theorem and_shift_ne_zero_iff (r p : Nat) : r &&& (1 <<< p) ≠ 0 ↔ r.testBit p = true := by
  rw [Nat.one_shiftLeft]
  constructor
  · intro h
    by_contra hb
    apply h
    apply Nat.eq_of_testBit_eq
    intro i
    rw [Nat.testBit_and, Nat.testBit_two_pow, Nat.zero_testBit]
    by_cases hpi : p = i
    · subst hpi
      simp [hb]
    · simp [hpi]
  · intro hb h0
    have h1 := congrArg (fun x => x.testBit p) h0
    simp [Nat.testBit_two_pow_self, hb] at h1

theorem passEvent_ne_rasterInt (g : SSD1306_Geometry) (d : Screen) (i p : Nat) :
    passEvent g d i ≠ BusEvent.rasterInt p := by
  intro h
  have h1 := passEvent_isTransaction g d i
  rw [h] at h1
  exact Bool.noConfusion h1

theorem passStep_count (g : SSD1306_Geometry) (hook : Nat → Screen → Screen) (regs i p : Nat)
    (d : Screen) :
    (passStep g hook regs i d).count (BusEvent.rasterInt p) =
      if i % 4 = 3 ∧ regs &&& (1 <<< (i / 4 % pageCount g)) ≠ 0 ∧ i / 4 % pageCount g = p
      then 1 else 0 := by
  unfold passStep
  rw [List.count_append, List.count_singleton]
  have h1 : (passEvent g (passScreen g hook regs i d) i == BusEvent.rasterInt p) = false := by
    simpa using passEvent_ne_rasterInt g _ i p
  rw [h1]
  by_cases hc : i % 4 = 3 ∧ regs &&& (1 <<< (i / 4 % pageCount g)) ≠ 0
  · rw [if_pos hc, List.count_singleton]
    by_cases hq : i / 4 % pageCount g = p
    · have hc2 := hc.2
      rw [hq] at hc2
      simp [hc.1, hq, hc2]
    · have : ¬ (BusEvent.rasterInt (i / 4 % pageCount g) = BusEvent.rasterInt p) := by
        intro h; exact hq (BusEvent.rasterInt.inj h)
      simp [hq, this]
  · rw [if_neg hc]
    have : ¬ (i % 4 = 3 ∧ regs &&& (1 <<< (i / 4 % pageCount g)) ≠ 0 ∧ i / 4 % pageCount g = p) :=
      fun h => hc ⟨h.1, h.2.1⟩
    simp [this]

/-- Hook calls for page `p` among `k` steps starting at index `i`: one if the
page is selected and the data step `4 * p + 3` is among them, none otherwise. -/
theorem passTrace_count (g : SSD1306_Geometry) (hook : Nat → Screen → Screen) (regs p : Nat)
    (hp : p < pageCount g) (k : Nat) :
    ∀ (i : Nat) (d : Screen), i + k ≤ 4 * pageCount g + 1 →
      (passTrace g hook regs k i d).2.count (BusEvent.rasterInt p) =
        if regs &&& (1 <<< p) ≠ 0 ∧ i ≤ 4 * p + 3 ∧ 4 * p + 3 < i + k then 1 else 0 := by
  induction k with
  | zero =>
    intro i d _
    have : ¬ (regs &&& (1 <<< p) ≠ 0 ∧ i ≤ 4 * p + 3 ∧ 4 * p + 3 < i + 0) := by omega
    rw [if_neg this]
    simp [passTrace]
  | succ k ih =>
    intro i d hik
    simp only [passTrace, List.count_append, passStep_count, ih (i + 1) _ (by omega)]
    by_cases hi : i = 4 * p + 3
    · subst hi
      have a1 : (4 * p + 3) % 4 = 3 := by omega
      have a2 : (4 * p + 3) / 4 % pageCount g = p := by
        rw [show (4 * p + 3) / 4 = p by omega]
        exact Nat.mod_eq_of_lt hp
      by_cases hb : regs &&& (1 <<< p) ≠ 0
      · rw [if_pos ⟨a1, by rw [a2]; exact hb, a2⟩, if_neg (by omega), if_pos ⟨hb, by omega, by omega⟩]
      · rw [if_neg (by rw [a2]; exact fun h => hb h.2.1), if_neg (fun h => hb h.1),
          if_neg (fun h => hb h.1)]
    · have hne : ¬ (i % 4 = 3 ∧ regs &&& (1 <<< (i / 4 % pageCount g)) ≠ 0 ∧
          i / 4 % pageCount g = p) := by
        rintro ⟨h3, -, hq⟩
        have hlt : i / 4 < pageCount g := by omega
        rw [Nat.mod_eq_of_lt hlt] at hq
        omega
      rw [if_neg hne, Nat.zero_add]
      by_cases hb : regs &&& (1 <<< p) ≠ 0
      · by_cases hr : i + 1 ≤ 4 * p + 3 ∧ 4 * p + 3 < i + 1 + k
        · rw [if_pos ⟨hb, hr⟩, if_pos ⟨hb, by omega, by omega⟩]
        · rw [if_neg (fun h => hr h.2), if_neg (fun h => hr ⟨by omega, by omega⟩)]
      · rw [if_neg (fun h => hb h.1), if_neg (fun h => hb h.1)]

/-- C5: in the continuous build, in a refresh cycle (the `4 * pageCount`
completions that follow the page select of page 0) run with raster mask `r`
set by `ssd1306_SetRasterInt`, the hook `ssd1306_RasterIntCallback(p)` of a
page `p < pageCount` is called exactly once if bit `p` of `r` is set and
never otherwise; the call is made by the completion step that issues the data
transaction of page `p` (the step after the first `4 * p + 2` of the cycle),
before that transaction, whose bytes are read from the buffer the hook
leaves. -/
theorem DmaCont.rasterInt_once_per_selected_page (g : SSD1306_Geometry)
    (hook : Nat → Screen → Screen) (s : DmaCont.Engine) (r p : Nat)
    (hp : p < pageCount g)
    (hs : s.ssd1306_updatestatus = SSD1306_HEIGHT g)
    (he : s.ssd1306_updateend = SSD1306_HEIGHT g + SSD1306_HEIGHT g / 2) :
    (DmaCont.completions g hook (4 * pageCount g) (DmaCont.ssd1306_SetRasterInt r s)).2.count
        (BusEvent.rasterInt p) = (if r.testBit p = true then 1 else 0) ∧
    (DmaCont.HAL_I2C_MemTxCpltCallback g hook
        (DmaCont.completions g hook (4 * p + 2) (DmaCont.ssd1306_SetRasterInt r s)).1).2
      = (if r.testBit p = true then [BusEvent.rasterInt p] else []) ++
        [BusEvent.data (SSD1306_WIDTH g * p)
          (bufferBytes
            (if r.testBit p = true then
              hook p (DmaCont.completions g hook (4 * p + 2)
                (DmaCont.ssd1306_SetRasterInt r s)).1.screen
             else (DmaCont.completions g hook (4 * p + 2)
                (DmaCont.ssd1306_SetRasterInt r s)).1.screen)
            (SSD1306_WIDTH g * p) (SSD1306_WIDTH g))] ∧
    (DmaCont.HAL_I2C_MemTxCpltCallback g hook
        (DmaCont.completions g hook (4 * p + 2) (DmaCont.ssd1306_SetRasterInt r s)).1).1.screen
      = (if r.testBit p = true then
          hook p (DmaCont.completions g hook (4 * p + 2)
            (DmaCont.ssd1306_SetRasterInt r s)).1.screen
         else (DmaCont.completions g hook (4 * p + 2)
            (DmaCont.ssd1306_SetRasterInt r s)).1.screen) := by
  have hpc : 4 * pageCount g = SSD1306_HEIGHT g / 2 := by cases g <;> rfl
  have hs1 : (DmaCont.ssd1306_SetRasterInt r s).ssd1306_updatestatus = SSD1306_HEIGHT g + 0 := hs
  have he1 : (DmaCont.ssd1306_SetRasterInt r s).ssd1306_updateend
      = SSD1306_HEIGHT g + SSD1306_HEIGHT g / 2 := he
  constructor
  · obtain ⟨c, h1⟩ := DmaCont.completions_pass g hook (4 * pageCount g) 0
      (DmaCont.ssd1306_SetRasterInt r s) (by omega) hs1 he1
    rw [h1]
    simp only [DmaCont.ssd1306_SetRasterInt]
    rw [passTrace_count g hook r p hp (4 * pageCount g) (0 + 1) s.screen (by omega)]
    by_cases hb : r.testBit p = true
    · rw [if_pos hb, if_pos ⟨(and_shift_ne_zero_iff r p).2 hb, by omega, by omega⟩]
    · rw [if_neg hb, if_neg (fun h => hb ((and_shift_ne_zero_iff r p).1 h.1))]
  · obtain ⟨c, h1⟩ := DmaCont.completions_pass g hook (4 * p + 2) 0
      (DmaCont.ssd1306_SetRasterInt r s) (by omega) hs1 he1
    rw [h1]
    obtain ⟨c2, h2⟩ := DmaCont.HAL_step g hook
      { DmaCont.ssd1306_SetRasterInt r s with
          ssd1306_updatestatus := SSD1306_HEIGHT g + (0 + (4 * p + 2))
          i2c_command := c
          screen := (passTrace g hook (DmaCont.ssd1306_SetRasterInt r s).ssd1306_RasterIntRegs
            (4 * p + 2) (0 + 1) (DmaCont.ssd1306_SetRasterInt r s).screen).1 }
      (0 + (4 * p + 2)) (by omega) rfl he1
    rw [h2]
    have a1 : (0 + (4 * p + 2) + 1) % 4 = 3 := by omega
    have a2 : (0 + (4 * p + 2) + 1) / 4 % pageCount g = p := by
      rw [show (0 + (4 * p + 2) + 1) / 4 = p by omega]
      exact Nat.mod_eq_of_lt hp
    by_cases hb : r.testBit p = true
    · have hb1 : r &&& (1 <<< p) ≠ 0 := (and_shift_ne_zero_iff r p).2 hb
      simp only [passStep, passScreen, passEvent, a1, a2, DmaCont.ssd1306_SetRasterInt, true_and,
        if_true, if_pos hb1, if_pos hb]
    · have hb1 : ¬ r &&& (1 <<< p) ≠ 0 := fun h => hb ((and_shift_ne_zero_iff r p).1 h)
      simp only [passStep, passScreen, passEvent, a1, a2, DmaCont.ssd1306_SetRasterInt, true_and,
        if_true, if_neg hb1, if_neg hb]

/-- Witness for `DmaCont.rasterInt_once_per_selected_page`: the 8-page
display, started by `ssd1306_ContUpdateEnable` from reset, mask `4` (bit 2)
and the hook of the continuous-update demo: the hook of page 2 is called
once in the cycle. -/
theorem DmaCont.rasterInt_once_per_selected_page_witness :
    (2 < pageCount .GEOMETRY_128_64) ∧
    (DmaCont.ssd1306_ContUpdateEnable .GEOMETRY_128_64
        (DmaCont.reset .GEOMETRY_128_64)).1.ssd1306_updatestatus
      = SSD1306_HEIGHT .GEOMETRY_128_64 ∧
    (DmaCont.ssd1306_ContUpdateEnable .GEOMETRY_128_64
        (DmaCont.reset .GEOMETRY_128_64)).1.ssd1306_updateend
      = SSD1306_HEIGHT .GEOMETRY_128_64 + SSD1306_HEIGHT .GEOMETRY_128_64 / 2 ∧
    (DmaCont.completions .GEOMETRY_128_64 (TestCont.ssd1306_RasterIntCallback .GEOMETRY_128_64)
        (4 * pageCount .GEOMETRY_128_64)
        (DmaCont.ssd1306_SetRasterInt 4
          (DmaCont.ssd1306_ContUpdateEnable .GEOMETRY_128_64
            (DmaCont.reset .GEOMETRY_128_64)).1)).2.count (BusEvent.rasterInt 2)
      = (if Nat.testBit 4 2 = true then 1 else 0) :=
  ⟨by decide, rfl, rfl,
   (DmaCont.rasterInt_once_per_selected_page .GEOMETRY_128_64
      (TestCont.ssd1306_RasterIntCallback .GEOMETRY_128_64)
      (DmaCont.ssd1306_ContUpdateEnable .GEOMETRY_128_64 (DmaCont.reset .GEOMETRY_128_64)).1
      4 2 (by decide) rfl rfl).1⟩

/-! ## Continuous build: the running engine -/

theorem dataPages_append (g : SSD1306_Geometry) (a b : List BusEvent) :
    dataPages g (a ++ b) = dataPages g a ++ dataPages g b := by
  induction a with
  | nil => rfl
  | cons e a ih => cases e <;> simp [dataPages, ih]

theorem dataPages_passStep (g : SSD1306_Geometry) (hook : Nat → Screen → Screen) (regs i : Nat)
    (d : Screen) :
    dataPages g (passStep g hook regs i d) =
      if i % 4 = 3 then [i / 4 % pageCount g] else [] := by
  have hW : 0 < SSD1306_WIDTH g := by cases g <;> decide
  unfold passStep passEvent
  rw [dataPages_append]
  have h1 : dataPages g (if i % 4 = 3 ∧ regs &&& (1 <<< (i / 4 % pageCount g)) ≠ 0
      then [BusEvent.rasterInt (i / 4 % pageCount g)] else []) = [] := by
    split_ifs <;> rfl
  rw [h1]
  by_cases h3 : i % 4 = 3
  · simp only [h3, if_true, List.nil_append, dataPages, Nat.mul_div_cancel_left _ hW]
  · simp only [h3, if_false, List.nil_append]
    split_ifs <;> rfl

theorem pagesFrom_append (pc c n m : Nat) :
    pagesFrom pc c n ++ pagesFrom pc ((c + n) % pc) m = pagesFrom pc c (n + m) := by
  unfold pagesFrom
  rw [List.range_add, List.map_append, List.map_map]
  congr 1
  apply List.map_congr_left
  intro i _
  simp [Function.comp, Nat.add_assoc]

namespace DmaCont

theorem cyclePos_lt (g : SSD1306_Geometry) (s : Engine) : cyclePos g s < pageCount g := by
  unfold cyclePos
  apply Nat.mod_lt
  cases g <;> decide

theorem PagesOK.nil (g : SSD1306_Geometry) (s s1 : Engine) (evs : List BusEvent)
    (h1 : dataPages g evs = []) (h2 : cyclePos g s1 = cyclePos g s) :
    PagesOK g s (s1, evs) := by
  refine ⟨0, ?_, ?_⟩
  · simpa [pagesFrom] using h1
  · simp only [h2, Nat.add_zero]
    exact (Nat.mod_eq_of_lt (cyclePos_lt g s)).symm

theorem PagesOK.trans (g : SSD1306_Geometry) (s s1 s2 : Engine) (e1 e2 : List BusEvent)
    (h1 : PagesOK g s (s1, e1)) (h2 : PagesOK g s1 (s2, e2)) :
    PagesOK g s (s2, e1 ++ e2) := by
  obtain ⟨n, hn, hc⟩ := h1
  obtain ⟨m, hm, hd⟩ := h2
  refine ⟨n + m, ?_, ?_⟩
  · simp only at hn hm hc hd ⊢
    rw [dataPages_append, hn, hm, hc, pagesFrom_append]
  · simp only at hc hd ⊢
    rw [hd, hc, Nat.mod_add_mod, Nat.add_assoc]

theorem HAL_running (g : SSD1306_Geometry) (hook : Nat → Screen → Screen) (s : Engine)
    (h : Running g s) :
    Running g (HAL_I2C_MemTxCpltCallback g hook s).1 ∧
      PagesOK g s (HAL_I2C_MemTxCpltCallback g hook s) := by
  obtain ⟨hu, he, hlo, hhi⟩ := h
  have hH : SSD1306_HEIGHT g ≠ 0 := by cases g <;> simp [SSD1306_HEIGHT]
  by_cases hlt : s.ssd1306_updatestatus < SSD1306_HEIGHT g + SSD1306_HEIGHT g / 2
  · obtain ⟨j, hj⟩ : ∃ j, s.ssd1306_updatestatus = SSD1306_HEIGHT g + j :=
      ⟨s.ssd1306_updatestatus - SSD1306_HEIGHT g, by omega⟩
    obtain ⟨c, h1⟩ := HAL_step g hook s j (by omega) hj he
    rw [h1]
    refine ⟨⟨hu, he, by simp only; omega, by simp only; omega⟩, ?_⟩
    by_cases h3 : (j + 1) % 4 = 3
    · refine ⟨1, ?_, ?_⟩
      · simp only [dataPages_passStep, h3, if_true, pagesFrom, cyclePos, hj]
        simp
        rfl
      · simp only [cyclePos, hj]
        cases g <;> simp only [SSD1306_HEIGHT, pageCount] <;> omega
    · apply PagesOK.nil
      · simp only [dataPages_passStep, h3, if_false]
      · simp only [cyclePos, hj]
        cases g <;> simp only [SSD1306_HEIGHT, pageCount] <;> omega
  · have hnlt : ¬ s.ssd1306_updatestatus < s.ssd1306_updateend := by omega
    have h0 : s.ssd1306_updatestatus ≠ 0 := by omega
    by_cases hc : s.ssd1306_command ≠ 0
    · rw [HAL_end_pending g hook s h0 hnlt hc]
      exact ⟨⟨hu, he, hlo, hhi⟩, PagesOK.nil g s _ _ rfl rfl⟩
    · have hc0 : s.ssd1306_command = 0 := by simpa using hc
      rw [HAL_end_restart g hook s h0 hnlt hc0 hu]
      refine ⟨⟨hu, he, by simp, by simp⟩, PagesOK.nil g s _ _ rfl ?_⟩
      have hs : s.ssd1306_updatestatus = SSD1306_HEIGHT g + SSD1306_HEIGHT g / 2 := by omega
      simp only [cyclePos, hs]
      cases g <;> rfl

theorem completions_running (g : SSD1306_Geometry) (hook : Nat → Screen → Screen) (n : Nat) :
    ∀ s : Engine, Running g s →
      Running g (completions g hook n s).1 ∧ PagesOK g s (completions g hook n s) := by
  induction n with
  | zero =>
    intro s h
    exact ⟨h, PagesOK.nil g s _ _ rfl rfl⟩
  | succ n ih =>
    intro s h
    have h1 := HAL_running g hook s h
    have h2 := ih _ h1.1
    exact ⟨h2.1, PagesOK.trans g s _ _ _ _ h1.2 h2.2⟩

theorem HAL_active_fields (g : SSD1306_Geometry) (hook : Nat → Screen → Screen) (s : Engine)
    (h : Running g s) (hlt : s.ssd1306_updatestatus < s.ssd1306_updateend) :
    (HAL_I2C_MemTxCpltCallback g hook s).1.ssd1306_updatestatus = s.ssd1306_updatestatus + 1 ∧
    (HAL_I2C_MemTxCpltCallback g hook s).1.ssd1306_updateend = s.ssd1306_updateend ∧
    (HAL_I2C_MemTxCpltCallback g hook s).1.ssd1306_command = s.ssd1306_command := by
  obtain ⟨_, he, hlo, _⟩ := h
  obtain ⟨j, hj⟩ : ∃ j, s.ssd1306_updatestatus = SSD1306_HEIGHT g + j :=
    ⟨s.ssd1306_updatestatus - SSD1306_HEIGHT g, by omega⟩
  obtain ⟨c, h1⟩ := HAL_step g hook s j (by omega) hj he
  rw [h1]
  exact ⟨by simp only; omega, rfl, rfl⟩

theorem wait_free (g : SSD1306_Geometry) (hook : Nat → Screen → Screen) (fuel : Nat) (s : Engine)
    (hc : s.ssd1306_command = 0) : waitCommandFree g hook fuel s = some (s, []) := by
  cases fuel <;> simp [waitCommandFree, hc]

/-- With a command pending, the wait of `ssd1306_WriteCommand` lasts until the
completion that ends the cycle: that many completions are what it returns. -/
theorem wait_some (g : SSD1306_Geometry) (hook : Nat → Screen → Screen) (fuel : Nat) :
    ∀ s : Engine, Running g s → s.ssd1306_command ≠ 0 →
      s.ssd1306_updateend - s.ssd1306_updatestatus + 1 ≤ fuel →
      waitCommandFree g hook fuel s =
        some (completions g hook (s.ssd1306_updateend - s.ssd1306_updatestatus + 1) s) := by
  induction fuel with
  | zero => intro s _ _ hf; omega
  | succ f ih =>
    intro s h hc hf
    have hr := h
    obtain ⟨_, he, hlo, hhi⟩ := h
    by_cases hlt : s.ssd1306_updatestatus < s.ssd1306_updateend
    · obtain ⟨f1, f2, f3⟩ := HAL_active_fields g hook s hr hlt
      have h2 := ih _ (HAL_running g hook s hr).1 (by rw [f3]; exact hc) (by rw [f1, f2]; omega)
      rw [f1, f2] at h2
      rw [show s.ssd1306_updateend - s.ssd1306_updatestatus + 1
          = (s.ssd1306_updateend - (s.ssd1306_updatestatus + 1) + 1) + 1 by omega]
      simp only [waitCommandFree, if_pos hc, h2, completions]
    · have h0 : s.ssd1306_updatestatus ≠ 0 := by
        have : SSD1306_HEIGHT g ≠ 0 := by cases g <;> simp [SSD1306_HEIGHT]
        omega
      rw [show s.ssd1306_updateend - s.ssd1306_updatestatus + 1 = 0 + 1 by omega]
      simp only [waitCommandFree, if_pos hc, completions, HAL_end_pending g hook s h0 hlt hc]
      rw [wait_free g hook f _ rfl]

/-- With a command pending the wait is not over before the completion that
ends the cycle. -/
theorem wait_none (g : SSD1306_Geometry) (hook : Nat → Screen → Screen) (fuel : Nat) :
    ∀ s : Engine, Running g s → s.ssd1306_command ≠ 0 →
      fuel ≤ s.ssd1306_updateend - s.ssd1306_updatestatus →
      waitCommandFree g hook fuel s = none := by
  induction fuel with
  | zero => intro s _ hc _; simp [waitCommandFree, hc]
  | succ f ih =>
    intro s h hc hf
    have hlt : s.ssd1306_updatestatus < s.ssd1306_updateend := by omega
    obtain ⟨f1, f2, f3⟩ := HAL_active_fields g hook s h hlt
    have h2 := ih _ (HAL_running g hook s h).1 (by rw [f3]; exact hc) (by rw [f1, f2]; omega)
    simp only [waitCommandFree, if_pos hc, h2]

theorem writeCommand_running (g : SSD1306_Geometry) (hook : Nat → Screen → Screen)
    (fuel b : Nat) (s : Engine) (h : Running g s) (hf : SSD1306_HEIGHT g / 2 + 1 ≤ fuel) :
    ∃ r, ssd1306_WriteCommand g hook fuel b s = some r ∧ Running g r.1 ∧ PagesOK g s r := by
  have hH : SSD1306_HEIGHT g ≠ 0 := by cases g <;> simp [SSD1306_HEIGHT]
  have h0 : s.ssd1306_updatestatus ≠ 0 := by
    obtain ⟨_, _, hlo, _⟩ := h
    omega
  by_cases hc : s.ssd1306_command = 0
  · refine ⟨({ s with ssd1306_command := b }, []), ?_, h, PagesOK.nil g s _ _ rfl rfl⟩
    simp only [ssd1306_WriteCommand, if_pos h0, wait_free g hook fuel s hc]
  · have hw := wait_some g hook fuel s h hc (by obtain ⟨_, he, hlo, _⟩ := h; omega)
    have hr := completions_running g hook
      (s.ssd1306_updateend - s.ssd1306_updatestatus + 1) s h
    refine ⟨({ (completions g hook (s.ssd1306_updateend - s.ssd1306_updatestatus + 1) s).1 with
        ssd1306_command := b },
      (completions g hook (s.ssd1306_updateend - s.ssd1306_updatestatus + 1) s).2), ?_, hr.1, ?_⟩
    · simp only [ssd1306_WriteCommand, if_pos h0, hw]
    · obtain ⟨n, hn, hp⟩ := hr.2
      exact ⟨n, hn, hp⟩

theorem exec_running (g : SSD1306_Geometry) (hook : Nat → Screen → Screen) (fuel : Nat)
    (hf : SSD1306_HEIGHT g / 2 + 1 ≤ fuel) (acts : List Action) :
    ∀ s : Engine, Running g s →
      ∃ r, exec g hook fuel acts s = some r ∧ Running g r.1 ∧ PagesOK g s r := by
  induction acts with
  | nil =>
    intro s h
    exact ⟨(s, []), rfl, h, PagesOK.nil g s _ _ rfl rfl⟩
  | cons a acts ih =>
    intro s h
    have hstep : ∃ r, step g hook fuel s a = some r ∧ Running g r.1 ∧ PagesOK g s r := by
      cases a with
      | txCplt =>
        exact ⟨_, rfl, (HAL_running g hook s h).1, (HAL_running g hook s h).2⟩
      | writeCommand b => exact writeCommand_running g hook fuel b s h hf
      | setRasterInt r =>
        exact ⟨(ssd1306_SetRasterInt r s, []), rfl, h, PagesOK.nil g s _ _ rfl rfl⟩
    obtain ⟨r1, e1, hr1, hp1⟩ := hstep
    obtain ⟨r2, e2, hr2, hp2⟩ := ih r1.1 hr1
    refine ⟨(r2.1, r1.2 ++ r2.2), ?_, hr2, PagesOK.trans g s r1.1 r2.1 r1.2 r2.2 hp1 hp2⟩
    simp only [exec, e1, e2]

end DmaCont

/-- C3: in the continuous build, once `ssd1306_ContUpdateEnable` has started
the engine, after any sequence of transport completions, injected commands
(`ssd1306_WriteCommand`) and `ssd1306_SetRasterInt` calls the engine is not
Idle (`ssd1306_updatestatus != 0`), and the pages carried by the data
transactions issued so far are `0, 1, .., pageCount - 1` repeated: the `i`-th
of them carries page `i mod pageCount`.  Every `ssd1306_WriteCommand` returns
when given fuel for `SSD1306_HEIGHT / 2 + 1` completions. -/
theorem DmaCont.continuous_never_idle (g : SSD1306_Geometry) (hook : Nat → Screen → Screen)
    (s : DmaCont.Engine) (fuel : Nat) (acts : List DmaCont.Action)
    (hc : s.ssd1306_ContUpdate = 0) (hf : SSD1306_HEIGHT g / 2 + 1 ≤ fuel) :
    ∃ r, DmaCont.exec g hook fuel acts (DmaCont.ssd1306_ContUpdateEnable g s).1 = some r ∧
      r.1.ssd1306_updatestatus ≠ 0 ∧
      r.1.ssd1306_ContUpdate ≠ 0 ∧
      dataPages g r.2 = (List.range (dataPages g r.2).length).map (· % pageCount g) := by
  have hH : SSD1306_HEIGHT g ≠ 0 := by cases g <;> simp [SSD1306_HEIGHT]
  have hrun : DmaCont.Running g (DmaCont.ssd1306_ContUpdateEnable g s).1 := by
    simp only [DmaCont.ssd1306_ContUpdateEnable, if_pos hc]
    exact ⟨by simp, rfl, Nat.le_refl _, Nat.le_add_right _ _⟩
  obtain ⟨r, e, hr, n, hn, -⟩ := DmaCont.exec_running g hook fuel hf acts _ hrun
  have hpos : DmaCont.cyclePos g (DmaCont.ssd1306_ContUpdateEnable g s).1 = 0 := by
    simp only [DmaCont.ssd1306_ContUpdateEnable, if_pos hc, DmaCont.cyclePos]
    cases g <;> rfl
  refine ⟨r, e, ?_, ?_, ?_⟩
  · obtain ⟨_, _, hlo, _⟩ := hr
    omega
  · exact hr.1
  · rw [hn, hpos]
    simp [pagesFrom]

/-- Witness for `DmaCont.continuous_never_idle`: the 128x64 display from
reset, the hook of the continuous-update demo, and a run with a raster mask
and two injected commands. -/
theorem DmaCont.continuous_never_idle_witness :
    (DmaCont.reset .GEOMETRY_128_64).ssd1306_ContUpdate = 0 ∧
    SSD1306_HEIGHT .GEOMETRY_128_64 / 2 + 1 ≤ 33 ∧
    ∃ r, DmaCont.exec .GEOMETRY_128_64 (TestCont.ssd1306_RasterIntCallback .GEOMETRY_128_64) 33
        [.setRasterInt 4, .txCplt, .writeCommand 0x42, .txCplt, .writeCommand 0xA7, .txCplt]
        (DmaCont.ssd1306_ContUpdateEnable .GEOMETRY_128_64
          (DmaCont.reset .GEOMETRY_128_64)).1 = some r ∧
      r.1.ssd1306_updatestatus ≠ 0 ∧
      r.1.ssd1306_ContUpdate ≠ 0 ∧
      dataPages .GEOMETRY_128_64 r.2
        = (List.range (dataPages .GEOMETRY_128_64 r.2).length).map
            (· % pageCount .GEOMETRY_128_64) :=
  ⟨rfl, by decide,
   DmaCont.continuous_never_idle .GEOMETRY_128_64
     (TestCont.ssd1306_RasterIntCallback .GEOMETRY_128_64) (DmaCont.reset .GEOMETRY_128_64) 33
     [.setRasterInt 4, .txCplt, .writeCommand 0x42, .txCplt, .writeCommand 0xA7, .txCplt]
     rfl (by decide)⟩

/-! ## Continuous build: the command mailbox -/

namespace DmaCont

theorem completions_fields (g : SSD1306_Geometry) (hook : Nat → Screen → Screen) (k : Nat) :
    ∀ s : Engine, Running g s → s.ssd1306_updatestatus + k ≤ s.ssd1306_updateend →
      (completions g hook k s).1.ssd1306_updatestatus = s.ssd1306_updatestatus + k ∧
      (completions g hook k s).1.ssd1306_updateend = s.ssd1306_updateend ∧
      (completions g hook k s).1.ssd1306_command = s.ssd1306_command := by
  induction k with
  | zero => intro s _ _; exact ⟨rfl, rfl, rfl⟩
  | succ k ih =>
    intro s h hk
    obtain ⟨f1, f2, f3⟩ := HAL_active_fields g hook s h (by omega)
    obtain ⟨g1, g2, g3⟩ := ih _ (HAL_running g hook s h).1 (by rw [f1, f2]; omega)
    simp only [completions]
    rw [g1, g2, g3, f1, f2, f3]
    exact ⟨by omega, rfl, rfl⟩

/-- Before the end of the cycle the handler does not look at the mailbox. -/
theorem HAL_frame_command (g : SSD1306_Geometry) (hook : Nat → Screen → Screen) (s : Engine)
    (b : Nat) (hlt : s.ssd1306_updatestatus < s.ssd1306_updateend) :
    HAL_I2C_MemTxCpltCallback g hook { s with ssd1306_command := b } =
      ({ (HAL_I2C_MemTxCpltCallback g hook s).1 with ssd1306_command := b },
       (HAL_I2C_MemTxCpltCallback g hook s).2) := by
  simp only [HAL_I2C_MemTxCpltCallback, if_pos hlt]
  split_ifs <;> rfl

theorem completions_frame_command (g : SSD1306_Geometry) (hook : Nat → Screen → Screen)
    (b k : Nat) :
    ∀ s : Engine, Running g s → s.ssd1306_updatestatus + k ≤ s.ssd1306_updateend →
      completions g hook k { s with ssd1306_command := b } =
        ({ (completions g hook k s).1 with ssd1306_command := b },
         (completions g hook k s).2) := by
  induction k with
  | zero => intro s _ _; rfl
  | succ k ih =>
    intro s h hk
    obtain ⟨f1, f2, _⟩ := HAL_active_fields g hook s h (by omega)
    have h2 := ih _ (HAL_running g hook s h).1 (by rw [f1, f2]; omega)
    simp only [completions, HAL_frame_command g hook s b (by omega), h2]

/-- At the end of a cycle with an empty mailbox the handler does not look at
`i2c_command`. -/
theorem completions_frame_i2c (g : SSD1306_Geometry) (hook : Nat → Screen → Screen)
    (c n : Nat) (s : Engine) (h0 : s.ssd1306_updatestatus ≠ 0)
    (h : ¬ s.ssd1306_updatestatus < s.ssd1306_updateend)
    (hc : s.ssd1306_command = 0) (hu : s.ssd1306_ContUpdate ≠ 0) :
    (completions g hook n { s with i2c_command := c }).2 = (completions g hook n s).2 := by
  cases n with
  | zero => rfl
  | succ n =>
    simp only [completions, HAL_end_restart g hook s h0 h hc hu,
      HAL_end_restart g hook { s with i2c_command := c } h0 h hc hu]

end DmaCont

/-- The data pages of a pass that runs to the end of the cycle: the pages
still to come, in order. -/
theorem dataPages_passTrace (g : SSD1306_Geometry) (hook : Nat → Screen → Screen) (regs : Nat)
    (k : Nat) : ∀ (i : Nat) (d : Screen), i + k = 4 * pageCount g + 1 →
      dataPages g (passTrace g hook regs k i d).2 =
        List.range' (i / 4) (pageCount g - i / 4) := by
  induction k with
  | zero =>
    intro i d h
    rw [show pageCount g - i / 4 = 0 by omega]
    rfl
  | succ k ih =>
    intro i d h
    simp only [passTrace, dataPages_append, dataPages_passStep, ih (i + 1) _ (by omega)]
    by_cases h3 : i % 4 = 3
    · rw [if_pos h3, Nat.mod_eq_of_lt (show i / 4 < pageCount g by omega),
        show (i + 1) / 4 = i / 4 + 1 by omega,
        show pageCount g - i / 4 = (pageCount g - (i / 4 + 1)) + 1 by omega, List.range'_succ]
      rfl
    · rw [if_neg h3, show (i + 1) / 4 = i / 4 by omega]
      rfl

/-- C4, as amended: in the continuous build, for every non-zero command byte
`b`, `ssd1306_WriteCommand(b)` called while the engine runs with an empty
mailbox returns at once without issuing anything, and from then on the
engine issues what it would have issued without the call, with exactly one
command transaction carrying `b` put in after the `k = ssd1306_updateend -
ssd1306_updatestatus` completions that finish the current cycle (whose data
transactions carry the pages still to come, in order) and before the restart
of the next cycle; the pages carried by the data transactions are the same
with and without the call. -/
theorem DmaCont.writeCommand_injected_once (g : SSD1306_Geometry)
    (hook : Nat → Screen → Screen) (s : DmaCont.Engine) (b fuel n : Nat)
    (h : DmaCont.Running g s) (hp : s.ssd1306_command = 0) (hb : b ≠ 0) :
    ∃ s1, DmaCont.ssd1306_WriteCommand g hook fuel b s = some (s1, []) ∧
      (DmaCont.completions g hook
          (s.ssd1306_updateend - s.ssd1306_updatestatus + (1 + n)) s1).2
        = (DmaCont.completions g hook (s.ssd1306_updateend - s.ssd1306_updatestatus) s).2
          ++ [BusEvent.command b]
          ++ (DmaCont.completions g hook n
              (DmaCont.completions g hook
                (s.ssd1306_updateend - s.ssd1306_updatestatus) s).1).2 ∧
      (DmaCont.completions g hook (s.ssd1306_updateend - s.ssd1306_updatestatus + n) s).2
        = (DmaCont.completions g hook (s.ssd1306_updateend - s.ssd1306_updatestatus) s).2
          ++ (DmaCont.completions g hook n
              (DmaCont.completions g hook
                (s.ssd1306_updateend - s.ssd1306_updatestatus) s).1).2 ∧
      (DmaCont.completions g hook
          (s.ssd1306_updateend - s.ssd1306_updatestatus) s).1.ssd1306_updatestatus
        = s.ssd1306_updateend ∧
      dataPages g
          (DmaCont.completions g hook (s.ssd1306_updateend - s.ssd1306_updatestatus) s).2
        = List.range' ((s.ssd1306_updatestatus - SSD1306_HEIGHT g + 1) / 4)
            (pageCount g - (s.ssd1306_updatestatus - SSD1306_HEIGHT g + 1) / 4) ∧
      dataPages g (DmaCont.completions g hook
          (s.ssd1306_updateend - s.ssd1306_updatestatus + (1 + n)) s1).2
        = dataPages g (DmaCont.completions g hook
          (s.ssd1306_updateend - s.ssd1306_updatestatus + n) s).2 := by
  have hH : SSD1306_HEIGHT g ≠ 0 := by cases g <;> simp [SSD1306_HEIGHT]
  have hpc : 4 * pageCount g = SSD1306_HEIGHT g / 2 := by cases g <;> rfl
  obtain ⟨hu, he, hlo, hhi⟩ := id h
  have h0 : s.ssd1306_updatestatus ≠ 0 := by omega
  generalize hk : s.ssd1306_updateend - s.ssd1306_updatestatus = k
  have hfields := DmaCont.completions_fields g hook k s h (by omega)
  obtain ⟨f1, f2, f3⟩ := hfields
  have hrunk := (DmaCont.completions_running g hook k s h).1
  have hbase := DmaCont.completions_split g hook k n s
  have hinj : (DmaCont.completions g hook (k + (1 + n)) { s with ssd1306_command := b }).2
      = (DmaCont.completions g hook k s).2 ++ [BusEvent.command b]
        ++ (DmaCont.completions g hook n (DmaCont.completions g hook k s).1).2 := by
    rw [DmaCont.completions_split, DmaCont.completions_frame_command g hook b k s h (by omega),
      DmaCont.completions_split, DmaCont.completions_one]
    have hnlt : ¬ (DmaCont.completions g hook k s).1.ssd1306_updatestatus
        < (DmaCont.completions g hook k s).1.ssd1306_updateend := by rw [f1, f2]; omega
    have hk0 : (DmaCont.completions g hook k s).1.ssd1306_updatestatus ≠ 0 := by rw [f1]; omega
    rw [DmaCont.HAL_end_pending g hook
      { (DmaCont.completions g hook k s).1 with ssd1306_command := b } hk0 hnlt hb]
    simp only [List.append_assoc]
    have hstate : ({ (DmaCont.completions g hook k s).1 with
          i2c_command := b, ssd1306_command := 0 } : DmaCont.Engine)
        = { (DmaCont.completions g hook k s).1 with i2c_command := b } := by
      rw [← hp, ← f3]
    have := DmaCont.completions_frame_i2c g hook b n (DmaCont.completions g hook k s).1 hk0 hnlt
      (by rw [f3, hp]) hrunk.1
    simp only at hstate ⊢
    rw [hstate, this]
  refine ⟨{ s with ssd1306_command := b }, ?_, hinj, ?_, ?_, ?_, ?_⟩
  · simp only [DmaCont.ssd1306_WriteCommand, if_pos h0, DmaCont.wait_free g hook fuel s hp]
  · rw [hbase]
  · rw [f1]; omega
  · obtain ⟨j, hj⟩ : ∃ j, s.ssd1306_updatestatus = SSD1306_HEIGHT g + j :=
      ⟨s.ssd1306_updatestatus - SSD1306_HEIGHT g, by omega⟩
    obtain ⟨c, h1⟩ := DmaCont.completions_pass g hook k j s (by omega) hj he
    rw [h1]
    simp only
    rw [dataPages_passTrace g hook _ k (j + 1) _ (by omega), hj,
      show SSD1306_HEIGHT g + j - SSD1306_HEIGHT g + 1 = j + 1 by omega]
  · rw [hinj, hbase]
    simp only [dataPages_append, dataPages, List.append_nil]

/-- Witness for `DmaCont.writeCommand_injected_once`: the spec's byte `0x42`
injected right after `ssd1306_ContUpdateEnable` on the 128x64 display. -/
theorem DmaCont.writeCommand_injected_once_witness :
    DmaCont.Running .GEOMETRY_128_64
      (DmaCont.ssd1306_ContUpdateEnable .GEOMETRY_128_64 (DmaCont.reset .GEOMETRY_128_64)).1 ∧
    (DmaCont.ssd1306_ContUpdateEnable .GEOMETRY_128_64
      (DmaCont.reset .GEOMETRY_128_64)).1.ssd1306_command = 0 ∧
    (0x42 ≠ 0) ∧
    ∃ s1, DmaCont.ssd1306_WriteCommand .GEOMETRY_128_64
        (TestCont.ssd1306_RasterIntCallback .GEOMETRY_128_64) 0 0x42
        (DmaCont.ssd1306_ContUpdateEnable .GEOMETRY_128_64
          (DmaCont.reset .GEOMETRY_128_64)).1 = some (s1, []) :=
  ⟨⟨by decide, rfl, by decide, by decide⟩, rfl, by decide,
   (DmaCont.writeCommand_injected_once .GEOMETRY_128_64
      (TestCont.ssd1306_RasterIntCallback .GEOMETRY_128_64)
      (DmaCont.ssd1306_ContUpdateEnable .GEOMETRY_128_64 (DmaCont.reset .GEOMETRY_128_64)).1
      0x42 0 33 ⟨by decide, rfl, by decide, by decide⟩ rfl (by decide)).imp
     (fun _ hx => hx.1)⟩

set_option maxRecDepth 100000 in
/-- C4, counterexample: for `b = 0` (the byte of `SETLOWCOLUMN`) the call
`ssd1306_WriteCommand(0)` on the running engine with an empty mailbox leaves
the engine exactly as it was and issues nothing, so no extra transaction
follows: the 33 completions that end the cycle and restart it issue 33
transactions, 8 of them `command 0`, one per page. -/
theorem DmaCont.writeCommand_injected_once_counterexample :
    DmaCont.ssd1306_WriteCommand .GEOMETRY_128_64 DmaCont.ssd1306_RasterIntCallback 0 0
        (DmaCont.ssd1306_ContUpdateEnable .GEOMETRY_128_64 (DmaCont.reset .GEOMETRY_128_64)).1
      = some ((DmaCont.ssd1306_ContUpdateEnable .GEOMETRY_128_64
          (DmaCont.reset .GEOMETRY_128_64)).1, []) ∧
    (DmaCont.completions .GEOMETRY_128_64 DmaCont.ssd1306_RasterIntCallback 33
        (DmaCont.ssd1306_ContUpdateEnable .GEOMETRY_128_64
          (DmaCont.reset .GEOMETRY_128_64)).1).2.length = 33 ∧
    (DmaCont.completions .GEOMETRY_128_64 DmaCont.ssd1306_RasterIntCallback 33
        (DmaCont.ssd1306_ContUpdateEnable .GEOMETRY_128_64
          (DmaCont.reset .GEOMETRY_128_64)).1).2.count (BusEvent.command 0) = 8 := by
  decide

/-- C8, as amended: in the continuous build, `ssd1306_WriteCommand(b2)`
called while the engine runs with a command `b1` still in the mailbox does
not overwrite it: the call waits for the `k + 1` completions up to the end of
the cycle (`k = ssd1306_updateend - ssd1306_updatestatus`; with fuel for `k`
completions or fewer it has not returned), the last of which transmits `b1`
and empties the mailbox, and only then stores `b2` as the pending command. -/
theorem DmaCont.writeCommand_waits_for_pending (g : SSD1306_Geometry)
    (hook : Nat → Screen → Screen) (s : DmaCont.Engine) (b2 fuel : Nat)
    (h : DmaCont.Running g s) (hc : s.ssd1306_command ≠ 0) :
    (fuel ≤ s.ssd1306_updateend - s.ssd1306_updatestatus →
      DmaCont.ssd1306_WriteCommand g hook fuel b2 s = none) ∧
    (s.ssd1306_updateend - s.ssd1306_updatestatus + 1 ≤ fuel →
      ∃ r, DmaCont.ssd1306_WriteCommand g hook fuel b2 s = some r ∧
        r.1.ssd1306_command = b2 ∧
        r.2 = (DmaCont.completions g hook
                (s.ssd1306_updateend - s.ssd1306_updatestatus) s).2
              ++ [BusEvent.command s.ssd1306_command]) := by
  have hH : SSD1306_HEIGHT g ≠ 0 := by cases g <;> simp [SSD1306_HEIGHT]
  obtain ⟨hu, he, hlo, hhi⟩ := id h
  have h0 : s.ssd1306_updatestatus ≠ 0 := by omega
  constructor
  · intro hf
    simp only [DmaCont.ssd1306_WriteCommand, if_pos h0, DmaCont.wait_none g hook fuel s h hc hf]
  · intro hf
    have hw := DmaCont.wait_some g hook fuel s h hc hf
    generalize hk : s.ssd1306_updateend - s.ssd1306_updatestatus = k at hw ⊢
    obtain ⟨f1, f2, f3⟩ := DmaCont.completions_fields g hook k s h (by omega)
    have hnlt : ¬ (DmaCont.completions g hook k s).1.ssd1306_updatestatus
        < (DmaCont.completions g hook k s).1.ssd1306_updateend := by rw [f1, f2]; omega
    have hk0 : (DmaCont.completions g hook k s).1.ssd1306_updatestatus ≠ 0 := by rw [f1]; omega
    refine ⟨_, by simp only [DmaCont.ssd1306_WriteCommand, if_pos h0, hw]; rfl, rfl, ?_⟩
    simp only
    rw [DmaCont.completions_split, DmaCont.completions_one,
      DmaCont.HAL_end_pending g hook _ hk0 hnlt (by rw [f3]; exact hc), f3]

/-- Witness for `DmaCont.writeCommand_waits_for_pending`: on the 128x64
display, `0x42` is injected right after `ssd1306_ContUpdateEnable` and is
pending when the next command is written. -/
theorem DmaCont.writeCommand_waits_for_pending_witness :
    DmaCont.Running .GEOMETRY_128_64
      { (DmaCont.ssd1306_ContUpdateEnable .GEOMETRY_128_64
          (DmaCont.reset .GEOMETRY_128_64)).1 with ssd1306_command := 0x42 } ∧
    ({ (DmaCont.ssd1306_ContUpdateEnable .GEOMETRY_128_64
          (DmaCont.reset .GEOMETRY_128_64)).1 with
        ssd1306_command := 0x42 } : DmaCont.Engine).ssd1306_command ≠ 0 ∧
    DmaCont.ssd1306_WriteCommand .GEOMETRY_128_64 DmaCont.ssd1306_RasterIntCallback 0 0xA7
      { (DmaCont.ssd1306_ContUpdateEnable .GEOMETRY_128_64
          (DmaCont.reset .GEOMETRY_128_64)).1 with ssd1306_command := 0x42 } = none :=
  ⟨⟨by decide, rfl, by decide, by decide⟩, by decide,
   (DmaCont.writeCommand_waits_for_pending .GEOMETRY_128_64 DmaCont.ssd1306_RasterIntCallback
      { (DmaCont.ssd1306_ContUpdateEnable .GEOMETRY_128_64
          (DmaCont.reset .GEOMETRY_128_64)).1 with ssd1306_command := 0x42 }
      0xA7 0 ⟨by decide, rfl, by decide, by decide⟩ (by decide)).1 (Nat.zero_le _)⟩

set_option maxRecDepth 100000 in
/-- C8, counterexample: on the 128x64 display, after
`ssd1306_ContUpdateEnable` and `ssd1306_WriteCommand(0x42)` the byte `0x42`
is pending.  `ssd1306_WriteCommand(0xA7)` then does not return without
waiting (no result with fuel 0 or 32), and when it returns (fuel 33) the
last transaction issued during the wait is `command 0x42`: the first byte
was transmitted, not overwritten, and `0xA7` is the pending command. -/
theorem DmaCont.writeCommand_waits_for_pending_counterexample :
    (DmaCont.exec .GEOMETRY_128_64 DmaCont.ssd1306_RasterIntCallback 33 [.writeCommand 0x42]
      (DmaCont.ssd1306_ContUpdateEnable .GEOMETRY_128_64
        (DmaCont.reset .GEOMETRY_128_64)).1).map (fun r => r.1.ssd1306_command) = some 0x42 ∧
    DmaCont.exec .GEOMETRY_128_64 DmaCont.ssd1306_RasterIntCallback 0
      [.writeCommand 0x42, .writeCommand 0xA7]
      (DmaCont.ssd1306_ContUpdateEnable .GEOMETRY_128_64
        (DmaCont.reset .GEOMETRY_128_64)).1 = none ∧
    DmaCont.exec .GEOMETRY_128_64 DmaCont.ssd1306_RasterIntCallback 32
      [.writeCommand 0x42, .writeCommand 0xA7]
      (DmaCont.ssd1306_ContUpdateEnable .GEOMETRY_128_64
        (DmaCont.reset .GEOMETRY_128_64)).1 = none ∧
    (DmaCont.exec .GEOMETRY_128_64 DmaCont.ssd1306_RasterIntCallback 33
      [.writeCommand 0x42, .writeCommand 0xA7]
      (DmaCont.ssd1306_ContUpdateEnable .GEOMETRY_128_64
        (DmaCont.reset .GEOMETRY_128_64)).1).map
        (fun r => (r.1.ssd1306_command, r.2.getLast?, r.2.length))
      = some (0xA7, some (BusEvent.command 0x42), 33) := by
  decide

/-! ## One-shot build: re-arming a running transfer -/

theorem dataPages_map_passEvent (g : SSD1306_Geometry) (d : Screen) (l : List Nat) :
    dataPages g (l.map (passEvent g d)) =
      (l.filter (fun i => i % 4 = 3)).map (fun i => i / 4 % pageCount g) := by
  have hW : 0 < SSD1306_WIDTH g := by cases g <;> decide
  induction l with
  | nil => rfl
  | cons i l ih =>
    by_cases h3 : i % 4 = 3
    · simp only [List.map_cons, passEvent, h3, if_true, dataPages, ih, decide_True,
        List.filter_cons_of_pos, Nat.mul_div_cancel_left _ hW]
    · have hne : dataPages g (passEvent g d i :: l.map (passEvent g d))
          = dataPages g (l.map (passEvent g d)) := by
        unfold passEvent
        rw [if_neg h3]
        split_ifs <;> rfl
      rw [List.map_cons, hne, ih, List.filter_cons_of_neg (by simpa using h3)]

namespace DmaOneShot

/-- One completion step in terms of the raw counter value. -/
theorem HAL_raw (g : SSD1306_Geometry) (s : Engine)
    (h0 : s.ssd1306_updatestatus ≠ 0)
    (hlt : s.ssd1306_updatestatus < s.ssd1306_updateend)
    (h255 : s.ssd1306_updatestatus < 255) :
    HAL_I2C_MemTxCpltCallback g s =
      ({ s with ssd1306_updatestatus := s.ssd1306_updatestatus + 1 },
       [passEvent g s.screen (s.ssd1306_updatestatus + 1)]) := by
  have e1 : (s.ssd1306_updatestatus + 1) % 256 = s.ssd1306_updatestatus + 1 := by omega
  cases g <;>
    simp only [HAL_I2C_MemTxCpltCallback, passEvent, if_pos h0, if_pos hlt, e1, and3_eq_mod,
      shr2_eq_div, SSD1306_HEIGHT, SSD1306_WIDTH, pageCount]
  · rw [show 64 / 8 - 1 = 7 from rfl, and7_eq_mod, show 64 / 8 = 8 from rfl]
    split_ifs <;> rfl
  · rw [show 32 / 8 - 1 = 3 from rfl, and3_eq_mod, show 32 / 8 = 4 from rfl]
    split_ifs <;> rfl

theorem completions_raw (g : SSD1306_Geometry) (k : Nat) :
    ∀ s : Engine, s.ssd1306_updatestatus ≠ 0 →
      s.ssd1306_updatestatus + k ≤ s.ssd1306_updateend → s.ssd1306_updateend ≤ 255 →
      completions g k s =
        ({ s with ssd1306_updatestatus := s.ssd1306_updatestatus + k },
         (List.range' (s.ssd1306_updatestatus + 1) k).map (passEvent g s.screen)) := by
  induction k with
  | zero => intro s _ _ _; rfl
  | succ k ih =>
    intro s h0 hk he
    have h1 := HAL_raw g s h0 (by omega) (by omega)
    have h2 := ih { s with ssd1306_updatestatus := s.ssd1306_updatestatus + 1 }
      (by simp) (by simp only; omega) he
    simp only [completions, h1, h2, List.range'_succ, List.map_cons]
    simp [Nat.add_assoc, Nat.add_comm 1 k]

set_option maxRecDepth 100000 in
/-- The branch `ssd1306_updatestatus >= SSD1306_HEIGHT` of
`ssd1306_UpdateScreen`: called during the first pass of a transfer (counter
`SSD1306_HEIGHT + j`), it issues nothing itself, and the completions up to
Idle that follow send every page once more, starting with the page whose data
had not been handed to the transport yet. -/
theorem rearm_sends_all_pages (g : SSD1306_Geometry) (s : Engine) (j : Nat)
    (hj : j ≤ SSD1306_HEIGHT g / 2)
    (hs : s.ssd1306_updatestatus = SSD1306_HEIGHT g + j)
    (he : s.ssd1306_updateend = SSD1306_HEIGHT g + SSD1306_HEIGHT g / 2) :
    (ssd1306_UpdateScreen g s).2 = [] ∧
    (completions g
        ((ssd1306_UpdateScreen g s).1.ssd1306_updateend
          - (ssd1306_UpdateScreen g s).1.ssd1306_updatestatus + 1)
        (ssd1306_UpdateScreen g s).1).1.ssd1306_updatestatus = 0 ∧
    dataPages g (completions g
        ((ssd1306_UpdateScreen g s).1.ssd1306_updateend
          - (ssd1306_UpdateScreen g s).1.ssd1306_updatestatus + 1)
        (ssd1306_UpdateScreen g s).1).2
      = pagesFrom (pageCount g) ((j + 1) / 4) (pageCount g) := by
  have hH : SSD1306_HEIGHT g = 64 ∨ SSD1306_HEIGHT g = 32 := by cases g <;> simp [SSD1306_HEIGHT]
  have h0 : s.ssd1306_updatestatus ≠ 0 := by omega
  have hge : s.ssd1306_updatestatus ≥ SSD1306_HEIGHT g := by omega
  have e1 : (s.ssd1306_updatestatus - SSD1306_HEIGHT g / 2) % 256
      = SSD1306_HEIGHT g / 2 + j := by omega
  have e2 : SSD1306_HEIGHT g / 2 + j + (SSD1306_HEIGHT g / 2 + 1)
      = SSD1306_HEIGHT g + j + 1 := by omega
  have hU : ssd1306_UpdateScreen g s =
      ({ s with
          ssd1306_updatestatus := SSD1306_HEIGHT g / 2 + j
          ssd1306_updateend := 4 * ((SSD1306_HEIGHT g + j + 1) / 4) }, []) := by
    simp only [ssd1306_UpdateScreen, if_neg h0, if_pos hge, e1, e2]
    rw [andFC_eq _ (by omega)]
  rw [hU]
  refine ⟨rfl, ?_⟩
  simp only
  generalize hk : 4 * ((SSD1306_HEIGHT g + j + 1) / 4) - (SSD1306_HEIGHT g / 2 + j) = k
  have hraw := completions_raw g k
    { s with
        ssd1306_updatestatus := SSD1306_HEIGHT g / 2 + j
        ssd1306_updateend := 4 * ((SSD1306_HEIGHT g + j + 1) / 4) }
    (by simp only [ne_eq]; omega) (by simp only; omega) (by simp only; omega)
  rw [completions_add, hraw]
  simp only
  rw [show completions g 1 = fun s => ((HAL_I2C_MemTxCpltCallback g s).1,
      (HAL_I2C_MemTxCpltCallback g s).2 ++ []) from rfl]
  simp only
  rw [HAL_end g _ (by simp only [ne_eq]; omega) (by simp only; omega)]
  refine ⟨rfl, ?_⟩
  simp only [List.append_nil, dataPages_map_passEvent]
  subst hk
  cases g <;> simp only [SSD1306_HEIGHT, pageCount] at hj ⊢ <;> interval_cases j <;> decide

end DmaOneShot

/-! ## Pixels and bits -/

theorem getD_set_eq (l : List Nat) (i j a : Nat) :
    (l.set i a).getD j 0 = if i = j ∧ i < l.length then a else l.getD j 0 := by
  simp only [List.getD_eq_getElem?_getD, List.getElem?_set]
  by_cases h : i = j
  · subst h
    by_cases h2 : i < l.length
    · simp [h2]
    · simp [h2, List.getElem?_eq_none (Nat.le_of_not_lt h2)]
  · simp [h]

theorem testBit_set_byte (b k j : Nat) :
    ((b ||| (1 <<< k)) % 256).testBit j = (decide (j < 8) && (b.testBit j || decide (k = j))) := by
  rw [show (256 : Nat) = 2 ^ 8 from rfl, Nat.testBit_mod_two_pow, Nat.testBit_or,
    Nat.one_shiftLeft, Nat.testBit_two_pow]

theorem testBit_clear_byte (b k j : Nat) :
    (b &&& (0xFF ^^^ (1 <<< k))).testBit j =
      (b.testBit j && (decide (j < 8) ^^ decide (k = j))) := by
  rw [Nat.testBit_and, Nat.testBit_xor, show (0xFF : Nat) = 2 ^ 8 - 1 from rfl,
    Nat.testBit_two_pow_sub_one, Nat.one_shiftLeft, Nat.testBit_two_pow]

theorem testBit_byte_high (b j : Nat) (hb : b < 256) (hj : 8 ≤ j) : b.testBit j = false := by
  apply Nat.testBit_lt_two_pow
  calc b < 2 ^ 8 := hb
    _ ≤ 2 ^ j := Nat.pow_le_pow_right (by decide) hj

/-- The byte of pixel `(x, y)` lies inside the buffer. -/
theorem pixel_index_lt (g : SSD1306_Geometry) (x y : Nat)
    (hx : x < SSD1306_WIDTH g) (hy : y < SSD1306_HEIGHT g) :
    x + (y / 8) * SSD1306_WIDTH g < SSD1306_BUFFER_SIZE g := by
  cases g <;> simp only [SSD1306_WIDTH, SSD1306_HEIGHT, SSD1306_BUFFER_SIZE] at * <;> omega

/-- Two pixels on the screen share byte and bit only if they are the same pixel. -/
theorem pixel_index_inj (g : SSD1306_Geometry) (x y x2 y2 : Nat)
    (hx : x < SSD1306_WIDTH g) (hx2 : x2 < SSD1306_WIDTH g) :
    (x2 + (y2 / 8) * SSD1306_WIDTH g = x + (y / 8) * SSD1306_WIDTH g ∧ y2 % 8 = y % 8) ↔
      (x2 = x ∧ y2 = y) := by
  cases g <;> simp only [SSD1306_WIDTH] at * <;> omega

theorem drawPixel_SSD1306 (g : SSD1306_Geometry) (x y : Nat) (d : Screen) :
    (ssd1306_DrawPixel g x y d).SSD1306 = d.SSD1306 := by
  simp only [ssd1306_DrawPixel]
  split_ifs <;> rfl

theorem drawPixel_length (g : SSD1306_Geometry) (x y : Nat) (d : Screen) :
    (ssd1306_DrawPixel g x y d).SSD1306_Buffer.length = d.SSD1306_Buffer.length := by
  simp only [ssd1306_DrawPixel]
  split_ifs <;> simp

/-- The buffer after an in-range `ssd1306_DrawPixel`, colour White, no inversion. -/
theorem drawPixel_white_buffer (g : SSD1306_Geometry) (x y : Nat) (d : Screen)
    (hx : x < SSD1306_WIDTH g) (hy : y < SSD1306_HEIGHT g)
    (hinv : d.SSD1306.Inverted = 0) (hc : d.SSD1306.Color = SSD1306_COLOR.White) :
    (ssd1306_DrawPixel g x y d).SSD1306_Buffer =
      d.SSD1306_Buffer.set (x + (y / 8) * SSD1306_WIDTH g)
        ((d.SSD1306_Buffer.getD (x + (y / 8) * SSD1306_WIDTH g) 0 ||| (1 <<< (y % 8))) % 256) := by
  unfold ssd1306_DrawPixel
  rw [if_neg (by omega)]
  simp only [hinv, hc, ne_eq, not_true_eq_false, if_false, if_true]

/-- The buffer after an in-range `ssd1306_DrawPixel` when the colour it uses
is not White. -/
theorem drawPixel_nonwhite_buffer (g : SSD1306_Geometry) (x y : Nat) (d : Screen)
    (hx : x < SSD1306_WIDTH g) (hy : y < SSD1306_HEIGHT g)
    (hinv : d.SSD1306.Inverted = 0) (hc : d.SSD1306.Color ≠ SSD1306_COLOR.White) :
    (ssd1306_DrawPixel g x y d).SSD1306_Buffer =
      d.SSD1306_Buffer.set (x + (y / 8) * SSD1306_WIDTH g)
        (d.SSD1306_Buffer.getD (x + (y / 8) * SSD1306_WIDTH g) 0 &&& (0xFF ^^^ (1 <<< (y % 8)))) := by
  unfold ssd1306_DrawPixel
  rw [if_neg (by omega)]
  simp only [hinv, ne_eq, not_true_eq_false, if_false, if_neg hc]

/-- Pixels after `ssd1306_DrawPixel` with colour White: the pixel drawn is
lit, the others are as before. -/
theorem drawPixel_white_lit (g : SSD1306_Geometry) (x y : Nat) (d : Screen)
    (hinv : d.SSD1306.Inverted = 0) (hc : d.SSD1306.Color = SSD1306_COLOR.White)
    (hlen : d.SSD1306_Buffer.length = SSD1306_BUFFER_SIZE g)
    (x2 y2 : Nat) (hx2 : x2 < SSD1306_WIDTH g) (hy2 : y2 < SSD1306_HEIGHT g) :
    pixelLit g (ssd1306_DrawPixel g x y d) x2 y2 =
      (decide (x2 = x ∧ y2 = y) || pixelLit g d x2 y2) := by
  by_cases hr : x ≥ SSD1306_WIDTH g ∨ y ≥ SSD1306_HEIGHT g
  · have hne : ¬ (x2 = x ∧ y2 = y) := by omega
    simp [ssd1306_DrawPixel, hr, hne]
  · have hx : x < SSD1306_WIDTH g := by omega
    have hy : y < SSD1306_HEIGHT g := by omega
    have hi := pixel_index_lt g x y hx hy
    unfold pixelLit
    rw [drawPixel_white_buffer g x y d hx hy hinv hc, getD_set_eq]
    by_cases he : x + y / 8 * SSD1306_WIDTH g = x2 + y2 / 8 * SSD1306_WIDTH g
    · rw [if_pos ⟨he, by omega⟩, testBit_set_byte, he]
      have h8 : y2 % 8 < 8 := Nat.mod_lt _ (by decide)
      have := pixel_index_inj g x y x2 y2 hx hx2
      by_cases hb : y % 8 = y2 % 8
      · have hxy : x2 = x ∧ y2 = y := this.1 ⟨he.symm, hb.symm⟩
        simp [h8, hb, hxy]
      · have hxy : ¬ (x2 = x ∧ y2 = y) := fun h => hb (by rw [h.2])
        simp [h8, hb, hxy]
    · rw [if_neg (fun h => he h.1)]
      have hxy : ¬ (x2 = x ∧ y2 = y) := fun h => he (by rw [h.1, h.2])
      simp [hxy]

/-- Pixels after `ssd1306_DrawPixel` when the colour it uses is not White:
the pixel drawn is unlit, the others are as before. -/
theorem drawPixel_nonwhite_lit (g : SSD1306_Geometry) (x y : Nat) (d : Screen)
    (hx : x < SSD1306_WIDTH g) (hy : y < SSD1306_HEIGHT g)
    (hinv : d.SSD1306.Inverted = 0) (hc : d.SSD1306.Color ≠ SSD1306_COLOR.White)
    (hlen : d.SSD1306_Buffer.length = SSD1306_BUFFER_SIZE g)
    (x2 y2 : Nat) (hx2 : x2 < SSD1306_WIDTH g) :
    pixelLit g (ssd1306_DrawPixel g x y d) x2 y2 =
      (!decide (x2 = x ∧ y2 = y) && pixelLit g d x2 y2) := by
  have hi := pixel_index_lt g x y hx hy
  unfold pixelLit
  rw [drawPixel_nonwhite_buffer g x y d hx hy hinv hc, getD_set_eq]
  by_cases he : x + y / 8 * SSD1306_WIDTH g = x2 + y2 / 8 * SSD1306_WIDTH g
  · rw [if_pos ⟨he, by omega⟩, testBit_clear_byte, he]
    have h8 : y2 % 8 < 8 := Nat.mod_lt _ (by decide)
    have := pixel_index_inj g x y x2 y2 hx hx2
    by_cases hb : y % 8 = y2 % 8
    · have hxy : x2 = x ∧ y2 = y := this.1 ⟨he.symm, hb.symm⟩
      simp [h8, hb, hxy]
    · have hxy : ¬ (x2 = x ∧ y2 = y) := fun h => hb (by rw [h.2])
      simp [h8, hb, hxy]
  · rw [if_neg (fun h => he h.1)]
    have hxy : ¬ (x2 = x ∧ y2 = y) := fun h => he (by rw [h.1, h.2])
    simp [hxy]

theorem getD_byte_lt (l : List Nat) (h : ∀ b ∈ l, b < 256) (i : Nat) : l.getD i 0 < 256 := by
  rw [List.getD_eq_getElem?_getD]
  cases hq : l[i]? with
  | none => simp
  | some b => exact h b (List.mem_iff_getElem?.2 ⟨i, hq⟩)

/-- C11: for an in-range `(x, y)` with the Inverted flag clear,
`ssd1306_DrawPixel` with colour White sets bit `y mod 8` of buffer byte
`x + (y div 8) * WIDTH` and with colour Black clears it; every other bit of
every byte is unchanged; and in the resulting buffer bit `b` of the byte at
page `p`, column `c` is the pixel `(c, 8 p + b)`. -/
theorem drawPixel_in_range (g : SSD1306_Geometry) (x y : Nat) (d : Screen)
    (hx : x < SSD1306_WIDTH g) (hy : y < SSD1306_HEIGHT g)
    (hinv : d.SSD1306.Inverted = 0)
    (hlen : d.SSD1306_Buffer.length = SSD1306_BUFFER_SIZE g)
    (hbytes : ∀ b ∈ d.SSD1306_Buffer, b < 256) :
    (d.SSD1306.Color = SSD1306_COLOR.White → ∀ i j,
      ((ssd1306_DrawPixel g x y d).SSD1306_Buffer.getD i 0).testBit j =
        (decide (i = x + (y / 8) * SSD1306_WIDTH g ∧ j = y % 8) ||
          (d.SSD1306_Buffer.getD i 0).testBit j)) ∧
    (d.SSD1306.Color = SSD1306_COLOR.Black → ∀ i j,
      ((ssd1306_DrawPixel g x y d).SSD1306_Buffer.getD i 0).testBit j =
        (!decide (i = x + (y / 8) * SSD1306_WIDTH g ∧ j = y % 8) &&
          (d.SSD1306_Buffer.getD i 0).testBit j)) ∧
    (∀ c p b, b < 8 →
      pixelLit g (ssd1306_DrawPixel g x y d) c (8 * p + b) =
        ((ssd1306_DrawPixel g x y d).SSD1306_Buffer.getD (c + p * SSD1306_WIDTH g) 0).testBit b) := by
  have hi := pixel_index_lt g x y hx hy
  have h8 : y % 8 < 8 := Nat.mod_lt _ (by decide)
  refine ⟨fun hc i j => ?_, fun hc i j => ?_, fun c p b hb => ?_⟩
  · rw [drawPixel_white_buffer g x y d hx hy hinv hc, getD_set_eq]
    by_cases he : x + y / 8 * SSD1306_WIDTH g = i
    · subst he
      rw [if_pos ⟨rfl, by omega⟩, testBit_set_byte]
      by_cases hj : j < 8
      · by_cases hjk : y % 8 = j
        · simp [hj, hjk]
        · have : ¬ j = y % 8 := fun h => hjk h.symm
          simp [hj, hjk, this]
      · have : ¬ j = y % 8 := by omega
        rw [testBit_byte_high _ j (getD_byte_lt _ hbytes _) (by omega)]
        simp [hj, this]
    · rw [if_neg (fun h => he h.1)]
      have : ¬ (i = x + y / 8 * SSD1306_WIDTH g ∧ j = y % 8) := fun h => he h.1.symm
      simp [this]
  · have hnw : d.SSD1306.Color ≠ SSD1306_COLOR.White := by rw [hc]; decide
    rw [drawPixel_nonwhite_buffer g x y d hx hy hinv hnw, getD_set_eq]
    by_cases he : x + y / 8 * SSD1306_WIDTH g = i
    · subst he
      rw [if_pos ⟨rfl, by omega⟩, testBit_clear_byte]
      by_cases hj : j < 8
      · by_cases hjk : y % 8 = j
        · simp [hj, hjk]
        · have : ¬ j = y % 8 := fun h => hjk h.symm
          simp [hj, hjk, this]
      · have : ¬ j = y % 8 := by omega
        rw [testBit_byte_high _ j (getD_byte_lt _ hbytes _) (by omega)]
        simp [hj, this]
    · rw [if_neg (fun h => he h.1)]
      have : ¬ (i = x + y / 8 * SSD1306_WIDTH g ∧ j = y % 8) := fun h => he h.1.symm
      simp [this]
  · unfold pixelLit
    rw [show (8 * p + b) / 8 = p by omega, show (8 * p + b) % 8 = b by omega]

/-! ## Lists of pixels drawn in White -/

theorem blankScreen_whiteReady (g : SSD1306_Geometry) :
    WhiteReady g (blankScreen g SSD1306_COLOR.White) :=
  ⟨rfl, rfl, by simp [blankScreen]⟩

theorem blankScreen_unlit (g : SSD1306_Geometry) (c : SSD1306_COLOR) (x y : Nat) :
    pixelLit g (blankScreen g c) x y = false := by
  unfold pixelLit blankScreen
  simp only [List.getD_eq_getElem?_getD, List.getElem?_replicate]
  split_ifs <;> simp

theorem drawPixel_whiteReady (g : SSD1306_Geometry) (x y : Nat) (d : Screen)
    (h : WhiteReady g d) : WhiteReady g (ssd1306_DrawPixel g x y d) := by
  obtain ⟨h1, h2, h3⟩ := h
  refine ⟨?_, ?_, ?_⟩
  · rw [drawPixel_SSD1306]; exact h1
  · rw [drawPixel_SSD1306]; exact h2
  · rw [drawPixel_length]; exact h3

theorem drawPixels_whiteReady (g : SSD1306_Geometry) (pts : List (Nat × Nat)) :
    ∀ d : Screen, WhiteReady g d → WhiteReady g (drawPixels g pts d) := by
  induction pts with
  | nil => intro d h; exact h
  | cons p pts ih =>
    intro d h
    exact ih _ (drawPixel_whiteReady g p.1 p.2 d h)

theorem drawPixels_append (g : SSD1306_Geometry) (p q : List (Nat × Nat)) (d : Screen) :
    drawPixels g (p ++ q) d = drawPixels g q (drawPixels g p d) := by
  simp [drawPixels]

/-- After drawing a list of pixels in White, an on-screen pixel is lit iff it
is in the list or was lit before. -/
theorem drawPixels_lit (g : SSD1306_Geometry) (pts : List (Nat × Nat)) :
    ∀ d : Screen, WhiteReady g d → ∀ x y, x < SSD1306_WIDTH g → y < SSD1306_HEIGHT g →
      pixelLit g (drawPixels g pts d) x y = (decide ((x, y) ∈ pts) || pixelLit g d x y) := by
  induction pts with
  | nil => intro d _ x y _ _; simp [drawPixels]
  | cons p pts ih =>
    intro d h x y hx hy
    have h1 := ih _ (drawPixel_whiteReady g p.1 p.2 d h) x y hx hy
    simp only [drawPixels, List.foldl_cons] at h1 ⊢
    rw [h1, drawPixel_white_lit g p.1 p.2 d h.1 h.2.1 h.2.2 x y hx hy]
    have : (x, y) = p ↔ (x = p.1 ∧ y = p.2) := by
      constructor
      · intro e; rw [← e]; exact ⟨rfl, rfl⟩
      · intro e; exact Prod.ext e.1 e.2
    by_cases hp : (x, y) = p
    · simp [hp, this.1 hp]
    · have hn : ¬ (x = p.1 ∧ y = p.2) := fun e => hp (this.2 e)
      simp [hn, Ne.symm, List.mem_cons, hp]

/-- `toU8` on a value that fits. -/
theorem toU8_of_range (v : Int) (h0 : 0 ≤ v) (h1 : v < 256) : toU8 v = v.toNat := by
  unfold toU8
  rw [Int.emod_eq_of_lt h0 h1]

theorem wrap16_of_range (v : Int) (h0 : -32768 ≤ v) (h1 : v ≤ 32767) : wrap16 v = v := by
  unfold wrap16
  omega

/-! ## The reference Bresenham walk -/

/-- Every point of a walk lies `k < n` major steps and `m` minor steps from
the start, and `m * dx` differs from `k * dy` by less than `dx`: the error
term keeps the walk on the ideal line. -/
theorem bresenhamSteps_mem (dx dy step : Int) (hdy0 : 0 ≤ dy) (hdy : dy ≤ dx)
    (n : Nat) : ∀ (a b err : Int), 0 ≤ err → err < dx →
      ∀ p ∈ bresenhamSteps dx dy step n a b err,
        ∃ m : Int, 0 ≤ m ∧ p.2 = b + step * m ∧ a ≤ p.1 ∧ p.1 < a + n ∧
          m * dx ≤ (p.1 - a) * dy + (dx - 1 - err) ∧ (p.1 - a) * dy - err ≤ m * dx := by
  induction n with
  | zero => intro a b err _ _ p hp; simp [bresenhamSteps] at hp
  | succ n ih =>
    intro a b err he0 he p hp
    simp only [bresenhamSteps, List.mem_cons] at hp
    rcases hp with hp | hp
    · subst hp
      refine ⟨0, le_refl _, by simp, le_refl _, by push_cast; omega, ?_, ?_⟩
      · simp only [sub_self, zero_mul]; omega
      · simp only [sub_self, zero_mul]; omega
    · by_cases hneg : err - dy < 0
      · rw [if_pos hneg] at hp
        obtain ⟨m, hm0, hmb, ha1, ha2, hu, hl⟩ :=
          ih (a + 1) (b + step) (err - dy + dx) (by omega) (by omega) p hp
        refine ⟨m + 1, by omega, by rw [hmb]; ring, by omega, by push_cast; omega, ?_, ?_⟩
        · have e1 : (m + 1) * dx = m * dx + dx := by ring
          have e2 : (p.1 - a) * dy = (p.1 - (a + 1)) * dy + dy := by ring
          rw [e1, e2]; omega
        · have e1 : (m + 1) * dx = m * dx + dx := by ring
          have e2 : (p.1 - a) * dy = (p.1 - (a + 1)) * dy + dy := by ring
          rw [e1, e2]; omega
      · rw [if_neg hneg] at hp
        obtain ⟨m, hm0, hmb, ha1, ha2, hu, hl⟩ :=
          ih (a + 1) b (err - dy) (by omega) (by omega) p hp
        refine ⟨m, hm0, hmb, by omega, by push_cast; omega, ?_, ?_⟩
        · have e2 : (p.1 - a) * dy = (p.1 - (a + 1)) * dy + dy := by ring
          rw [e2]; omega
        · have e2 : (p.1 - a) * dy = (p.1 - (a + 1)) * dy + dy := by ring
          rw [e2]; omega

/-- The points of a full walk (`dx + 1` points from error `dx / 2`) stay
within `dy` minor steps of the start. -/
theorem bresenhamSteps_box (dx dy step : Int) (hdx : 0 ≤ dx) (hdy0 : 0 ≤ dy) (hdy : dy ≤ dx)
    (a b : Int) :
    ∀ p ∈ bresenhamSteps dx dy step (dx + 1).toNat a b (Int.tdiv dx 2),
      a ≤ p.1 ∧ p.1 ≤ a + dx ∧ ∃ m : Int, 0 ≤ m ∧ m ≤ dy ∧ p.2 = b + step * m := by
  intro p hp
  rcases lt_or_eq_of_le hdx with hpos | hzero
  · have hdiv : Int.tdiv dx 2 = dx / 2 := Int.tdiv_eq_ediv hdx (by decide)
    rw [hdiv] at hp
    obtain ⟨m, hm0, hmb, ha1, ha2, hu, -⟩ :=
      bresenhamSteps_mem dx dy step hdy0 hdy _ a b (dx / 2) (by omega) (by omega) p hp
    have hn : (((dx + 1).toNat : Nat) : Int) = dx + 1 := Int.toNat_of_nonneg (by omega)
    rw [hn] at ha2
    refine ⟨ha1, by omega, m, hm0, ?_, hmb⟩
    by_contra hcon
    have h1 : dy + 1 ≤ m := by omega
    have h2 : (dy + 1) * dx ≤ m * dx := mul_le_mul_of_nonneg_right h1 hdx
    have h3 : (p.1 - a) * dy ≤ dx * dy := mul_le_mul_of_nonneg_right (by omega) hdy0
    have e1 : (dy + 1) * dx = dx * dy + dx := by ring
    rw [e1] at h2
    omega
  · have hzero' : dx = 0 := hzero.symm
    subst hzero'
    have hdy' : dy = 0 := by omega
    subst hdy'
    simp [bresenhamSteps] at hp
    subst hp
    exact ⟨le_refl _, by simp, 0, le_refl _, le_refl _, by simp⟩

/-! ## `ssd1306_DrawLine` and the reference walk -/

/-- While the coordinates and the error stay small, the loop of
`ssd1306_DrawLine` ends and draws the points of the reference walk. -/
theorem drawLineLoop_eq (g : SSD1306_Geometry) (steep : Bool) (x1 dx dy ystep : Int)
    (hdy0 : 0 ≤ dy) (hdy : dy ≤ dx) (hdx : dx ≤ 1000) (hx1 : x1 ≤ 1000)
    (hstep : ystep = 1 ∨ ystep = -1) (fuel : Nat) :
    ∀ (x0 y0 err : Int) (d : Screen), 0 ≤ err → err ≤ dx → -1000 ≤ x0 → x0 ≤ x1 + 1 →
      -3000 ≤ y0 - (x1 + 1 - x0) → y0 + (x1 + 1 - x0) ≤ 3000 →
      (x1 + 1 - x0).toNat ≤ fuel →
      drawLineLoop g steep x1 dx dy ystep fuel x0 y0 err d =
        some (drawPixels g
          ((bresenhamSteps dx dy ystep (x1 + 1 - x0).toNat x0 y0 err).map (linePixel steep)) d) := by
  induction fuel with
  | zero =>
    intro x0 y0 err d _ _ _ _ _ _ hf
    have hn : (x1 + 1 - x0).toNat = 0 := by omega
    have hgt : ¬ x0 ≤ x1 := by omega
    simp [drawLineLoop, hgt, hn, bresenhamSteps, drawPixels]
  | succ fuel ih =>
    intro x0 y0 err d he0 he hx0 hx01 hy1 hy2 hf
    by_cases hle : x0 ≤ x1
    · obtain ⟨n, hn⟩ : ∃ n, (x1 + 1 - x0).toNat = n + 1 := ⟨(x1 - x0).toNat, by omega⟩
      have hn' : (x1 + 1 - (x0 + 1)).toNat = n := by omega
      have w1 : wrap16 (err - dy) = err - dy := wrap16_of_range _ (by omega) (by omega)
      have w2 : wrap16 (x0 + 1) = x0 + 1 := wrap16_of_range _ (by omega) (by omega)
      have w3 : wrap16 (y0 + ystep) = y0 + ystep := wrap16_of_range _ (by omega) (by omega)
      have w4 : wrap16 (err - dy + dx) = err - dy + dx := wrap16_of_range _ (by omega) (by omega)
      rw [hn]
      simp only [drawLineLoop, if_pos hle, w1, w2, w3, w4, bresenhamSteps, List.map_cons]
      by_cases hneg : err - dy < 0
      · rw [if_pos hneg, if_pos hneg,
          ih (x0 + 1) (y0 + ystep) (err - dy + dx) _ (by omega) (by omega) (by omega) (by omega)
            (by omega) (by omega) (by omega), hn']
        cases steep <;> simp [drawPixels, linePixel]
      · rw [if_neg hneg, if_neg hneg,
          ih (x0 + 1) y0 (err - dy) _ (by omega) (by omega) (by omega) (by omega)
            (by omega) (by omega) (by omega), hn']
        cases steep <;> simp [drawPixels, linePixel]
    · have hn : (x1 + 1 - x0).toNat = 0 := by omega
      simp [drawLineLoop, hle, hn, bresenhamSteps, drawPixels]

theorem cAbs_nonneg (v : Int) : 0 ≤ cAbs v := by
  unfold cAbs
  split_ifs <;> omega

/-- `ssd1306_DrawLine` after its swaps, in major/minor coordinates: on a blank
screen the loop lights exactly the points of the reference walk. -/
theorem drawLine_core (g : SSD1306_Geometry) (steep : Bool) (p0 q0 p1 q1 : Int) (fuel : Nat)
    (M N : Int) (hM : M = if steep then (SSD1306_HEIGHT g : Int) else (SSD1306_WIDTH g : Int))
    (hN : N = if steep then (SSD1306_WIDTH g : Int) else (SSD1306_HEIGHT g : Int))
    (hp : p0 ≤ p1) (hp0 : 0 ≤ p0) (hp1 : p1 < M)
    (hq0 : 0 ≤ q0 ∧ q0 < N) (hq1 : 0 ≤ q1 ∧ q1 < N)
    (hflat : cAbs (q1 - q0) ≤ p1 - p0) (hf : SSD1306_WIDTH g < fuel) :
    ∃ d, drawLineLoop g steep p1 (wrap16 (p1 - p0)) (wrap16 (cAbs (q1 - q0)))
          (if q0 < q1 then 1 else -1) fuel p0 q0 (wrap16 (Int.tdiv (wrap16 (p1 - p0)) 2))
          (blankScreen g SSD1306_COLOR.White) = some d ∧
      WhiteReady g d ∧
      ∀ x y : Int, litAt g d x y ↔
        (x, y) ∈
          (if steep then
            (bresenhamSteps (p1 - p0) (cAbs (q1 - q0)) (if q0 < q1 then 1 else -1)
              (p1 - p0 + 1).toNat p0 q0 (Int.tdiv (p1 - p0) 2)).map (fun p => (p.2, p.1))
           else
            bresenhamSteps (p1 - p0) (cAbs (q1 - q0)) (if q0 < q1 then 1 else -1)
              (p1 - p0 + 1).toNat p0 q0 (Int.tdiv (p1 - p0) 2)) := by
  have hW : (SSD1306_WIDTH g : Int) = 128 := by cases g <;> rfl
  have hH : (SSD1306_HEIGHT g : Int) ≤ 128 ∧ 0 < (SSD1306_HEIGHT g : Int) := by
    cases g <;> simp [SSD1306_HEIGHT]
  have hWn : SSD1306_WIDTH g = 128 := by cases g <;> rfl
  have hM128 : M ≤ 128 := by rw [hM]; split_ifs <;> omega
  have hN128 : N ≤ 128 := by rw [hN]; split_ifs <;> omega
  have hdy0 := cAbs_nonneg (q1 - q0)
  have hdyq : cAbs (q1 - q0) = if q0 < q1 then q1 - q0 else q0 - q1 := by
    unfold cAbs; split_ifs <;> omega
  generalize hdx : p1 - p0 = dx at *
  generalize hdy : cAbs (q1 - q0) = dy at *
  have hdiv : Int.tdiv dx 2 = dx / 2 := Int.tdiv_eq_ediv (by omega) (by decide)
  have w1 : wrap16 dx = dx := wrap16_of_range _ (by omega) (by omega)
  have w2 : wrap16 dy = dy := wrap16_of_range _ (by omega) (by omega)
  have w3 : wrap16 (dx / 2) = dx / 2 := wrap16_of_range _ (by omega) (by omega)
  have hstep : (if q0 < q1 then (1 : Int) else -1) = 1 ∨ (if q0 < q1 then (1 : Int) else -1) = -1 := by
    split_ifs
    · exact Or.inl rfl
    · exact Or.inr rfl
  have hn : (p1 + 1 - p0).toNat = (dx + 1).toNat := by congr 1; omega
  have hloop := drawLineLoop_eq g steep p1 dx dy (if q0 < q1 then 1 else -1) hdy0 hflat
    (by omega) (by omega) hstep fuel p0 q0 (dx / 2) (blankScreen g SSD1306_COLOR.White)
    (by omega) (by omega) (by omega) (by omega) (by omega) (by omega) (by omega)
  rw [hn] at hloop
  rw [w1, w2, hdiv, w3, hloop]
  have hready := drawPixels_whiteReady g
    ((bresenhamSteps dx dy (if q0 < q1 then 1 else -1) (dx + 1).toNat p0 q0 (dx / 2)).map
      (linePixel steep)) _ (blankScreen_whiteReady g)
  refine ⟨_, rfl, hready, ?_⟩
  have hbox := bresenhamSteps_box dx dy (if q0 < q1 then 1 else -1) (by omega) hdy0 hflat p0 q0
  rw [hdiv] at hbox
  -- every point of the walk is on the screen, in major/minor coordinates
  have hon : ∀ p ∈ bresenhamSteps dx dy (if q0 < q1 then 1 else -1) (dx + 1).toNat p0 q0 (dx / 2),
      0 ≤ p.1 ∧ p.1 < M ∧ 0 ≤ p.2 ∧ p.2 < N := by
    intro p hpm
    obtain ⟨h1, h2, m, hm0, hm1, hm2⟩ := hbox p hpm
    refine ⟨by omega, by omega, ?_, ?_⟩
    · rw [hm2]; split_ifs at hm2 hdyq ⊢ <;> omega
    · rw [hm2]; split_ifs at hm2 hdyq ⊢ <;> omega
  intro x y
  have hmemiff : ∀ (a b : Nat), (a, b) ∈
      (bresenhamSteps dx dy (if q0 < q1 then 1 else -1) (dx + 1).toNat p0 q0 (dx / 2)).map
        (linePixel steep) ↔
      ∃ p ∈ bresenhamSteps dx dy (if q0 < q1 then 1 else -1) (dx + 1).toNat p0 q0 (dx / 2),
        linePixel steep p = (a, b) := fun a b => List.mem_map
  constructor
  · rintro ⟨hx0, hx1, hy0, hy1, hlit⟩
    rw [drawPixels_lit g _ _ (blankScreen_whiteReady g) _ _ (by omega) (by omega),
      blankScreen_unlit, Bool.or_false, decide_eq_true_eq, hmemiff] at hlit
    obtain ⟨p, hpm, hpe⟩ := hlit
    obtain ⟨b1, b2, b3, b4⟩ := hon p hpm
    have u1 : toU8 p.1 = p.1.toNat := toU8_of_range _ b1 (by omega)
    have u2 : toU8 p.2 = p.2.toNat := toU8_of_range _ b3 (by omega)
    cases steep
    · simp only [linePixel, Bool.false_eq_true, if_false, u1, u2, Prod.mk.injEq] at hpe ⊢
      have e1 : p.1 = x := by omega
      have e2 : p.2 = y := by omega
      rw [← e1, ← e2]; exact hpm
    · simp only [linePixel, if_true, u1, u2, Prod.mk.injEq] at hpe ⊢
      have e1 : p.2 = x := by omega
      have e2 : p.1 = y := by omega
      rw [List.mem_map]
      exact ⟨p, hpm, by rw [e1, e2]⟩
  · intro hmem
    have hex : ∃ p ∈ bresenhamSteps dx dy (if q0 < q1 then 1 else -1) (dx + 1).toNat p0 q0 (dx / 2),
        (if steep then (p.2, p.1) else p) = (x, y) := by
      cases steep
      · simp only [Bool.false_eq_true, if_false] at hmem ⊢
        exact ⟨(x, y), hmem, rfl⟩
      · simp only [if_true, List.mem_map] at hmem ⊢
        exact hmem
    obtain ⟨p, hpm, hpe⟩ := hex
    obtain ⟨b1, b2, b3, b4⟩ := hon p hpm
    have u1 : toU8 p.1 = p.1.toNat := toU8_of_range _ b1 (by omega)
    have u2 : toU8 p.2 = p.2.toNat := toU8_of_range _ b3 (by omega)
    have hxy : 0 ≤ x ∧ x < SSD1306_WIDTH g ∧ 0 ≤ y ∧ y < SSD1306_HEIGHT g ∧
        linePixel steep p = (x.toNat, y.toNat) := by
      cases steep
      · simp only [Bool.false_eq_true, if_false] at hpe hM hN
        subst hM hN
        simp only [linePixel, Bool.false_eq_true, if_false, u1, u2]
        subst hpe
        exact ⟨b1, b2, b3, b4, rfl⟩
      · simp only [if_true, Prod.mk.injEq] at hpe hM hN
        subst hM hN
        simp only [linePixel, if_true, u1, u2]
        obtain ⟨e1, e2⟩ := hpe
        subst e1 e2
        exact ⟨b3, b4, b1, b2, rfl⟩
    obtain ⟨hx0, hx1, hy0, hy1, hpix⟩ := hxy
    refine ⟨hx0, hx1, hy0, hy1, ?_⟩
    rw [drawPixels_lit g _ _ (blankScreen_whiteReady g) _ _ (by omega) (by omega),
      blankScreen_unlit, Bool.or_false, decide_eq_true_eq, hmemiff]
    exact ⟨p, hpm, hpix⟩

set_option maxRecDepth 100000 in
/-- C14: for on-screen endpoints, on a cleared buffer with colour White,
`ssd1306_DrawLine` returns (given fuel for more than `SSD1306_WIDTH` loop
rounds) and the pixels it lights are exactly the points of the reference
integer Bresenham algorithm; the reference gives the four point sets of the
spec for `(0,0)-(10,0)`, `(0,0)-(0,10)`, `(0,0)-(10,10)` and `(0,0)-(10,3)`. -/
theorem drawLine_matches_reference (g : SSD1306_Geometry) (x0 y0 x1 y1 : Int) (fuel : Nat)
    (hx0 : 0 ≤ x0 ∧ x0 < SSD1306_WIDTH g) (hy0 : 0 ≤ y0 ∧ y0 < SSD1306_HEIGHT g)
    (hx1 : 0 ≤ x1 ∧ x1 < SSD1306_WIDTH g) (hy1 : 0 ≤ y1 ∧ y1 < SSD1306_HEIGHT g)
    (hf : SSD1306_WIDTH g < fuel) :
    (∃ d, ssd1306_DrawLine g fuel x0 y0 x1 y1 (blankScreen g SSD1306_COLOR.White) = some d ∧
      ∀ x y : Int, litAt g d x y ↔ (x, y) ∈ bresenhamReference x0 y0 x1 y1) ∧
    bresenhamReference 0 0 10 0 =
      [(0,0), (1,0), (2,0), (3,0), (4,0), (5,0), (6,0), (7,0), (8,0), (9,0), (10,0)] ∧
    bresenhamReference 0 0 0 10 =
      [(0,0), (0,1), (0,2), (0,3), (0,4), (0,5), (0,6), (0,7), (0,8), (0,9), (0,10)] ∧
    bresenhamReference 0 0 10 10 =
      [(0,0), (1,1), (2,2), (3,3), (4,4), (5,5), (6,6), (7,7), (8,8), (9,9), (10,10)] ∧
    bresenhamReference 0 0 10 3 =
      [(0,0), (1,0), (2,1), (3,1), (4,1), (5,1), (6,2), (7,2), (8,2), (9,3), (10,3)] := by
  refine ⟨?_, by decide, by decide, by decide, by decide⟩
  simp only [ssd1306_DrawLine, bresenhamReference]
  by_cases hs : cAbs (y1 - y0) > cAbs (x1 - x0)
  · simp only [hs, decide_True, if_true]
    by_cases hsw : y0 > y1
    · simp only [hsw, if_true]
      obtain ⟨d, hd, -, hlit⟩ := drawLine_core g true y1 x1 y0 x0 fuel _ _ rfl rfl
        (by omega) hy1.1 hy0.2 hx1 hx0
        (by unfold cAbs at hs ⊢; split_ifs at hs ⊢ <;> omega) hf
      exact ⟨d, hd, hlit⟩
    · simp only [hsw, if_false]
      obtain ⟨d, hd, -, hlit⟩ := drawLine_core g true y0 x0 y1 x1 fuel _ _ rfl rfl
        (by omega) hy0.1 hy1.2 hx0 hx1
        (by unfold cAbs at hs ⊢; split_ifs at hs ⊢ <;> omega) hf
      exact ⟨d, hd, hlit⟩
  · simp only [hs, decide_False, Bool.false_eq_true, if_false]
    by_cases hsw : x0 > x1
    · simp only [hsw, if_true]
      obtain ⟨d, hd, -, hlit⟩ := drawLine_core g false x1 y1 x0 y0 fuel _ _ rfl rfl
        (by omega) hx1.1 hx0.2 hy1 hy0
        (by unfold cAbs at hs ⊢; split_ifs at hs ⊢ <;> omega) hf
      exact ⟨d, hd, hlit⟩
    · simp only [hsw, if_false]
      obtain ⟨d, hd, -, hlit⟩ := drawLine_core g false x0 y0 x1 y1 fuel _ _ rfl rfl
        (by omega) hx0.1 hx1.2 hy0 hy1
        (by unfold cAbs at hs ⊢; split_ifs at hs ⊢ <;> omega) hf
      exact ⟨d, hd, hlit⟩

/-! ## `ssd1306_DrawCircle` -/

theorem drawCirclePixels_eq (g : SSD1306_Geometry) (x0 y0 x y : Int) (d : Screen) :
    drawCirclePixels g x0 y0 x y d = drawPixels g ((octants x y).map (circlePixel x0 y0)) d := by
  simp only [drawCirclePixels, drawPixels, octants, circlePixel, List.map_cons, List.map_nil,
    List.foldl_cons, List.foldl_nil, Int.sub_eq_add_neg]

/-- The reflections of an offset of a group are in the group. -/
theorem octants_closed (u v : Int) (o : Int × Int) (h : o ∈ octants u v) :
    (-o.1, o.2) ∈ octants u v ∧ (o.1, -o.2) ∈ octants u v ∧ (o.2, o.1) ∈ octants u v := by
  simp only [octants, List.mem_cons, List.mem_singleton, List.not_mem_nil, or_false] at h ⊢
  rcases h with h | h | h | h | h | h | h | h <;> subst h <;> simp

theorem octants_bound (u v r : Int) (hu : 0 ≤ u ∧ u ≤ r) (hv : 0 ≤ v ∧ v ≤ r) (o : Int × Int)
    (h : o ∈ octants u v) : -r ≤ o.1 ∧ o.1 ≤ r ∧ -r ≤ o.2 ∧ o.2 ≤ r := by
  simp only [octants, List.mem_cons, List.mem_singleton, List.not_mem_nil, or_false] at h
  rcases h with h | h | h | h | h | h | h | h <;> subst h <;> simp <;> omega

theorem octantList_append (r : Int) (p q : List (Int × Int)) (hp : OctantList r p)
    (hq : OctantList r q) : OctantList r (p ++ q) := by
  intro o ho
  rcases List.mem_append.1 ho with h | h
  · obtain ⟨u, v, h1, h2, h3, h4, h5, h6⟩ := hp o h
    exact ⟨u, v, h1, h2, h3, h4, h5, fun o2 h2 => List.mem_append_left _ (h6 o2 h2)⟩
  · obtain ⟨u, v, h1, h2, h3, h4, h5, h6⟩ := hq o h
    exact ⟨u, v, h1, h2, h3, h4, h5, fun o2 h2 => List.mem_append_right _ (h6 o2 h2)⟩

theorem octantList_octants (r u v : Int) (hu : 0 ≤ u ∧ u ≤ r) (hv : 0 ≤ v ∧ v ≤ r) :
    OctantList r (octants u v) :=
  fun _ ho => ⟨u, v, hu.1, hu.2, hv.1, hv.2, ho, fun _ h => h⟩

/-- The midpoint step moves `x` up by one and `y` down by at most one. -/
theorem midpointStep_xy (x y dp : Int) (hx : 0 ≤ x) (hxy : x < y) (hy : y ≤ 32767) :
    (midpointStep x y dp).1 = x + 1 ∧
      ((midpointStep x y dp).2.1 = y ∨ (midpointStep x y dp).2.1 = y - 1) := by
  have w1 : wrap16 (x + 1) = x + 1 := wrap16_of_range _ (by omega) (by omega)
  have w2 : wrap16 (y - 1) = y - 1 := wrap16_of_range _ (by omega) (by omega)
  unfold midpointStep
  split_ifs
  · exact ⟨w1, Or.inl rfl⟩
  · exact ⟨w1, Or.inr w2⟩

/-- The loop of `ssd1306_DrawCircle` ends within `y - x` rounds and draws whole
groups of eight reflections. -/
theorem drawCircleLoop_spec (g : SSD1306_Geometry) (x0 y0 r : Int) (hr : r ≤ 32767)
    (fuel : Nat) : ∀ (x y dp : Int) (d : Screen), 0 ≤ x → x < y → y ≤ r →
      (y - x).toNat ≤ fuel →
      ∃ offs, drawCircleLoop g x0 y0 fuel x y dp d =
          some (drawPixels g (offs.map (circlePixel x0 y0)) d) ∧ OctantList r offs := by
  induction fuel with
  | zero => intro x y dp d _ _ _ hf; omega
  | succ fuel ih =>
    intro x y dp d hx hxy hy hf
    obtain ⟨h1, h2⟩ := midpointStep_xy x y dp hx hxy (by omega)
    have hv : 0 ≤ (midpointStep x y dp).2.1 ∧ (midpointStep x y dp).2.1 ≤ r := by
      rcases h2 with h | h <;> rw [h] <;> omega
    have hu : 0 ≤ (midpointStep x y dp).1 ∧ (midpointStep x y dp).1 ≤ r := by
      rw [h1]; omega
    simp only [drawCircleLoop, drawCirclePixels_eq]
    by_cases hlt : (midpointStep x y dp).1 < (midpointStep x y dp).2.1
    · rw [if_pos hlt]
      obtain ⟨offs, ho, hl⟩ := ih (midpointStep x y dp).1 (midpointStep x y dp).2.1
        (midpointStep x y dp).2.2
        (drawPixels g ((octants (midpointStep x y dp).1 (midpointStep x y dp).2.1).map
          (circlePixel x0 y0)) d)
        hu.1 hlt hv.2 (by rcases h2 with h | h <;> rw [h1, h] <;> omega)
      refine ⟨octants (midpointStep x y dp).1 (midpointStep x y dp).2.1 ++ offs, ?_,
        octantList_append r _ _ (octantList_octants r _ _ hu hv) hl⟩
      rw [ho, List.map_append, drawPixels_append]
    · rw [if_neg hlt]
      exact ⟨octants (midpointStep x y dp).1 (midpointStep x y dp).2.1, rfl,
        octantList_octants r _ _ hu hv⟩

theorem geometry_bounds (g : SSD1306_Geometry) :
    SSD1306_WIDTH g = 128 ∧ SSD1306_HEIGHT g ≤ 64 ∧ 32 ≤ SSD1306_HEIGHT g := by
  cases g <;> simp [SSD1306_WIDTH, SSD1306_HEIGHT]

/-- On a cleared White screen, after drawing the pixels at a list of offsets
that stay on the screen, the pixel at offset `(a, b)` is lit iff `(a, b)` is in
the list. -/
theorem litAt_offsets (g : SSD1306_Geometry) (x0 y0 r : Int) (offs : List (Int × Int))
    (hb : ∀ o ∈ offs, -r ≤ o.1 ∧ o.1 ≤ r ∧ -r ≤ o.2 ∧ o.2 ≤ r)
    (hxl : 0 ≤ x0 - r) (hxh : x0 + r < SSD1306_WIDTH g)
    (hyl : 0 ≤ y0 - r) (hyh : y0 + r < SSD1306_HEIGHT g) (a b : Int) :
    litAt g (drawPixels g (offs.map (circlePixel x0 y0)) (blankScreen g SSD1306_COLOR.White))
      (x0 + a) (y0 + b) ↔ (a, b) ∈ offs := by
  obtain ⟨hW, hH, _⟩ := geometry_bounds g
  constructor
  · rintro ⟨h1, h2, h3, h4, h5⟩
    rw [drawPixels_lit g _ _ (blankScreen_whiteReady g) _ _ (by omega) (by omega),
      blankScreen_unlit, Bool.or_false, decide_eq_true_eq] at h5
    obtain ⟨o, ho, he⟩ := List.mem_map.1 h5
    obtain ⟨b1, b2, b3, b4⟩ := hb o ho
    simp only [circlePixel, toU8, Prod.mk.injEq] at he
    obtain ⟨e1, e2⟩ := he
    have : o = (a, b) := by
      apply Prod.ext
      · show o.1 = a
        omega
      · show o.2 = b
        omega
    rw [← this]; exact ho
  · intro h
    obtain ⟨b1, b2, b3, b4⟩ := hb _ h
    simp only at b1 b2 b3 b4
    refine ⟨by omega, by omega, by omega, by omega, ?_⟩
    rw [drawPixels_lit g _ _ (blankScreen_whiteReady g) _ _ (by omega) (by omega),
      blankScreen_unlit, Bool.or_false, decide_eq_true_eq]
    refine List.mem_map.2 ⟨(a, b), h, ?_⟩
    simp only [circlePixel, toU8, Prod.mk.injEq]
    omega

/-- The whole of `ssd1306_DrawCircle` as a list of drawn offsets. -/
theorem drawCircle_offsets (g : SSD1306_Geometry) (x0 y0 r : Int) (fuel : Nat) (d : Screen)
    (hr : 1 ≤ r) (hr2 : r ≤ 32767) (hf : r.toNat ≤ fuel) :
    ∃ offs, ssd1306_DrawCircle g fuel x0 y0 r d =
        some (drawPixels g (offs.map (circlePixel x0 y0)) d) ∧ OctantList r offs ∧
      (r, 0) ∈ offs := by
  obtain ⟨offs, ho, hl⟩ := drawCircleLoop_spec g x0 y0 r hr2 fuel 0 r (wrap16 (1 - r)) d
    (le_refl 0) (by omega) (le_refl r) (by simpa using hf)
  refine ⟨offs ++ [(r, 0), (0, r), (-r, 0), (0, -r)], ?_, ?_, ?_⟩
  · simp only [ssd1306_DrawCircle, ho, List.map_append, drawPixels_append]
    simp only [drawPixels, List.map_cons, List.map_nil, List.foldl_cons, List.foldl_nil,
      circlePixel, Int.sub_eq_add_neg, add_zero]
  · apply octantList_append r _ _ hl
    intro o ho
    refine ⟨r, 0, by omega, le_refl r, le_refl 0, by omega, ?_, ?_⟩
    · simp only [List.mem_cons, List.mem_singleton, List.not_mem_nil, or_false] at ho
      rcases ho with h | h | h | h <;> subst h <;> simp [octants]
    · intro o2 h2
      simp only [octants, List.mem_cons, List.mem_singleton, List.not_mem_nil, or_false] at h2
      rcases h2 with h | h | h | h | h | h | h | h <;> subst h <;> simp
  · simp

/-- C17: for every centre and radius `r >= 1` whose circle lies on the screen,
`ssd1306_DrawCircle` on a cleared buffer with colour White returns, lights the
extreme `(x0 + r, y0)`, and its lit set is closed under the eight octant
reflections about the centre: if `(x0 + a, y0 + b)` is lit then so are
`(x0 ± a, y0 ± b)` and `(x0 ± b, y0 ± a)`. -/
theorem drawCircle_symmetric (g : SSD1306_Geometry) (x0 y0 r : Int) (fuel : Nat)
    (hr : 1 ≤ r) (hxl : 0 ≤ x0 - r) (hxh : x0 + r < SSD1306_WIDTH g)
    (hyl : 0 ≤ y0 - r) (hyh : y0 + r < SSD1306_HEIGHT g) (hf : r.toNat ≤ fuel) :
    ∃ d, ssd1306_DrawCircle g fuel x0 y0 r (blankScreen g SSD1306_COLOR.White) = some d ∧
      litAt g d (x0 + r) y0 ∧
      ∀ a b : Int, litAt g d (x0 + a) (y0 + b) →
        litAt g d (x0 - a) (y0 + b) ∧ litAt g d (x0 + a) (y0 - b) ∧
        litAt g d (x0 - a) (y0 - b) ∧ litAt g d (x0 + b) (y0 + a) ∧
        litAt g d (x0 - b) (y0 + a) ∧ litAt g d (x0 + b) (y0 - a) ∧
        litAt g d (x0 - b) (y0 - a) := by
  obtain ⟨hW, hH, _⟩ := geometry_bounds g
  obtain ⟨offs, ho, hl, hmem⟩ := drawCircle_offsets g x0 y0 r fuel
    (blankScreen g SSD1306_COLOR.White) hr (by omega) hf
  have hb : ∀ o ∈ offs, -r ≤ o.1 ∧ o.1 ≤ r ∧ -r ≤ o.2 ∧ o.2 ≤ r := by
    intro o h
    obtain ⟨u, v, h1, h2, h3, h4, h5, _⟩ := hl o h
    exact octants_bound u v r ⟨h1, h2⟩ ⟨h3, h4⟩ o h5
  have key := litAt_offsets g x0 y0 r offs hb hxl hxh hyl hyh
  have hsym : ∀ o ∈ offs, (-o.1, o.2) ∈ offs ∧ (o.1, -o.2) ∈ offs ∧ (o.2, o.1) ∈ offs := by
    intro o h
    obtain ⟨u, v, _, _, _, _, h5, h6⟩ := hl o h
    obtain ⟨c1, c2, c3⟩ := octants_closed u v o h5
    exact ⟨h6 _ c1, h6 _ c2, h6 _ c3⟩
  refine ⟨_, ho, ?_, ?_⟩
  · have := (key r 0).2 hmem
    simpa using this
  · intro a b hab
    have m0 := (key a b).1 hab
    have m1 := (hsym _ m0).1
    have m2 := (hsym _ m0).2.1
    have m3 := (hsym _ m1).2.1
    have m4 := (hsym _ m0).2.2
    have m5 := (hsym _ m4).2.1
    have m6 := (hsym _ m4).1
    have m7 := (hsym _ m5).1
    simp only at m1 m2 m3 m4 m5 m6 m7
    simp only [sub_eq_add_neg]
    exact ⟨(key _ _).2 m1, (key _ _).2 m2, (key _ _).2 m3, (key _ _).2 m4,
      (key _ _).2 m6, (key _ _).2 m5, (key _ _).2 m7⟩

/-! ## `ssd1306_DrawCircleQuads` -/

theorem ite_drawPixel (g : SSD1306_Geometry) (c : Prop) [Decidable c] (x y : Nat) (d : Screen) :
    (if c then ssd1306_DrawPixel g x y d else d) = drawPixels g (if c then [(x, y)] else []) d := by
  split_ifs <;> rfl

/-- The pixels of one step of `ssd1306_DrawCircleQuads` are among the eight
reflections of the step value. -/
theorem drawQuadPixels_eq (g : SSD1306_Geometry) (x0 y0 x y : Int) (quads : Nat) (d : Screen) :
    ∃ offs : List (Int × Int), drawQuadPixels g x0 y0 x y quads d = drawPixels g (offs.map (circlePixel x0 y0)) d ∧
      ∀ o ∈ offs, o ∈ octants x y := by
  refine ⟨(if quads &&& 0x1 ≠ 0 then [(x, -y), (y, -x)] else []) ++
    ((if quads &&& 0x2 ≠ 0 then [(-y, -x), (-x, -y)] else []) ++
    ((if quads &&& 0x4 ≠ 0 then [(-y, x), (-x, y)] else []) ++
    (if quads &&& 0x8 ≠ 0 then [(x, y), (y, x)] else []))), ?_, ?_⟩
  · simp only [drawQuadPixels]
    split_ifs <;>
      simp [drawPixels, circlePixel, Int.sub_eq_add_neg]
  · intro o ho
    simp only [List.mem_append] at ho
    rcases ho with h | h | h | h <;> split_ifs at h <;>
      simp only [List.mem_cons, List.mem_singleton, List.not_mem_nil, or_false] at h <;>
      rcases h with h | h <;> subst h <;> simp [octants]

/-- The loop of `ssd1306_DrawCircleQuads` ends within `y - x` rounds; for a
radius of at least 2 every pixel it draws is off the row and the column of the
centre. -/
theorem drawQuadsLoop_spec (g : SSD1306_Geometry) (x0 y0 r : Int) (quads : Nat) (hr : r ≤ 32767)
    (fuel : Nat) : ∀ (x y dp : Int) (d : Screen), 0 ≤ x → 1 ≤ y → (x = 0 → 2 ≤ y) → y ≤ r →
      (y - x).toNat ≤ fuel →
      ∃ offs : List (Int × Int), drawQuadsLoop g x0 y0 quads fuel x y dp d =
          some (drawPixels g (offs.map (circlePixel x0 y0)) d) ∧
        ∀ o ∈ offs, o.1 ≠ 0 ∧ o.2 ≠ 0 ∧ -r ≤ o.1 ∧ o.1 ≤ r ∧ -r ≤ o.2 ∧ o.2 ≤ r := by
  induction fuel with
  | zero =>
    intro x y dp d _ _ _ _ hf
    refine ⟨[], ?_, by simp⟩
    simp only [drawQuadsLoop]
    rw [if_neg (by omega)]
    rfl
  | succ fuel ih =>
    intro x y dp d hx hy1 hy2 hy hf
    simp only [drawQuadsLoop]
    by_cases hlt : x < y
    · rw [if_pos hlt]
      obtain ⟨h1, h2⟩ := midpointStep_xy x y dp hx hlt (by omega)
      have hy3 : 2 ≤ y := by
        by_cases h0 : x = 0
        · exact hy2 h0
        · omega
      have hv : 1 ≤ (midpointStep x y dp).2.1 ∧ (midpointStep x y dp).2.1 ≤ r := by
        rcases h2 with h | h <;> rw [h] <;> omega
      have hu : 1 ≤ (midpointStep x y dp).1 ∧ (midpointStep x y dp).1 ≤ r := by
        rw [h1]; omega
      obtain ⟨o1, e1, m1⟩ := drawQuadPixels_eq g x0 y0 (midpointStep x y dp).1
        (midpointStep x y dp).2.1 quads d
      obtain ⟨offs, ho, hl⟩ := ih (midpointStep x y dp).1 (midpointStep x y dp).2.1
        (midpointStep x y dp).2.2
        (drawQuadPixels g x0 y0 (midpointStep x y dp).1 (midpointStep x y dp).2.1 quads d)
        (by omega) hv.1 (by omega) hv.2 (by rcases h2 with h | h <;> rw [h1, h] <;> omega)
      refine ⟨o1 ++ offs, ?_, ?_⟩
      · rw [ho, e1, List.map_append, drawPixels_append]
      · intro o h
        rcases List.mem_append.1 h with h | h
        · have hm := m1 o h
          have hbd := octants_bound _ _ r ⟨by omega, hu.2⟩ ⟨by omega, hv.2⟩ o hm
          refine ⟨?_, ?_, hbd⟩
          · simp only [octants, List.mem_cons, List.mem_singleton, List.not_mem_nil,
              or_false] at hm
            rcases hm with h | h | h | h | h | h | h | h <;> subst h <;> simp <;> omega
          · simp only [octants, List.mem_cons, List.mem_singleton, List.not_mem_nil,
              or_false] at hm
            rcases hm with h | h | h | h | h | h | h | h <;> subst h <;> simp <;> omega
        · exact hl o h
    · rw [if_neg hlt]
      exact ⟨[], rfl, by simp⟩

/-- The lit pixels after `ssd1306_DrawCircleQuads` on a cleared White screen:
the pixels of the loop and the four guarded extremes. -/
theorem drawCircleQuads_lit (g : SSD1306_Geometry) (x0 y0 r : Int) (quads fuel : Nat)
    (hr : 2 ≤ r) (hr2 : r ≤ 32767) (hf : r.toNat ≤ fuel) :
    ∃ (offs : List (Int × Int)) (d : Screen), ssd1306_DrawCircleQuads g fuel x0 y0 r quads (blankScreen g SSD1306_COLOR.White) =
        some d ∧
      (∀ o ∈ offs, o.1 ≠ 0 ∧ o.2 ≠ 0 ∧ -r ≤ o.1 ∧ o.1 ≤ r ∧ -r ≤ o.2 ∧ o.2 ≤ r) ∧
      ∀ X Y : Nat, X < SSD1306_WIDTH g → Y < SSD1306_HEIGHT g →
        (pixelLit g d X Y = true ↔
          ((X, Y) ∈ offs.map (circlePixel x0 y0) ∨
           ((quads &&& 0x1 ≠ 0 ∧ quads &&& 0x8 ≠ 0) ∧ (X, Y) = (toU8 (x0 + r), toU8 y0)) ∨
           ((quads &&& 0x4 ≠ 0 ∧ quads &&& 0x8 ≠ 0) ∧ (X, Y) = (toU8 x0, toU8 (y0 + r))) ∨
           ((quads &&& 0x2 ≠ 0 ∧ quads &&& 0x4 ≠ 0) ∧ (X, Y) = (toU8 (x0 - r), toU8 y0)) ∨
           ((quads &&& 0x1 ≠ 0 ∧ quads &&& 0x2 ≠ 0) ∧ (X, Y) = (toU8 x0, toU8 (y0 - r))))) := by
  obtain ⟨offs, ho, hl⟩ := drawQuadsLoop_spec g x0 y0 r quads hr2 fuel 0 r (wrap16 (1 - r))
    (blankScreen g SSD1306_COLOR.White) (le_refl 0) (by omega) (fun _ => hr) (le_refl r)
    (by simpa using hf)
  have hd : ssd1306_DrawCircleQuads g fuel x0 y0 r quads (blankScreen g SSD1306_COLOR.White) =
      some (drawPixels g
        (((((offs.map (circlePixel x0 y0) ++
          (if quads &&& 0x1 ≠ 0 ∧ quads &&& 0x8 ≠ 0 then [(toU8 (x0 + r), toU8 y0)] else [])) ++
          (if quads &&& 0x4 ≠ 0 ∧ quads &&& 0x8 ≠ 0 then [(toU8 x0, toU8 (y0 + r))] else [])) ++
          (if quads &&& 0x2 ≠ 0 ∧ quads &&& 0x4 ≠ 0 then [(toU8 (x0 - r), toU8 y0)] else [])) ++
          (if quads &&& 0x1 ≠ 0 ∧ quads &&& 0x2 ≠ 0 then [(toU8 x0, toU8 (y0 - r))] else [])))
        (blankScreen g SSD1306_COLOR.White)) := by
    simp only [ssd1306_DrawCircleQuads, ho, ite_drawPixel, drawPixels_append]
  refine ⟨offs, _, hd, hl, ?_⟩
  · intro X Y hX hY
    rw [drawPixels_lit g _ _ (blankScreen_whiteReady g) X Y hX hY, blankScreen_unlit,
      Bool.or_false, decide_eq_true_eq]
    simp only [List.mem_append]
    constructor
    · rintro ((((h | h) | h) | h) | h)
      · exact Or.inl h
      · split_ifs at h with hc
        · exact Or.inr (Or.inl ⟨hc, by simpa using h⟩)
        · simp at h
      · split_ifs at h with hc
        · exact Or.inr (Or.inr (Or.inl ⟨hc, by simpa using h⟩))
        · simp at h
      · split_ifs at h with hc
        · exact Or.inr (Or.inr (Or.inr (Or.inl ⟨hc, by simpa using h⟩)))
        · simp at h
      · split_ifs at h with hc
        · exact Or.inr (Or.inr (Or.inr (Or.inr ⟨hc, by simpa using h⟩)))
        · simp at h
    · rintro (h | ⟨hc, h⟩ | ⟨hc, h⟩ | ⟨hc, h⟩ | ⟨hc, h⟩)
      · exact Or.inl (Or.inl (Or.inl (Or.inl h)))
      · refine Or.inl (Or.inl (Or.inl (Or.inr ?_)))
        rw [if_pos hc, h]; simp
      · refine Or.inl (Or.inl (Or.inr ?_))
        rw [if_pos hc, h]; simp
      · refine Or.inl (Or.inr ?_)
        rw [if_pos hc, h]; simp
      · refine Or.inr ?_
        rw [if_pos hc, h]; simp

/-- C18 (amended to a radius of at least 2): for every on-screen centre, every
`int16` radius `r >= 2` and every quadrant mask, `ssd1306_DrawCircleQuads` on a
cleared buffer with colour White returns, and afterwards a cardinal extreme is
lit exactly when it is on the screen and both quadrants next to it are selected:
`(x0 + r, y0)` needs bit0 and bit3, `(x0, y0 + r)` bit2 and bit3, `(x0 - r, y0)`
bit1 and bit2, `(x0, y0 - r)` bit0 and bit1. -/
theorem drawCircleQuads_extremes (g : SSD1306_Geometry) (x0 y0 r : Int) (quads fuel : Nat)
    (hx0 : 0 ≤ x0 ∧ x0 < SSD1306_WIDTH g) (hy0 : 0 ≤ y0 ∧ y0 < SSD1306_HEIGHT g)
    (hr : 2 ≤ r) (hr2 : r ≤ 32767) (hf : r.toNat ≤ fuel) :
    ∃ d, ssd1306_DrawCircleQuads g fuel x0 y0 r quads (blankScreen g SSD1306_COLOR.White) =
        some d ∧
      (litAt g d (x0 + r) y0 ↔
        x0 + r < SSD1306_WIDTH g ∧ quads &&& 0x1 ≠ 0 ∧ quads &&& 0x8 ≠ 0) ∧
      (litAt g d x0 (y0 + r) ↔
        y0 + r < SSD1306_HEIGHT g ∧ quads &&& 0x4 ≠ 0 ∧ quads &&& 0x8 ≠ 0) ∧
      (litAt g d (x0 - r) y0 ↔ 0 ≤ x0 - r ∧ quads &&& 0x2 ≠ 0 ∧ quads &&& 0x4 ≠ 0) ∧
      (litAt g d x0 (y0 - r) ↔ 0 ≤ y0 - r ∧ quads &&& 0x1 ≠ 0 ∧ quads &&& 0x2 ≠ 0) := by
  obtain ⟨hW, hH, _⟩ := geometry_bounds g
  obtain ⟨offs, d, hd, hl, hlit⟩ := drawCircleQuads_lit g x0 y0 r quads fuel hr hr2 hf
  have hoff : ∀ (X Y : Int), 0 ≤ X → X < SSD1306_WIDTH g → 0 ≤ Y → Y < SSD1306_HEIGHT g →
      (X - x0 = 0 ∨ Y - y0 = 0) → (X - x0 = r ∨ X - x0 = -r ∨ Y - y0 = r ∨ Y - y0 = -r) →
      (X.toNat, Y.toNat) ∉ offs.map (circlePixel x0 y0) := by
    intro X Y h1 h2 h3 h4 h5 h6 hm
    obtain ⟨o, ho, he⟩ := List.mem_map.1 hm
    obtain ⟨n1, n2, b1, b2, b3, b4⟩ := hl o ho
    simp only [circlePixel, toU8, Prod.mk.injEq] at he
    omega
  refine ⟨d, hd, ?_, ?_, ?_, ?_⟩
  · unfold litAt
    constructor
    · rintro ⟨h1, h2, h3, h4, h5⟩
      rw [hlit _ _ (by omega) (by omega)] at h5
      have hn := hoff (x0 + r) y0 h1 h2 h3 h4 (by omega) (by omega)
      simp only [toU8, Prod.mk.injEq] at h5
      rcases h5 with h | ⟨hc, _⟩ | ⟨_, h⟩ | ⟨_, h⟩ | ⟨_, h⟩
      · exact absurd h hn
      · exact ⟨h2, hc⟩
      · omega
      · omega
      · omega
    · rintro ⟨h2, hc⟩
      refine ⟨by omega, h2, hy0.1, hy0.2, ?_⟩
      rw [hlit _ _ (by omega) (by omega)]
      refine Or.inr (Or.inl ⟨hc, ?_⟩)
      simp only [toU8, Prod.mk.injEq]
      omega
  · unfold litAt
    constructor
    · rintro ⟨h1, h2, h3, h4, h5⟩
      rw [hlit _ _ (by omega) (by omega)] at h5
      have hn := hoff x0 (y0 + r) h1 h2 h3 h4 (by omega) (by omega)
      simp only [toU8, Prod.mk.injEq] at h5
      rcases h5 with h | ⟨_, h⟩ | ⟨hc, _⟩ | ⟨_, h⟩ | ⟨_, h⟩
      · exact absurd h hn
      · omega
      · exact ⟨h4, hc⟩
      · omega
      · omega
    · rintro ⟨h2, hc⟩
      refine ⟨hx0.1, hx0.2, by omega, h2, ?_⟩
      rw [hlit _ _ (by omega) (by omega)]
      refine Or.inr (Or.inr (Or.inl ⟨hc, ?_⟩))
      simp only [toU8, Prod.mk.injEq]
      omega
  · unfold litAt
    constructor
    · rintro ⟨h1, h2, h3, h4, h5⟩
      rw [hlit _ _ (by omega) (by omega)] at h5
      have hn := hoff (x0 - r) y0 h1 h2 h3 h4 (by omega) (by omega)
      simp only [toU8, Prod.mk.injEq] at h5
      rcases h5 with h | ⟨_, h⟩ | ⟨_, h⟩ | ⟨hc, _⟩ | ⟨_, h⟩
      · exact absurd h hn
      · omega
      · omega
      · exact ⟨h1, hc⟩
      · omega
    · rintro ⟨h2, hc⟩
      refine ⟨h2, by omega, hy0.1, hy0.2, ?_⟩
      rw [hlit _ _ (by omega) (by omega)]
      refine Or.inr (Or.inr (Or.inr (Or.inl ⟨hc, ?_⟩)))
      simp only [toU8, Prod.mk.injEq]
      omega
  · unfold litAt
    constructor
    · rintro ⟨h1, h2, h3, h4, h5⟩
      rw [hlit _ _ (by omega) (by omega)] at h5
      have hn := hoff x0 (y0 - r) h1 h2 h3 h4 (by omega) (by omega)
      simp only [toU8, Prod.mk.injEq] at h5
      rcases h5 with h | ⟨_, h⟩ | ⟨_, h⟩ | ⟨_, h⟩ | ⟨hc, _⟩
      · exact absurd h hn
      · omega
      · omega
      · omega
      · exact ⟨h3, hc⟩
    · rintro ⟨h2, hc⟩
      refine ⟨hx0.1, hx0.2, h2, by omega, ?_⟩
      rw [hlit _ _ (by omega) (by omega)]
      refine Or.inr (Or.inr (Or.inr (Or.inr ⟨hc, ?_⟩)))
      simp only [toU8, Prod.mk.injEq]
      omega

/-- Witness for C18: centre `(32, 32)`, radius 10, quadrants 0 and 3 on the
128x64 display. -/
theorem drawCircleQuads_extremes_witness :
    ∃ d, ssd1306_DrawCircleQuads SSD1306_Geometry.GEOMETRY_128_64 10 32 32 10 9
        (blankScreen SSD1306_Geometry.GEOMETRY_128_64 SSD1306_COLOR.White) = some d ∧
      (litAt SSD1306_Geometry.GEOMETRY_128_64 d (32 + 10) 32 ↔
        (32 : Int) + 10 < SSD1306_WIDTH SSD1306_Geometry.GEOMETRY_128_64 ∧
          9 &&& 0x1 ≠ 0 ∧ 9 &&& 0x8 ≠ 0) ∧
      (litAt SSD1306_Geometry.GEOMETRY_128_64 d 32 (32 + 10) ↔
        (32 : Int) + 10 < SSD1306_HEIGHT SSD1306_Geometry.GEOMETRY_128_64 ∧
          9 &&& 0x4 ≠ 0 ∧ 9 &&& 0x8 ≠ 0) ∧
      (litAt SSD1306_Geometry.GEOMETRY_128_64 d (32 - 10) 32 ↔
        (0 : Int) ≤ 32 - 10 ∧ 9 &&& 0x2 ≠ 0 ∧ 9 &&& 0x4 ≠ 0) ∧
      (litAt SSD1306_Geometry.GEOMETRY_128_64 d 32 (32 - 10) ↔
        (0 : Int) ≤ 32 - 10 ∧ 9 &&& 0x1 ≠ 0 ∧ 9 &&& 0x2 ≠ 0) :=
  drawCircleQuads_extremes SSD1306_Geometry.GEOMETRY_128_64 32 32 10 9 10
    (by decide) (by decide) (by decide) (by decide) (by decide)

set_option maxRecDepth 100000 in
/-- Counterexample to C18 as stated: with radius 1 and only quadrant 0
selected, `ssd1306_DrawCircleQuads(10, 10, 1, 0x1)` lights the extremes
`(11, 10)` and `(10, 9)` although bit3 and bit1 are clear. -/
theorem drawCircleQuads_extremes_counterexample :
    (ssd1306_DrawCircleQuads SSD1306_Geometry.GEOMETRY_128_64 1 10 10 1 1
        (blankScreen SSD1306_Geometry.GEOMETRY_128_64 SSD1306_COLOR.White)).map
      (fun d => (decide (litAt SSD1306_Geometry.GEOMETRY_128_64 d (10 + 1) 10),
        decide (litAt SSD1306_Geometry.GEOMETRY_128_64 d 10 (10 - 1)))) = some (true, true) ∧
    (1 : Nat) &&& 0x8 = 0 ∧ (1 : Nat) &&& 0x2 = 0 := by
  decide

set_option maxRecDepth 100000 in
/-- C12: with the current colour `Inverse` (Inverted flag clear),
`ssd1306_DrawPixel(3, 5)` on a cleared buffer leaves pixel `(3, 5)` unlit: the
function takes its `else` branch and clears the bit instead of flipping it. -/
theorem drawPixel_inverse_clears :
    pixelLit SSD1306_Geometry.GEOMETRY_128_64
      (blankScreen SSD1306_Geometry.GEOMETRY_128_64 SSD1306_COLOR.Inverse) 3 5 = false ∧
    pixelLit SSD1306_Geometry.GEOMETRY_128_64
      (ssd1306_DrawPixel SSD1306_Geometry.GEOMETRY_128_64 3 5
        (blankScreen SSD1306_Geometry.GEOMETRY_128_64 SSD1306_COLOR.Inverse)) 3 5 = false := by
  decide

set_option maxRecDepth 100000 in
/-- C13: `ssd1306_DrawLine(256, 5, 261, 5)` on a cleared buffer with colour
White lights the pixels `(0, 5)` and `(5, 5)`, although every point of its path
has `x >= 256`: the coordinates are cut to 8 bits at the call of
`ssd1306_DrawPixel`. -/
theorem drawLine_wraps_onto_screen :
    (ssd1306_DrawLine SSD1306_Geometry.GEOMETRY_128_64 6 256 5 261 5
        (blankScreen SSD1306_Geometry.GEOMETRY_128_64 SSD1306_COLOR.White)).map
      (fun d => (pixelLit SSD1306_Geometry.GEOMETRY_128_64 d 0 5,
        pixelLit SSD1306_Geometry.GEOMETRY_128_64 d 5 5)) = some (true, true) ∧
    bresenhamReference 256 5 261 5 =
      [(256, 5), (257, 5), (258, 5), (259, 5), (260, 5), (261, 5)] := by
  decide

set_option maxRecDepth 100000 in
/-- C15: `ssd1306_DrawHorizontalLine(-1, 0, -32768)` on a cleared buffer with
colour White lights the whole of row 0, although the run
`max(x, 0) <= i < min(x + length, WIDTH)` is empty: `length += x` leaves the
`int16_t` range and comes back as 32767. -/
theorem drawHorizontalLine_length_wraps :
    (ssd1306_DrawHorizontalLine SSD1306_Geometry.GEOMETRY_128_64 (-1) 0 (-32768)
        (blankScreen SSD1306_Geometry.GEOMETRY_128_64 SSD1306_COLOR.White)).map
      (fun d => (List.range 128).all fun i => pixelLit SSD1306_Geometry.GEOMETRY_128_64 d i 0) =
      some true ∧
    min ((-1 : Int) + (-32768)) (SSD1306_WIDTH SSD1306_Geometry.GEOMETRY_128_64) ≤ max (-1) 0 := by
  decide

set_option maxRecDepth 100000 in
/-- C16: `ssd1306_DrawVerticalLine(3, -1, -32768)` on a cleared buffer with
colour White lights the whole of column 3, although there is no row `j` with
`max(y, 0) <= j < min(y + length, HEIGHT)`: `length += y` leaves the `int16_t`
range and comes back as 32767. -/
theorem drawVerticalLine_length_wraps :
    (ssd1306_DrawVerticalLine SSD1306_Geometry.GEOMETRY_128_64 3 (-1) (-32768)
        (blankScreen SSD1306_Geometry.GEOMETRY_128_64 SSD1306_COLOR.White)).map
      (fun d => (List.range 64).all fun j => pixelLit SSD1306_Geometry.GEOMETRY_128_64 d 3 j) =
      some true ∧
    min ((-1 : Int) + (-32768)) (SSD1306_HEIGHT SSD1306_Geometry.GEOMETRY_128_64) ≤ max (-1) 0 := by
  decide

set_option maxRecDepth 1000000 in
set_option maxHeartbeats 4000000 in
/-- C19: `ssd1306_FillCircle(10, 10, 3)` on a cleared buffer with colour White
leaves the extreme `(x0 + r, y0) = (13, 10)` and the pixel
`(x0 + 1, y0 - 3) = (11, 7)` of the first midpoint step `(1, 3)` unlit, while
their mirror images `(7, 10)` and `(9, 7)` are lit: every run has length
`2 * x`, `2 * y` or `2 * radius` and stops one pixel short of its right end. -/
theorem fillCircle_right_edge_unlit :
    (ssd1306_FillCircle SSD1306_Geometry.GEOMETRY_128_64 3 10 10 3
        (blankScreen SSD1306_Geometry.GEOMETRY_128_64 SSD1306_COLOR.White)).map
      (fun d => (pixelLit SSD1306_Geometry.GEOMETRY_128_64 d 13 10,
        pixelLit SSD1306_Geometry.GEOMETRY_128_64 d 7 10,
        pixelLit SSD1306_Geometry.GEOMETRY_128_64 d 11 7,
        pixelLit SSD1306_Geometry.GEOMETRY_128_64 d 9 7)) =
      some (false, true, false, true) ∧
    midpointStep 0 3 (wrap16 (1 - 3)) = (1, 3, 3) := by
  decide

/-- Witness for `drawPixel_in_range`: pixel (5, 10) on the cleared 128x64
display with colour White sets bit 2 of byte 133. -/
theorem drawPixel_in_range_witness :
    (5 < SSD1306_WIDTH .GEOMETRY_128_64 ∧ 10 < SSD1306_HEIGHT .GEOMETRY_128_64) ∧
    ((ssd1306_DrawPixel .GEOMETRY_128_64 5 10
        (blankScreen .GEOMETRY_128_64 SSD1306_COLOR.White)).SSD1306_Buffer.getD 133 0).testBit 2 =
      (decide (133 = 5 + (10 / 8) * SSD1306_WIDTH .GEOMETRY_128_64 ∧ 2 = 10 % 8) ||
        ((blankScreen .GEOMETRY_128_64 SSD1306_COLOR.White).SSD1306_Buffer.getD 133 0).testBit 2) :=
  ⟨⟨by decide, by decide⟩,
   (drawPixel_in_range .GEOMETRY_128_64 5 10 (blankScreen .GEOMETRY_128_64 SSD1306_COLOR.White)
      (by decide) (by decide) rfl (by simp [blankScreen])
      (fun b hb => by
        simp only [blankScreen, List.mem_replicate] at hb
        omega)).1 rfl 133 2⟩

/-- Witness for `drawLine_matches_reference`: the line (0,0)-(10,3) on the
128x64 display. -/
theorem drawLine_matches_reference_witness :
    ((0 : Int) ≤ 10 ∧ (10 : Int) < SSD1306_WIDTH .GEOMETRY_128_64) ∧
    ((0 : Int) ≤ 3 ∧ (3 : Int) < SSD1306_HEIGHT .GEOMETRY_128_64) ∧
    ∃ d, ssd1306_DrawLine .GEOMETRY_128_64 129 0 0 10 3
        (blankScreen .GEOMETRY_128_64 SSD1306_COLOR.White) = some d ∧
      ∀ x y : Int, litAt .GEOMETRY_128_64 d x y ↔ (x, y) ∈ bresenhamReference 0 0 10 3 :=
  ⟨by decide, by decide,
   (drawLine_matches_reference .GEOMETRY_128_64 0 0 10 3 129 (by decide) (by decide)
      (by decide) (by decide) (by decide)).1⟩

/-- Witness for `drawCircle_symmetric`: `ssd1306_DrawCircle(32, 32, 10)` on
the 128x64 display. -/
theorem drawCircle_symmetric_witness :
    ((0 : Int) ≤ 32 - 10 ∧ (32 : Int) + 10 < SSD1306_WIDTH .GEOMETRY_128_64 ∧
      (32 : Int) + 10 < SSD1306_HEIGHT .GEOMETRY_128_64) ∧
    ∃ d, ssd1306_DrawCircle .GEOMETRY_128_64 10 32 32 10
        (blankScreen .GEOMETRY_128_64 SSD1306_COLOR.White) = some d ∧
      litAt .GEOMETRY_128_64 d (32 + 10) 32 ∧
      ∀ a b : Int, litAt .GEOMETRY_128_64 d (32 + a) (32 + b) →
        litAt .GEOMETRY_128_64 d (32 - a) (32 + b) ∧ litAt .GEOMETRY_128_64 d (32 + a) (32 - b) ∧
        litAt .GEOMETRY_128_64 d (32 - a) (32 - b) ∧ litAt .GEOMETRY_128_64 d (32 + b) (32 + a) ∧
        litAt .GEOMETRY_128_64 d (32 - b) (32 + a) ∧ litAt .GEOMETRY_128_64 d (32 + b) (32 - a) ∧
        litAt .GEOMETRY_128_64 d (32 - b) (32 - a) :=
  ⟨by decide,
   drawCircle_symmetric .GEOMETRY_128_64 32 32 10 10 (by decide) (by decide) (by decide)
     (by decide) (by decide) (by decide)⟩

set_option maxRecDepth 100000 in
/-- C20: with a 7x10 font on the 128x64 display, `ssd1306_WriteChar` returns 0
and draws nothing at the cursor `(121, 0)`, whose cell `[121, 128) x [0, 10)`
ends exactly at the right edge, and at the cursor `(0, 54)`, whose cell
`[0, 7) x [54, 64)` ends exactly at the bottom edge; one column or one row
earlier the character is returned. -/
theorem writeChar_rejects_cell_at_edge :
    ssd1306_WriteChar .GEOMETRY_128_64 65
        { FontWidth := 7, FontHeight := 10, data := List.replicate 950 0x7C00 }
        (cursorScreen .GEOMETRY_128_64 SSD1306_COLOR.White 121 0) =
      some (0, cursorScreen .GEOMETRY_128_64 SSD1306_COLOR.White 121 0) ∧
    121 + 7 ≤ SSD1306_WIDTH .GEOMETRY_128_64 ∧
    ssd1306_WriteChar .GEOMETRY_128_64 65
        { FontWidth := 7, FontHeight := 10, data := List.replicate 950 0x7C00 }
        (cursorScreen .GEOMETRY_128_64 SSD1306_COLOR.White 0 54) =
      some (0, cursorScreen .GEOMETRY_128_64 SSD1306_COLOR.White 0 54) ∧
    54 + 10 ≤ SSD1306_HEIGHT .GEOMETRY_128_64 ∧
    (ssd1306_WriteChar .GEOMETRY_128_64 65
        { FontWidth := 7, FontHeight := 10, data := List.replicate 950 0x7C00 }
        (cursorScreen .GEOMETRY_128_64 SSD1306_COLOR.White 120 0)).map Prod.fst = some 65 ∧
    (ssd1306_WriteChar .GEOMETRY_128_64 65
        { FontWidth := 7, FontHeight := 10, data := List.replicate 950 0x7C00 }
        (cursorScreen .GEOMETRY_128_64 SSD1306_COLOR.White 0 53)).map Prod.fst = some 65 := by
  refine ⟨?_, by decide, ?_, by decide, by decide, by decide⟩
  · simp [ssd1306_WriteChar, cursorScreen, SSD1306_WIDTH]
  · simp [ssd1306_WriteChar, cursorScreen, SSD1306_HEIGHT]

/-! ## Angles and segment count of `ssd1306_DrawArc` -/

/-- C27: `ssd1306_NormalizeTo0_360` returns its argument unchanged for every
input: above 360 the remainder is overwritten by `par_deg` itself, so 400 comes
back as 400 and 65535 as 65535, and the input 0 comes back as 0, not 360. -/
theorem normalizeTo0_360_returns_input :
    (∀ a : Nat, ssd1306_NormalizeTo0_360 a = a) ∧
    ssd1306_NormalizeTo0_360 400 = 400 ∧ ssd1306_NormalizeTo0_360 65535 = 65535 ∧
    ssd1306_NormalizeTo0_360 0 = 0 := by
  refine ⟨?_, by decide, by decide, by decide⟩
  intro a
  unfold ssd1306_NormalizeTo0_360
  split_ifs with h1 h2
  · rfl
  · rfl
  · omega

theorem normalizeTo0_360_eq (a : Nat) : ssd1306_NormalizeTo0_360 a = a := by
  unfold ssd1306_NormalizeTo0_360
  split_ifs with h1 h2
  · rfl
  · rfl
  · omega

/-- C28 (amended to rounding down): for every sweep in `[0, 360]` the segment
count `approx_segments` of `ssd1306_DrawArc` is `sweep / 10` rounded down. -/
theorem drawArc_segments_floor (sweep : Nat) (h : sweep ≤ 360) :
    ssd1306_DrawArc_approx_segments sweep = sweep / 10 := by
  unfold ssd1306_DrawArc_approx_segments CIRCLE_APPROXIMATION_SEGMENTS
  rw [normalizeTo0_360_eq]
  omega

/-- Witness for `drawArc_segments_floor`: the sweep 270 of `ssd1306_TestArc`. -/
theorem drawArc_segments_floor_witness :
    270 ≤ 360 ∧ ssd1306_DrawArc_approx_segments 270 = 270 / 10 :=
  ⟨by decide, drawArc_segments_floor 270 (by decide)⟩

/-- Counterexample to C28 as stated: for the sweep 9 the count is 0, while
`9 / 10` rounded to the nearest integer is 1; for 359 it is 35, not 36. -/
theorem drawArc_segments_floor_counterexample :
    ssd1306_DrawArc_approx_segments 9 = 0 ∧ nearestTenth 9 = 1 ∧
    ssd1306_DrawArc_approx_segments 359 = 35 ∧ nearestTenth 359 = 36 := by
  decide

/-! ## `ssd1306_DrawLine` with the endpoints exchanged -/

theorem cAbs_sub_comm (a b : Int) : cAbs (a - b) = cAbs (b - a) := by
  unfold cAbs
  split_ifs <;> omega

/-- Exchanging the endpoints does not change what `ssd1306_DrawLine` does. -/
theorem drawLine_swap_eq (g : SSD1306_Geometry) (fuel : Nat) (x0 y0 x1 y1 : Int) (d : Screen) :
    ssd1306_DrawLine g fuel x0 y0 x1 y1 d = ssd1306_DrawLine g fuel x1 y1 x0 y0 d := by
  simp only [ssd1306_DrawLine]
  rw [cAbs_sub_comm y0 y1, cAbs_sub_comm x0 x1]
  by_cases hs : cAbs (y1 - y0) > cAbs (x1 - x0)
  · simp only [hs, decide_True, if_true]
    rcases lt_trichotomy y0 y1 with h | h | h
    · have h1 : ¬ y0 > y1 := by omega
      have h2 : y1 > y0 := h
      simp only [h1, h2, if_true, if_false]
    · subst h
      exfalso
      unfold cAbs at hs
      split_ifs at hs <;> omega
    · have h1 : y0 > y1 := h
      have h2 : ¬ y1 > y0 := by omega
      simp only [h1, h2, if_true, if_false]
  · simp only [hs, decide_False, Bool.false_eq_true, if_false]
    rcases lt_trichotomy x0 x1 with h | h | h
    · have h1 : ¬ x0 > x1 := by omega
      have h2 : x1 > x0 := h
      simp only [h1, h2, if_true, if_false]
    · subst h
      have hy : y0 = y1 := by
        unfold cAbs at hs
        split_ifs at hs <;> omega
      subst hy
      rfl
    · have h1 : x0 > x1 := h
      have h2 : ¬ x1 > x0 := by omega
      simp only [h1, h2, if_true, if_false]

/-- The loop of `ssd1306_DrawLine` returns for on-screen endpoints in
major/minor coordinates, whatever the colour and the buffer. -/
theorem drawLineLoop_returns (g : SSD1306_Geometry) (steep : Bool) (p0 q0 p1 q1 : Int)
    (fuel : Nat) (d : Screen) (hp : p0 ≤ p1) (hp0 : 0 ≤ p0) (hp1 : p1 < 128)
    (hq0 : 0 ≤ q0 ∧ q0 < 128) (_hq1 : 0 ≤ q1 ∧ q1 < 128)
    (hflat : cAbs (q1 - q0) ≤ p1 - p0) (hf : 128 < fuel) :
    ∃ d2, drawLineLoop g steep p1 (wrap16 (p1 - p0)) (wrap16 (cAbs (q1 - q0)))
          (if q0 < q1 then 1 else -1) fuel p0 q0 (wrap16 (Int.tdiv (wrap16 (p1 - p0)) 2)) d =
        some d2 := by
  have hdy0 := cAbs_nonneg (q1 - q0)
  generalize hdx : p1 - p0 = dx at *
  generalize hdy : cAbs (q1 - q0) = dy at *
  have hdiv : Int.tdiv dx 2 = dx / 2 := Int.tdiv_eq_ediv (by omega) (by decide)
  have w1 : wrap16 dx = dx := wrap16_of_range _ (by omega) (by omega)
  have w2 : wrap16 dy = dy := wrap16_of_range _ (by omega) (by omega)
  have w3 : wrap16 (dx / 2) = dx / 2 := wrap16_of_range _ (by omega) (by omega)
  have hstep : (if q0 < q1 then (1 : Int) else -1) = 1 ∨ (if q0 < q1 then (1 : Int) else -1) = -1 := by
    split_ifs
    · exact Or.inl rfl
    · exact Or.inr rfl
  have hloop := drawLineLoop_eq g steep p1 dx dy (if q0 < q1 then 1 else -1) hdy0 hflat
    (by omega) (by omega) hstep fuel p0 q0 (dx / 2) d
    (by omega) (by omega) (by omega) (by omega) (by omega) (by omega) (by omega)
  rw [w1, w2, hdiv, w3, hloop]
  exact ⟨_, rfl⟩

/-- `ssd1306_DrawLine` returns for on-screen endpoints, whatever the colour and
the buffer. -/
theorem drawLine_returns (g : SSD1306_Geometry) (x0 y0 x1 y1 : Int) (fuel : Nat) (d : Screen)
    (hx0 : 0 ≤ x0 ∧ x0 < SSD1306_WIDTH g) (hy0 : 0 ≤ y0 ∧ y0 < SSD1306_HEIGHT g)
    (hx1 : 0 ≤ x1 ∧ x1 < SSD1306_WIDTH g) (hy1 : 0 ≤ y1 ∧ y1 < SSD1306_HEIGHT g)
    (hf : SSD1306_WIDTH g < fuel) :
    ∃ d2, ssd1306_DrawLine g fuel x0 y0 x1 y1 d = some d2 := by
  obtain ⟨hW, hH, _⟩ := geometry_bounds g
  simp only [ssd1306_DrawLine]
  by_cases hs : cAbs (y1 - y0) > cAbs (x1 - x0)
  · simp only [hs, decide_True, if_true]
    by_cases hsw : y0 > y1
    · simp only [hsw, if_true]
      exact drawLineLoop_returns g true y1 x1 y0 x0 fuel d (by omega) hy1.1 (by omega)
        ⟨hx1.1, by omega⟩ ⟨hx0.1, by omega⟩
        (by unfold cAbs at hs ⊢; split_ifs at hs ⊢ <;> omega) (by omega)
    · simp only [hsw, if_false]
      exact drawLineLoop_returns g true y0 x0 y1 x1 fuel d (by omega) hy0.1 (by omega)
        ⟨hx0.1, by omega⟩ ⟨hx1.1, by omega⟩
        (by unfold cAbs at hs ⊢; split_ifs at hs ⊢ <;> omega) (by omega)
  · simp only [hs, decide_False, Bool.false_eq_true, if_false]
    by_cases hsw : x0 > x1
    · simp only [hsw, if_true]
      exact drawLineLoop_returns g false x1 y1 x0 y0 fuel d (by omega) hx1.1 (by omega)
        ⟨hy1.1, by omega⟩ ⟨hy0.1, by omega⟩
        (by unfold cAbs at hs ⊢; split_ifs at hs ⊢ <;> omega) (by omega)
    · simp only [hsw, if_false]
      exact drawLineLoop_returns g false x0 y0 x1 y1 fuel d (by omega) hx0.1 (by omega)
        ⟨hy0.1, by omega⟩ ⟨hy1.1, by omega⟩
        (by unfold cAbs at hs ⊢; split_ifs at hs ⊢ <;> omega) (by omega)

/-- C30: for all on-screen endpoints, every current colour and every buffer
content, `ssd1306_DrawLine(x0, y0, x1, y1)` and `ssd1306_DrawLine(x1, y1, x0, y0)`
both return and leave the same drawing state, so the same framebuffer. -/
theorem drawLine_endpoints_exchanged (g : SSD1306_Geometry) (x0 y0 x1 y1 : Int) (fuel : Nat)
    (d : Screen)
    (hx0 : 0 ≤ x0 ∧ x0 < SSD1306_WIDTH g) (hy0 : 0 ≤ y0 ∧ y0 < SSD1306_HEIGHT g)
    (hx1 : 0 ≤ x1 ∧ x1 < SSD1306_WIDTH g) (hy1 : 0 ≤ y1 ∧ y1 < SSD1306_HEIGHT g)
    (hf : SSD1306_WIDTH g < fuel) :
    ∃ d2, ssd1306_DrawLine g fuel x0 y0 x1 y1 d = some d2 ∧
      ssd1306_DrawLine g fuel x1 y1 x0 y0 d = some d2 := by
  obtain ⟨d2, h⟩ := drawLine_returns g x0 y0 x1 y1 fuel d hx0 hy0 hx1 hy1 hf
  exact ⟨d2, h, by rw [← drawLine_swap_eq]; exact h⟩

/-- Witness for `drawLine_endpoints_exchanged`: the line (0,0)-(10,3) and its
reverse on the cleared 128x64 display with colour White. -/
theorem drawLine_endpoints_exchanged_witness :
    ((0 : Int) ≤ 10 ∧ (10 : Int) < SSD1306_WIDTH .GEOMETRY_128_64) ∧
    ((0 : Int) ≤ 3 ∧ (3 : Int) < SSD1306_HEIGHT .GEOMETRY_128_64) ∧
    ∃ d2, ssd1306_DrawLine .GEOMETRY_128_64 129 0 0 10 3
        (blankScreen .GEOMETRY_128_64 SSD1306_COLOR.White) = some d2 ∧
      ssd1306_DrawLine .GEOMETRY_128_64 129 10 3 0 0
        (blankScreen .GEOMETRY_128_64 SSD1306_COLOR.White) = some d2 :=
  ⟨by decide, by decide,
   drawLine_endpoints_exchanged .GEOMETRY_128_64 0 0 10 3 129
     (blankScreen .GEOMETRY_128_64 SSD1306_COLOR.White)
     (by decide) (by decide) (by decide) (by decide) (by decide)⟩

/-! ## `ssd1306_WriteChar` and `ssd1306_WriteString` -/

/-- The inner loop body of `ssd1306_WriteChar` keeps the cursor, the Inverted
flag and the size of the buffer. -/
theorem writeCharPixel_frame (g : SSD1306_Geometry) (b i j : Nat) (d : Screen) :
    (writeCharPixel g b i j d).SSD1306.CurrentX = d.SSD1306.CurrentX ∧
    (writeCharPixel g b i j d).SSD1306.CurrentY = d.SSD1306.CurrentY ∧
    (writeCharPixel g b i j d).SSD1306.Inverted = d.SSD1306.Inverted ∧
    (writeCharPixel g b i j d).SSD1306_Buffer.length = d.SSD1306_Buffer.length := by
  simp only [writeCharPixel]
  split_ifs
  · simp only [drawPixel_SSD1306, drawPixel_length, and_self]
  · simp only [drawPixel_SSD1306, drawPixel_length, and_self]

theorem writeCharCols_frame (g : SSD1306_Geometry) (b i : Nat) (js : List Nat) :
    ∀ d : Screen,
      (js.foldl (fun d j => writeCharPixel g b i j d) d).SSD1306.CurrentX = d.SSD1306.CurrentX ∧
      (js.foldl (fun d j => writeCharPixel g b i j d) d).SSD1306.CurrentY = d.SSD1306.CurrentY ∧
      (js.foldl (fun d j => writeCharPixel g b i j d) d).SSD1306.Inverted = d.SSD1306.Inverted ∧
      (js.foldl (fun d j => writeCharPixel g b i j d) d).SSD1306_Buffer.length =
        d.SSD1306_Buffer.length := by
  induction js with
  | nil => intro d; simp
  | cons j js ih =>
    intro d
    obtain ⟨h1, h2, h3, h4⟩ := ih (writeCharPixel g b i j d)
    obtain ⟨k1, k2, k3, k4⟩ := writeCharPixel_frame g b i j d
    simp only [List.foldl_cons]
    exact ⟨h1.trans k1, h2.trans k2, h3.trans k3, h4.trans k4⟩

theorem writeCharRow_frame (g : SSD1306_Geometry) (ch : Nat) (Font : FontDef) (d d2 : Screen)
    (i : Nat) (h : writeCharRow g ch Font d i = some d2) :
    d2.SSD1306.CurrentX = d.SSD1306.CurrentX ∧ d2.SSD1306.CurrentY = d.SSD1306.CurrentY ∧
    d2.SSD1306.Inverted = d.SSD1306.Inverted ∧
    d2.SSD1306_Buffer.length = d.SSD1306_Buffer.length := by
  simp only [writeCharRow] at h
  split_ifs at h
  split at h
  · exact absurd h (by simp)
  · simp only [Option.some.injEq] at h
    subst h
    exact writeCharCols_frame g _ i _ d

theorem writeCharRows_frame (g : SSD1306_Geometry) (ch : Nat) (Font : FontDef) (is : List Nat) :
    ∀ d d2 : Screen, is.foldlM (writeCharRow g ch Font) d = some d2 →
      d2.SSD1306.CurrentX = d.SSD1306.CurrentX ∧ d2.SSD1306.CurrentY = d.SSD1306.CurrentY ∧
      d2.SSD1306.Inverted = d.SSD1306.Inverted ∧
      d2.SSD1306_Buffer.length = d.SSD1306_Buffer.length := by
  induction is with
  | nil =>
    intro d d2 h
    simp only [List.foldlM_nil, Option.pure_def, Option.some.injEq] at h
    subst h
    simp
  | cons i is ih =>
    intro d d2 h
    simp only [List.foldlM_cons, Option.bind_eq_bind] at h
    cases hr : writeCharRow g ch Font d i with
    | none => rw [hr] at h; simp at h
    | some d1 =>
      rw [hr] at h
      simp only [Option.some_bind] at h
      obtain ⟨h1, h2, h3, h4⟩ := ih d1 d2 h
      obtain ⟨k1, k2, k3, k4⟩ := writeCharRow_frame g ch Font d d1 i hr
      exact ⟨h1.trans k1, h2.trans k2, h3.trans k3, h4.trans k4⟩

/-- What `ssd1306_WriteChar` returns: either 0 with the drawing state
untouched, because the fit test failed, or `ch` with the cursor moved right
by `FontWidth`. -/
theorem writeChar_cases (g : SSD1306_Geometry) (ch : Nat) (Font : FontDef) (d : Screen)
    (r : Nat) (d2 : Screen) (h : ssd1306_WriteChar g ch Font d = some (r, d2)) :
    (r = 0 ∧ d2 = d ∧
      (SSD1306_WIDTH g ≤ d.SSD1306.CurrentX + Font.FontWidth ∨
        SSD1306_HEIGHT g ≤ d.SSD1306.CurrentY + Font.FontHeight)) ∨
    (r = ch ∧ d2.SSD1306.CurrentX = d.SSD1306.CurrentX + Font.FontWidth ∧
      d2.SSD1306.CurrentY = d.SSD1306.CurrentY ∧
      d.SSD1306.CurrentX + Font.FontWidth < SSD1306_WIDTH g ∧
      d.SSD1306.CurrentY + Font.FontHeight < SSD1306_HEIGHT g ∧
      (0 < Font.FontHeight → 32 ≤ ch)) := by
  obtain ⟨hW, hH, _⟩ := geometry_bounds g
  simp only [ssd1306_WriteChar] at h
  split_ifs at h with hg
  · simp only [Option.some.injEq, Prod.mk.injEq] at h
    exact Or.inl ⟨h.1.symm, h.2.symm, hg⟩
  · right
    cases hr : (List.range Font.FontHeight).foldlM (writeCharRow g ch Font) d with
    | none => rw [hr] at h; simp at h
    | some d1 =>
      rw [hr] at h
      simp only [Option.some.injEq, Prod.mk.injEq] at h
      obtain ⟨h1, h2⟩ := h
      obtain ⟨k1, k2, -, -⟩ := writeCharRows_frame g ch Font _ d d1 hr
      subst h1 h2
      refine ⟨rfl, ?_, k2, by omega, by omega, ?_⟩
      · show (d1.SSD1306.CurrentX + Font.FontWidth) % 65536 = _
        rw [k1]
        omega
      · intro hpos
        by_contra hlt
        obtain ⟨n, hn⟩ : ∃ n, Font.FontHeight = n + 1 := ⟨Font.FontHeight - 1, by omega⟩
        rw [hn, List.range_succ_eq_map] at hr
        simp only [List.foldlM_cons, Option.bind_eq_bind] at hr
        have : writeCharRow g ch Font d 0 = none := by
          simp only [writeCharRow]
          rw [if_pos]
          push_cast
          have : (ch : Int) - 32 < 0 := by omega
          nlinarith
        rw [this] at hr
        simp at hr

/-- C22: whenever `ssd1306_WriteChar` returns 0, the whole drawing state, so the
framebuffer, the cursor and the current colour, is exactly as before the call,
and the fit test had failed.  (The case left out is the character NUL with a
font of height 0, where the returned 0 is the character itself.) -/
theorem writeChar_failure_atomic (g : SSD1306_Geometry) (ch : Nat) (Font : FontDef)
    (d d2 : Screen) (hch : ch ≠ 0 ∨ 0 < Font.FontHeight)
    (h : ssd1306_WriteChar g ch Font d = some (0, d2)) :
    d2 = d ∧ d2.SSD1306_Buffer = d.SSD1306_Buffer ∧
    d2.SSD1306.CurrentX = d.SSD1306.CurrentX ∧ d2.SSD1306.CurrentY = d.SSD1306.CurrentY ∧
    d2.SSD1306.Color = d.SSD1306.Color ∧
    (SSD1306_WIDTH g ≤ d.SSD1306.CurrentX + Font.FontWidth ∨
      SSD1306_HEIGHT g ≤ d.SSD1306.CurrentY + Font.FontHeight) := by
  rcases writeChar_cases g ch Font d 0 d2 h with ⟨-, he, hg⟩ | ⟨he, -, -, -, -, h32⟩
  · subst he
    exact ⟨rfl, rfl, rfl, rfl, rfl, hg⟩
  · rcases hch with h1 | h1
    · exact absurd he.symm h1
    · have := h32 h1
      omega

/-- Witness for `writeChar_failure_atomic`: the character 'A' in a 7x10 font at
the cursor (125, 0) of the 128x64 display. -/
theorem writeChar_failure_atomic_witness :
    ((65 ≠ 0 ∨ 0 < 10) ∧
      ssd1306_WriteChar .GEOMETRY_128_64 65
        { FontWidth := 7, FontHeight := 10, data := List.replicate 950 0x7C00 }
        (cursorScreen .GEOMETRY_128_64 SSD1306_COLOR.White 125 0) =
      some (0, cursorScreen .GEOMETRY_128_64 SSD1306_COLOR.White 125 0)) ∧
    (SSD1306_WIDTH .GEOMETRY_128_64 ≤
        (cursorScreen .GEOMETRY_128_64 SSD1306_COLOR.White 125 0).SSD1306.CurrentX + 7 ∨
      SSD1306_HEIGHT .GEOMETRY_128_64 ≤
        (cursorScreen .GEOMETRY_128_64 SSD1306_COLOR.White 125 0).SSD1306.CurrentY + 10) :=
  ⟨⟨by decide, by simp [ssd1306_WriteChar, cursorScreen, SSD1306_WIDTH]⟩,
   (writeChar_failure_atomic .GEOMETRY_128_64 65
      { FontWidth := 7, FontHeight := 10, data := List.replicate 950 0x7C00 }
      (cursorScreen .GEOMETRY_128_64 SSD1306_COLOR.White 125 0)
      (cursorScreen .GEOMETRY_128_64 SSD1306_COLOR.White 125 0) (Or.inl (by decide))
      (by simp [ssd1306_WriteChar, cursorScreen, SSD1306_WIDTH])).2.2.2.2.2⟩

/-- The rows of a printable character are inside a font table with 95
glyphs, so the outer loop of `ssd1306_WriteChar` reads no entry outside it. -/
theorem writeCharRows_total (g : SSD1306_Geometry) (ch : Nat) (Font : FontDef)
    (hch : 32 ≤ ch ∧ ch ≤ 126) (htab : 95 * Font.FontHeight ≤ Font.data.length)
    (is : List Nat) (his : ∀ i ∈ is, i < Font.FontHeight) :
    ∀ d : Screen, ∃ d2, is.foldlM (writeCharRow g ch Font) d = some d2 := by
  induction is with
  | nil => intro d; exact ⟨d, rfl⟩
  | cons i is ih =>
    intro d
    have hi : i < Font.FontHeight := his i (List.mem_cons_self _ _)
    have hidx : (ch - 32) * Font.FontHeight + i < Font.data.length := by
      have : (ch - 32) * Font.FontHeight ≤ 94 * Font.FontHeight :=
        Nat.mul_le_mul_right _ (by omega)
      omega
    have hrow : ∃ d1, writeCharRow g ch Font d i = some d1 := by
      simp only [writeCharRow]
      have hcast : ((ch : Int) - 32) * (Font.FontHeight : Int) + (i : Int) =
          (((ch - 32) * Font.FontHeight + i : Nat) : Int) := by
        push_cast [Nat.cast_sub hch.1]
        ring
      rw [hcast, if_neg (by omega), Int.toNat_natCast, List.getElem?_eq_getElem hidx]
      exact ⟨_, rfl⟩
    obtain ⟨d1, hd1⟩ := hrow
    obtain ⟨d2, hd2⟩ := ih (fun k hk => his k (List.mem_cons_of_mem _ hk)) d1
    refine ⟨d2, ?_⟩
    simp only [List.foldlM_cons, Option.bind_eq_bind, hd1, Option.some_bind]
    exact hd2

/-- `ssd1306_WriteChar` returns for a printable character and a font table
with 95 glyphs. -/
theorem writeChar_total (g : SSD1306_Geometry) (ch : Nat) (Font : FontDef) (d : Screen)
    (hch : 32 ≤ ch ∧ ch ≤ 126) (htab : 95 * Font.FontHeight ≤ Font.data.length) :
    ∃ r d2, ssd1306_WriteChar g ch Font d = some (r, d2) := by
  simp only [ssd1306_WriteChar]
  split_ifs
  · exact ⟨_, _, rfl⟩
  · obtain ⟨d1, hd1⟩ := writeCharRows_total g ch Font hch htab (List.range Font.FontHeight)
      (fun i hi => List.mem_range.1 hi) d
    rw [hd1]
    exact ⟨_, _, rfl⟩

/-- What `ssd1306_WriteString` has done when it returns `r`: it has written a
prefix of the string glyph by glyph, moving the cursor right by `FontWidth` per
glyph, and either the string is used up and `r = 0`, or `r` is the next
character and `ssd1306_WriteChar` has returned 0 for it. -/
theorem writeString_inv (g : SSD1306_Geometry) (Font : FontDef) :
    ∀ (str : List Nat) (d : Screen) (r : Nat) (d2 : Screen), (∀ c ∈ str, c ≠ 0) →
      ssd1306_WriteString g str Font d = some (r, d2) →
      ∃ pre rest, str = pre ++ rest ∧ writeGlyphs g Font pre d = some d2 ∧
        d2.SSD1306.CurrentX = d.SSD1306.CurrentX + pre.length * Font.FontWidth ∧
        d2.SSD1306.CurrentY = d.SSD1306.CurrentY ∧
        ((rest = [] ∧ r = 0) ∨
          ∃ tl, rest = r :: tl ∧ ssd1306_WriteChar g r Font d2 = some (0, d2)) := by
  intro str
  induction str with
  | nil =>
    intro d r d2 _ h
    simp only [ssd1306_WriteString, Option.some.injEq, Prod.mk.injEq] at h
    obtain ⟨h1, h2⟩ := h
    subst h1 h2
    exact ⟨[], [], rfl, rfl, by simp, rfl, Or.inl ⟨rfl, rfl⟩⟩
  | cons c cs ih =>
    intro d r d2 hnz h
    have hc : c ≠ 0 := hnz c (List.mem_cons_self _ _)
    simp only [ssd1306_WriteString, if_neg hc] at h
    cases hw : ssd1306_WriteChar g c Font d with
    | none => rw [hw] at h; simp at h
    | some res =>
      obtain ⟨r1, d1⟩ := res
      rw [hw] at h
      simp only at h
      rcases writeChar_cases g c Font d r1 d1 hw with ⟨e1, e2, -⟩ | ⟨e1, e2, e3, -⟩
      · subst e1 e2
        rw [if_pos (fun e => hc e.symm)] at h
        simp only [Option.some.injEq, Prod.mk.injEq] at h
        obtain ⟨h1, h2⟩ := h
        subst h1 h2
        exact ⟨[], c :: cs, rfl, rfl, by simp, rfl, Or.inr ⟨cs, rfl, hw⟩⟩
      · subst e1
        rw [if_neg (by simp)] at h
        obtain ⟨pre, rest, hs, hg, hx, hy, hcase⟩ :=
          ih d1 r d2 (fun k hk => hnz k (List.mem_cons_of_mem _ hk)) h
        refine ⟨r1 :: pre, rest, by rw [hs]; rfl, ?_, ?_, by rw [hy, e3], hcase⟩
        · simp only [writeGlyphs, hw, if_true]
          exact hg
        · rw [hx, e2, List.length_cons]
          ring

/-- A printable character that passes the fit test is written: the cursor
moves right by `FontWidth`. -/
theorem writeChar_placed (g : SSD1306_Geometry) (ch : Nat) (Font : FontDef) (d : Screen)
    (hch : 32 ≤ ch ∧ ch ≤ 126) (htab : 95 * Font.FontHeight ≤ Font.data.length)
    (hroom : d.SSD1306.CurrentX + Font.FontWidth < SSD1306_WIDTH g ∧
      d.SSD1306.CurrentY + Font.FontHeight < SSD1306_HEIGHT g) :
    ∃ d2, ssd1306_WriteChar g ch Font d = some (ch, d2) ∧
      d2.SSD1306.CurrentX = d.SSD1306.CurrentX + Font.FontWidth ∧
      d2.SSD1306.CurrentY = d.SSD1306.CurrentY := by
  obtain ⟨r, d2, h⟩ := writeChar_total g ch Font d hch htab
  rcases writeChar_cases g ch Font d r d2 h with ⟨-, -, hg⟩ | ⟨e1, e2, e3, -⟩
  · omega
  · subst e1
    exact ⟨d2, h, e2, e3⟩

/-- A character that fails the fit test is not written. -/
theorem writeChar_rejected (g : SSD1306_Geometry) (ch : Nat) (Font : FontDef) (d : Screen)
    (hg : SSD1306_WIDTH g ≤ d.SSD1306.CurrentX + Font.FontWidth ∨
      SSD1306_HEIGHT g ≤ d.SSD1306.CurrentY + Font.FontHeight) :
    ssd1306_WriteChar g ch Font d = some (0, d) := by
  simp only [ssd1306_WriteChar, if_pos hg]

/-- The string "Font 16x26" in a 16x26 font from the cursor (2, 0): seven
glyphs are written, the cursor ends at (114, 0) and 'x' is returned. -/
theorem writeString_font_16x26 (g : SSD1306_Geometry) (Font : FontDef) (d : Screen)
    (hw : Font.FontWidth = 16) (hh : Font.FontHeight = 26)
    (htab : 95 * Font.FontHeight ≤ Font.data.length)
    (hx : d.SSD1306.CurrentX = 2) (hy : d.SSD1306.CurrentY = 0) :
    ∃ d7, ssd1306_WriteString g [70, 111, 110, 116, 32, 49, 54, 120, 50, 54] Font d =
        some (120, d7) ∧
      writeGlyphs g Font [70, 111, 110, 116, 32, 49, 54] d = some d7 ∧
      d7.SSD1306.CurrentX = 114 ∧ d7.SSD1306.CurrentY = 0 := by
  obtain ⟨hW, -, hH⟩ := geometry_bounds g
  obtain ⟨d1, w1, x1, y1⟩ := writeChar_placed g 70 Font d (by decide) htab (by omega)
  obtain ⟨d2, w2, x2, y2⟩ := writeChar_placed g 111 Font d1 (by decide) htab (by omega)
  obtain ⟨d3, w3, x3, y3⟩ := writeChar_placed g 110 Font d2 (by decide) htab (by omega)
  obtain ⟨d4, w4, x4, y4⟩ := writeChar_placed g 116 Font d3 (by decide) htab (by omega)
  obtain ⟨d5, w5, x5, y5⟩ := writeChar_placed g 32 Font d4 (by decide) htab (by omega)
  obtain ⟨d6, w6, x6, y6⟩ := writeChar_placed g 49 Font d5 (by decide) htab (by omega)
  obtain ⟨d7, w7, x7, y7⟩ := writeChar_placed g 54 Font d6 (by decide) htab (by omega)
  have w8 := writeChar_rejected g 120 Font d7 (Or.inl (by omega))
  refine ⟨d7, ?_, ?_, by omega, by omega⟩
  · simp [ssd1306_WriteString, w1, w2, w3, w4, w5, w6, w7, w8]
  · simp [writeGlyphs, w1, w2, w3, w4, w5, w6, w7]

/-- C23: for every string of printable characters and every font with a table
of 95 glyphs, `ssd1306_WriteString` returns; it has then written a prefix of the
string in order, and it returns 0 if and only if that prefix is the whole
string, and otherwise the first character after the prefix, for which
`ssd1306_WriteChar` returned 0.  For "Font 16x26" in a 16x26 font from the
cursor (2, 0) of the 128x64 display the returned character is 'x' (120). -/
theorem writeString_returns_first_unplaced (g : SSD1306_Geometry) (Font : FontDef)
    (str : List Nat) (d : Screen) (hpr : ∀ c ∈ str, 32 ≤ c ∧ c ≤ 126)
    (htab : 95 * Font.FontHeight ≤ Font.data.length) :
    (∃ r d2 pre rest, ssd1306_WriteString g str Font d = some (r, d2) ∧
      str = pre ++ rest ∧ writeGlyphs g Font pre d = some d2 ∧
      ((rest = [] ∧ r = 0) ∨
        ∃ tl, rest = r :: tl ∧ ssd1306_WriteChar g r Font d2 = some (0, d2)) ∧
      (r = 0 ↔ rest = [])) ∧
    (ssd1306_WriteString .GEOMETRY_128_64 [70, 111, 110, 116, 32, 49, 54, 120, 50, 54]
        { FontWidth := 16, FontHeight := 26, data := List.replicate (95 * 26) 0 }
        (cursorScreen .GEOMETRY_128_64 SSD1306_COLOR.White 2 0)).map Prod.fst = some 120 := by
  refine ⟨?_, ?_⟩
  swap
  · obtain ⟨d7, h7, -⟩ := writeString_font_16x26 .GEOMETRY_128_64
      { FontWidth := 16, FontHeight := 26, data := List.replicate (95 * 26) 0 }
      (cursorScreen .GEOMETRY_128_64 SSD1306_COLOR.White 2 0) rfl rfl
      (le_of_eq (List.length_replicate _ _).symm) rfl rfl
    rw [h7]
    rfl
  have htotal : ∀ (s : List Nat) (d0 : Screen), (∀ c ∈ s, 32 ≤ c ∧ c ≤ 126) →
      ∃ r d2, ssd1306_WriteString g s Font d0 = some (r, d2) := by
    intro s
    induction s with
    | nil => intro d0 _; exact ⟨0, d0, rfl⟩
    | cons c cs ih =>
      intro d0 hs
      have hc := hs c (List.mem_cons_self _ _)
      obtain ⟨r1, d1, hw⟩ := writeChar_total g c Font d0 hc htab
      simp only [ssd1306_WriteString, if_neg (show c ≠ 0 by omega), hw]
      split_ifs
      · exact ⟨_, _, rfl⟩
      · exact ih d1 (fun k hk => hs k (List.mem_cons_of_mem _ hk))
  obtain ⟨r, d2, h⟩ := htotal str d hpr
  have hnz : ∀ c ∈ str, c ≠ 0 := fun c hc => by have := hpr c hc; omega
  obtain ⟨pre, rest, hs, hg, -, -, hcase⟩ := writeString_inv g Font str d r d2 hnz h
  refine ⟨r, d2, pre, rest, h, hs, hg, hcase, ?_⟩
  rcases hcase with ⟨h1, h2⟩ | ⟨tl, h1, -⟩
  · simp [h1, h2]
  · have hmem : r ∈ str := by rw [hs, h1]; simp
    have := hpr r hmem
    constructor
    · intro h0; omega
    · intro h0; rw [h0] at h1; simp at h1

/-- Witness for `writeString_returns_first_unplaced`: the string "Font 16x26"
in a 16x26 font from the cursor (2, 0) of the 128x64 display. -/
theorem writeString_returns_first_unplaced_witness :
    (∀ c ∈ [70, 111, 110, 116, 32, 49, 54, 120, 50, 54], 32 ≤ c ∧ c ≤ 126) ∧
    ∃ r d2 pre rest,
      ssd1306_WriteString .GEOMETRY_128_64 [70, 111, 110, 116, 32, 49, 54, 120, 50, 54]
        { FontWidth := 16, FontHeight := 26, data := List.replicate (95 * 26) 0 }
        (cursorScreen .GEOMETRY_128_64 SSD1306_COLOR.White 2 0) = some (r, d2) ∧
      [70, 111, 110, 116, 32, 49, 54, 120, 50, 54] = pre ++ rest ∧
      writeGlyphs .GEOMETRY_128_64
        { FontWidth := 16, FontHeight := 26, data := List.replicate (95 * 26) 0 } pre
        (cursorScreen .GEOMETRY_128_64 SSD1306_COLOR.White 2 0) = some d2 ∧
      ((rest = [] ∧ r = 0) ∨
        ∃ tl, rest = r :: tl ∧
          ssd1306_WriteChar .GEOMETRY_128_64 r
            { FontWidth := 16, FontHeight := 26, data := List.replicate (95 * 26) 0 } d2 =
            some (0, d2)) ∧
      (r = 0 ↔ rest = []) :=
  ⟨by decide,
   (writeString_returns_first_unplaced .GEOMETRY_128_64
      { FontWidth := 16, FontHeight := 26, data := List.replicate (95 * 26) 0 }
      [70, 111, 110, 116, 32, 49, 54, 120, 50, 54]
      (cursorScreen .GEOMETRY_128_64 SSD1306_COLOR.White 2 0) (by decide)
      (le_of_eq (List.length_replicate _ _).symm)).1⟩

/-- C24 (amended to the cursor past the last glyph): when `ssd1306_WriteString`
stops at a character `r` that `ssd1306_WriteChar` rejects, after the glyphs of
the prefix `pre` were written from the start cursor `(X, Y)`, then `CurrentX` is
`X + k * FontWidth` with `k` the number of glyphs written, the column just past
the last written glyph, and `CurrentY` is `Y`. -/
theorem writeString_cursor_after_stop (g : SSD1306_Geometry) (Font : FontDef)
    (str : List Nat) (d : Screen) (r : Nat) (d2 : Screen) (hnz : ∀ c ∈ str, c ≠ 0)
    (h : ssd1306_WriteString g str Font d = some (r, d2)) (hr : r ≠ 0) :
    ∃ pre tl, str = pre ++ r :: tl ∧ writeGlyphs g Font pre d = some d2 ∧
      ssd1306_WriteChar g r Font d2 = some (0, d2) ∧
      d2.SSD1306.CurrentX = d.SSD1306.CurrentX + pre.length * Font.FontWidth ∧
      d2.SSD1306.CurrentY = d.SSD1306.CurrentY := by
  obtain ⟨pre, rest, hs, hg, hx, hy, hcase⟩ := writeString_inv g Font str d r d2 hnz h
  rcases hcase with ⟨-, h2⟩ | ⟨tl, h1, hw⟩
  · exact absurd h2 hr
  · exact ⟨pre, tl, by rw [hs, h1], hg, hw, hx, hy⟩

/-- Witness for `writeString_cursor_after_stop`: the string "AB" in a 7x10 font
from the cursor (114, 0) of the 128x64 display; 'A' is written, 'B' is not. -/
theorem writeString_cursor_after_stop_witness :
    ((∀ c ∈ [65, 66], c ≠ 0) ∧ (66 : Nat) ≠ 0) ∧
    ∃ d2 pre tl,
      ssd1306_WriteString .GEOMETRY_128_64 [65, 66]
        { FontWidth := 7, FontHeight := 10, data := List.replicate 950 0 }
        (cursorScreen .GEOMETRY_128_64 SSD1306_COLOR.White 114 0) = some (66, d2) ∧
      [65, 66] = pre ++ 66 :: tl ∧
      writeGlyphs .GEOMETRY_128_64
        { FontWidth := 7, FontHeight := 10, data := List.replicate 950 0 } pre
        (cursorScreen .GEOMETRY_128_64 SSD1306_COLOR.White 114 0) = some d2 ∧
      ssd1306_WriteChar .GEOMETRY_128_64 66
        { FontWidth := 7, FontHeight := 10, data := List.replicate 950 0 } d2 = some (0, d2) ∧
      d2.SSD1306.CurrentX =
        (cursorScreen .GEOMETRY_128_64 SSD1306_COLOR.White 114 0).SSD1306.CurrentX +
          pre.length * 7 ∧
      d2.SSD1306.CurrentY =
        (cursorScreen .GEOMETRY_128_64 SSD1306_COLOR.White 114 0).SSD1306.CurrentY := by
  refine ⟨⟨by decide, by decide⟩, ?_⟩
  obtain ⟨d1, w1, x1, y1⟩ := writeChar_placed .GEOMETRY_128_64 65
    { FontWidth := 7, FontHeight := 10, data := List.replicate 950 0 }
    (cursorScreen .GEOMETRY_128_64 SSD1306_COLOR.White 114 0) (by decide)
    (le_of_eq (List.length_replicate _ _).symm) (by decide)
  have w2 := writeChar_rejected .GEOMETRY_128_64 66
    { FontWidth := 7, FontHeight := 10, data := List.replicate 950 0 } d1
    (Or.inl (by rw [x1]; decide))
  have hs : ssd1306_WriteString .GEOMETRY_128_64 [65, 66]
      { FontWidth := 7, FontHeight := 10, data := List.replicate 950 0 }
      (cursorScreen .GEOMETRY_128_64 SSD1306_COLOR.White 114 0) = some (66, d1) := by
    simp only [ssd1306_WriteString, w1, w2]
    rfl
  obtain ⟨pre, tl, h1, h2, h3, h4, h5⟩ :=
    writeString_cursor_after_stop .GEOMETRY_128_64
      { FontWidth := 7, FontHeight := 10, data := List.replicate 950 0 } [65, 66]
      (cursorScreen .GEOMETRY_128_64 SSD1306_COLOR.White 114 0) 66 d1 (by decide) hs
      (by decide)
  exact ⟨d1, pre, tl, hs, h1, h2, h3, h4, h5⟩

/-- Counterexample to C24 as stated: "Font 16x26" in a 16x26 font from the
cursor (2, 0) of the 128x64 display stops at 'x' after 7 glyphs with
`CurrentX = 114 = 2 + 7 * 16`, not `2 + (7 - 1) * 16 = 98`, the column of the
last written glyph. -/
theorem writeString_cursor_after_stop_counterexample :
    (ssd1306_WriteString .GEOMETRY_128_64 [70, 111, 110, 116, 32, 49, 54, 120, 50, 54]
        { FontWidth := 16, FontHeight := 26, data := List.replicate (95 * 26) 0 }
        (cursorScreen .GEOMETRY_128_64 SSD1306_COLOR.White 2 0)).map
      (fun r => (r.1, r.2.SSD1306.CurrentX, r.2.SSD1306.CurrentY)) = some (120, 114, 0) ∧
    (writeGlyphs .GEOMETRY_128_64
        { FontWidth := 16, FontHeight := 26, data := List.replicate (95 * 26) 0 }
        [70, 111, 110, 116, 32, 49, 54]
        (cursorScreen .GEOMETRY_128_64 SSD1306_COLOR.White 2 0)).map
      (fun d => d.SSD1306.CurrentX) = some 114 ∧
    2 + (7 - 1) * 16 = 98 := by
  obtain ⟨d7, h7, g7, x7, y7⟩ := writeString_font_16x26 .GEOMETRY_128_64
    { FontWidth := 16, FontHeight := 26, data := List.replicate (95 * 26) 0 }
    (cursorScreen .GEOMETRY_128_64 SSD1306_COLOR.White 2 0) rfl rfl
      (le_of_eq (List.length_replicate _ _).symm) rfl rfl
  rw [h7, g7]
  simp only [Option.map_some', x7, y7]
  decide

/-! ## The pixels of `ssd1306_WriteChar` -/

/-- The test `(b << j) & 0x8000` reads bit `15 - j` of `b`. -/
theorem glyph_test_iff (b j : Nat) : ((b <<< j) % 2 ^ 32) &&& 0x8000 ≠ 0 ↔ glyphBit b j = true := by
  have h := and_shift_ne_zero_iff ((b <<< j) % 2 ^ 32) 15
  have e : (1 : Nat) <<< 15 = 0x8000 := by decide
  rw [e] at h
  rw [h, Nat.testBit_mod_two_pow, Nat.testBit_shiftLeft]
  simp [glyphBit]

/-- One round of the inner loop of `ssd1306_WriteChar`, colour White or Black:
the pixel of the cell gets the glyph bit in the current colour, nothing else
changes. -/
theorem writeCharPixel_lit (g : SSD1306_Geometry) (b i j : Nat) (d : Screen)
    (hinv : d.SSD1306.Inverted = 0)
    (hcol : d.SSD1306.Color = SSD1306_COLOR.White ∨ d.SSD1306.Color = SSD1306_COLOR.Black)
    (hlen : d.SSD1306_Buffer.length = SSD1306_BUFFER_SIZE g)
    (hx : d.SSD1306.CurrentX + j < SSD1306_WIDTH g)
    (hy : d.SSD1306.CurrentY + i < SSD1306_HEIGHT g) :
    (writeCharPixel g b i j d).SSD1306 = d.SSD1306 ∧
    ∀ x2 y2, x2 < SSD1306_WIDTH g → y2 < SSD1306_HEIGHT g →
      pixelLit g (writeCharPixel g b i j d) x2 y2 =
        if x2 = d.SSD1306.CurrentX + j ∧ y2 = d.SSD1306.CurrentY + i then
          (glyphBit b j == decide (d.SSD1306.Color = SSD1306_COLOR.White))
        else pixelLit g d x2 y2 := by
  obtain ⟨hW, hH, _⟩ := geometry_bounds g
  have mx : (d.SSD1306.CurrentX + j) % 256 = d.SSD1306.CurrentX + j := by omega
  have my : (d.SSD1306.CurrentY + i) % 256 = d.SSD1306.CurrentY + i := by omega
  obtain ⟨⟨cx, cy, inv, col, ini⟩, buf⟩ := d
  simp only at hinv hcol hlen hx hy mx my
  subst hinv
  by_cases hb : ((b <<< j) % 2 ^ 32) &&& 0x8000 ≠ 0
  · have hg : glyphBit b j = true := (glyph_test_iff b j).1 hb
    simp only [writeCharPixel, if_pos hb, mx, my, hg]
    refine ⟨drawPixel_SSD1306 _ _ _ _, ?_⟩
    intro x2 y2 hx2 hy2
    rcases hcol with hc | hc
    · subst hc
      rw [drawPixel_white_lit g _ _ _ rfl rfl hlen x2 y2 hx2 hy2]
      by_cases he : x2 = cx + j ∧ y2 = cy + i <;> simp [he]
    · subst hc
      rw [drawPixel_nonwhite_lit g _ _ _ hx hy rfl (by simp) hlen x2 y2 hx2]
      by_cases he : x2 = cx + j ∧ y2 = cy + i <;> simp [he]
  · have hg : glyphBit b j = false := by
      cases hgb : glyphBit b j
      · rfl
      · exact absurd ((glyph_test_iff b j).2 hgb) hb
    simp only [writeCharPixel, if_neg hb, mx, my, hg]
    rcases hcol with hc | hc
    · subst hc
      refine ⟨by simp only [drawPixel_SSD1306, SSD1306_COLOR.lnot], ?_⟩
      intro x2 y2 hx2 hy2
      have := drawPixel_nonwhite_lit g (cx + j) (cy + i)
        { SSD1306 := { CurrentX := cx, CurrentY := cy, Inverted := 0,
                       Color := SSD1306_COLOR.Black, Initialized := ini }
          SSD1306_Buffer := buf } hx hy rfl (by simp) hlen x2 y2 hx2
      simp only [pixelLit, SSD1306_COLOR.lnot] at this ⊢
      rw [this]
      by_cases he : x2 = cx + j ∧ y2 = cy + i <;> simp [he]
    · subst hc
      refine ⟨by simp only [drawPixel_SSD1306, SSD1306_COLOR.lnot], ?_⟩
      intro x2 y2 hx2 hy2
      have := drawPixel_white_lit g (cx + j) (cy + i)
        { SSD1306 := { CurrentX := cx, CurrentY := cy, Inverted := 0,
                       Color := SSD1306_COLOR.White, Initialized := ini }
          SSD1306_Buffer := buf } rfl rfl hlen x2 y2 hx2 hy2
      simp only [pixelLit, SSD1306_COLOR.lnot] at this ⊢
      rw [this]
      by_cases he : x2 = cx + j ∧ y2 = cy + i <;> simp [he]

/-- The inner loop of `ssd1306_WriteChar` over the columns `js` of row `i`. -/
theorem writeCharCols_lit (g : SSD1306_Geometry) (b i : Nat) (js : List Nat) :
    ∀ d : Screen, d.SSD1306.Inverted = 0 →
      (d.SSD1306.Color = SSD1306_COLOR.White ∨ d.SSD1306.Color = SSD1306_COLOR.Black) →
      d.SSD1306_Buffer.length = SSD1306_BUFFER_SIZE g →
      (∀ j ∈ js, d.SSD1306.CurrentX + j < SSD1306_WIDTH g) →
      d.SSD1306.CurrentY + i < SSD1306_HEIGHT g →
      (js.foldl (fun d j => writeCharPixel g b i j d) d).SSD1306 = d.SSD1306 ∧
      ∀ x2 y2, x2 < SSD1306_WIDTH g → y2 < SSD1306_HEIGHT g →
        pixelLit g (js.foldl (fun d j => writeCharPixel g b i j d) d) x2 y2 =
          if y2 = d.SSD1306.CurrentY + i ∧ ∃ j ∈ js, x2 = d.SSD1306.CurrentX + j then
            (glyphBit b (x2 - d.SSD1306.CurrentX) ==
              decide (d.SSD1306.Color = SSD1306_COLOR.White))
          else pixelLit g d x2 y2 := by
  induction js with
  | nil => intro d _ _ _ _ _; simp
  | cons j js ih =>
    intro d hinv hcol hlen hjs hy
    obtain ⟨s1, p1⟩ := writeCharPixel_lit g b i j d hinv hcol hlen
      (hjs j (List.mem_cons_self _ _)) hy
    have l1 := (writeCharPixel_frame g b i j d).2.2.2
    obtain ⟨s2, p2⟩ := ih (writeCharPixel g b i j d) (by rw [s1]; exact hinv)
      (by rw [s1]; exact hcol) (by rw [l1]; exact hlen)
      (by rw [s1]; exact fun k hk => hjs k (List.mem_cons_of_mem _ hk)) (by rw [s1]; exact hy)
    simp only [List.foldl_cons]
    refine ⟨s2.trans s1, ?_⟩
    intro x2 y2 hx2 hy2
    rw [p2 x2 y2 hx2 hy2, p1 x2 y2 hx2 hy2, s1]
    by_cases hrow : y2 = d.SSD1306.CurrentY + i
    · by_cases hin : ∃ k ∈ js, x2 = d.SSD1306.CurrentX + k
      · have hin2 : ∃ k ∈ j :: js, x2 = d.SSD1306.CurrentX + k := by
          obtain ⟨k, hk, e⟩ := hin
          exact ⟨k, List.mem_cons_of_mem _ hk, e⟩
        rw [if_pos ⟨hrow, hin⟩, if_pos ⟨hrow, hin2⟩]
      · rw [if_neg (fun h => hin h.2)]
        by_cases hj : x2 = d.SSD1306.CurrentX + j
        · have hin2 : ∃ k ∈ j :: js, x2 = d.SSD1306.CurrentX + k :=
            ⟨j, List.mem_cons_self _ _, hj⟩
          rw [if_pos ⟨hj, hrow⟩, if_pos ⟨hrow, hin2⟩]
          have : x2 - d.SSD1306.CurrentX = j := by omega
          rw [this]
        · have hin2 : ¬ ∃ k ∈ j :: js, x2 = d.SSD1306.CurrentX + k := by
            rintro ⟨k, hk, e⟩
            rcases List.mem_cons.1 hk with h | h
            · exact hj (by rw [e, h])
            · exact hin ⟨k, h, e⟩
          rw [if_neg (fun h => hj h.1), if_neg (fun h => hin2 h.2)]
    · rw [if_neg (fun h => hrow h.1), if_neg (fun h => hrow h.2), if_neg (fun h => hrow h.1)]

/-- The outer loop of `ssd1306_WriteChar` over the rows `is` of a character
whose rows are inside the font table. -/
theorem writeCharRows_lit (g : SSD1306_Geometry) (ch : Nat) (Font : FontDef) (hch : 32 ≤ ch)
    (is : List Nat) :
    ∀ d : Screen, d.SSD1306.Inverted = 0 →
      (d.SSD1306.Color = SSD1306_COLOR.White ∨ d.SSD1306.Color = SSD1306_COLOR.Black) →
      d.SSD1306_Buffer.length = SSD1306_BUFFER_SIZE g →
      d.SSD1306.CurrentX + Font.FontWidth ≤ SSD1306_WIDTH g →
      (∀ i ∈ is, d.SSD1306.CurrentY + i < SSD1306_HEIGHT g ∧
        (ch - 32) * Font.FontHeight + i < Font.data.length) →
      ∃ d2, is.foldlM (writeCharRow g ch Font) d = some d2 ∧ d2.SSD1306 = d.SSD1306 ∧
        ∀ x2 y2, x2 < SSD1306_WIDTH g → y2 < SSD1306_HEIGHT g →
          pixelLit g d2 x2 y2 =
            if (∃ i ∈ is, y2 = d.SSD1306.CurrentY + i) ∧ d.SSD1306.CurrentX ≤ x2 ∧
                x2 < d.SSD1306.CurrentX + Font.FontWidth then
              glyphPixel Font ch d.SSD1306.Color (y2 - d.SSD1306.CurrentY)
                (x2 - d.SSD1306.CurrentX)
            else pixelLit g d x2 y2 := by
  induction is with
  | nil =>
    intro d _ _ _ _ _
    exact ⟨d, rfl, rfl, by simp⟩
  | cons i is ih =>
    intro d hinv hcol hlen hw his
    obtain ⟨hyi, hidx⟩ := his i (List.mem_cons_self _ _)
    have hrow : writeCharRow g ch Font d i =
        some ((List.range Font.FontWidth).foldl
          (fun d j => writeCharPixel g (Font.data.getD ((ch - 32) * Font.FontHeight + i) 0) i j d)
          d) := by
      simp only [writeCharRow]
      have hcast : ((ch : Int) - 32) * (Font.FontHeight : Int) + (i : Int) =
          (((ch - 32) * Font.FontHeight + i : Nat) : Int) := by
        push_cast [Nat.cast_sub hch]
        ring
      rw [hcast, if_neg (by omega), Int.toNat_natCast, List.getElem?_eq_getElem hidx,
        List.getD_eq_getElem _ _ hidx]
    obtain ⟨s1, p1⟩ := writeCharCols_lit g (Font.data.getD ((ch - 32) * Font.FontHeight + i) 0) i
      (List.range Font.FontWidth) d hinv hcol hlen
      (fun j hj => by have := List.mem_range.1 hj; omega) hyi
    have l1 := (writeCharCols_frame g (Font.data.getD ((ch - 32) * Font.FontHeight + i) 0) i
      (List.range Font.FontWidth) d).2.2.2
    obtain ⟨d2, h2, s2, p2⟩ := ih _ (by rw [s1]; exact hinv) (by rw [s1]; exact hcol)
      (by rw [l1]; exact hlen) (by rw [s1]; exact hw)
      (by rw [s1]; exact fun k hk => his k (List.mem_cons_of_mem _ hk))
    refine ⟨d2, ?_, s2.trans s1, ?_⟩
    · simp only [List.foldlM_cons, Option.bind_eq_bind, hrow, Option.some_bind]
      exact h2
    · intro x2 y2 hx2 hy2
      rw [p2 x2 y2 hx2 hy2, p1 x2 y2 hx2 hy2, s1]
      have hcolx : (∃ j ∈ List.range Font.FontWidth, x2 = d.SSD1306.CurrentX + j) ↔
          d.SSD1306.CurrentX ≤ x2 ∧ x2 < d.SSD1306.CurrentX + Font.FontWidth := by
        constructor
        · rintro ⟨j, hj, e⟩
          have := List.mem_range.1 hj
          omega
        · rintro ⟨h1, h2⟩
          exact ⟨x2 - d.SSD1306.CurrentX, List.mem_range.2 (by omega), by omega⟩
      by_cases hx : d.SSD1306.CurrentX ≤ x2 ∧ x2 < d.SSD1306.CurrentX + Font.FontWidth
      · by_cases hin : ∃ k ∈ is, y2 = d.SSD1306.CurrentY + k
        · have hin2 : ∃ k ∈ i :: is, y2 = d.SSD1306.CurrentY + k := by
            obtain ⟨k, hk, e⟩ := hin
            exact ⟨k, List.mem_cons_of_mem _ hk, e⟩
          rw [if_pos ⟨hin, hx⟩, if_pos ⟨hin2, hx⟩]
        · rw [if_neg (fun h => hin h.1)]
          by_cases hi : y2 = d.SSD1306.CurrentY + i
          · have hin2 : ∃ k ∈ i :: is, y2 = d.SSD1306.CurrentY + k :=
              ⟨i, List.mem_cons_self _ _, hi⟩
            rw [if_pos ⟨hi, hcolx.2 hx⟩, if_pos ⟨hin2, hx⟩]
            have : y2 - d.SSD1306.CurrentY = i := by omega
            rw [glyphPixel, this]
          · have hin2 : ¬ ∃ k ∈ i :: is, y2 = d.SSD1306.CurrentY + k := by
              rintro ⟨k, hk, e⟩
              rcases List.mem_cons.1 hk with h | h
              · exact hi (by rw [e, h])
              · exact hin ⟨k, h, e⟩
            rw [if_neg (fun h => hi h.1), if_neg (fun h => hin2 h.1)]
      · rw [if_neg (fun h => hx h.2), if_neg (fun h => hx (hcolx.1 h.2)),
          if_neg (fun h => hx h.2)]

/-- C21: when `ssd1306_WriteChar` passes its fit test with current colour White
or Black and the Inverted flag clear, for a character whose rows are in the
font table, it returns `ch`; every pixel `(CurrentX + j, CurrentY + i)` of the
cell is lit according to bit `15 - j` of the row word in the current colour
(set bit: colour `c`, clear bit: the opposite colour) whatever it was before,
every pixel outside the cell is unchanged, `CurrentX` has moved by `FontWidth`,
and `CurrentY`, the colour and the other fields are unchanged. -/
theorem writeChar_glyph_pixels (g : SSD1306_Geometry) (ch : Nat) (Font : FontDef) (d : Screen)
    (hinv : d.SSD1306.Inverted = 0)
    (hcol : d.SSD1306.Color = SSD1306_COLOR.White ∨ d.SSD1306.Color = SSD1306_COLOR.Black)
    (hlen : d.SSD1306_Buffer.length = SSD1306_BUFFER_SIZE g)
    (hroom : ¬ (SSD1306_WIDTH g ≤ d.SSD1306.CurrentX + Font.FontWidth ∨
      SSD1306_HEIGHT g ≤ d.SSD1306.CurrentY + Font.FontHeight))
    (hch : 32 ≤ ch) (htab : (ch - 32) * Font.FontHeight + Font.FontHeight ≤ Font.data.length) :
    ∃ d2, ssd1306_WriteChar g ch Font d = some (ch, d2) ∧
      d2.SSD1306 = { d.SSD1306 with CurrentX := d.SSD1306.CurrentX + Font.FontWidth } ∧
      ∀ x y, x < SSD1306_WIDTH g → y < SSD1306_HEIGHT g →
        pixelLit g d2 x y =
          if d.SSD1306.CurrentX ≤ x ∧ x < d.SSD1306.CurrentX + Font.FontWidth ∧
              d.SSD1306.CurrentY ≤ y ∧ y < d.SSD1306.CurrentY + Font.FontHeight then
            glyphPixel Font ch d.SSD1306.Color (y - d.SSD1306.CurrentY)
              (x - d.SSD1306.CurrentX)
          else pixelLit g d x y := by
  obtain ⟨hW, hH, _⟩ := geometry_bounds g
  obtain ⟨d1, h1, s1, p1⟩ := writeCharRows_lit g ch Font hch (List.range Font.FontHeight) d
    hinv hcol hlen (by omega)
    (fun i hi => by have := List.mem_range.1 hi; omega)
  have hres : ssd1306_WriteChar g ch Font d = some (ch, { d1 with
      SSD1306 := { d1.SSD1306 with
        CurrentX := (d1.SSD1306.CurrentX + Font.FontWidth) % 65536 } }) := by
    simp only [ssd1306_WriteChar, if_neg hroom, h1]
  refine ⟨_, hres, ?_, ?_⟩
  · simp only [s1]
    congr 1
    omega
  · intro x y hx hy
    have := p1 x y hx hy
    simp only [pixelLit] at this ⊢
    rw [this]
    have hrowy : (∃ i ∈ List.range Font.FontHeight, y = d.SSD1306.CurrentY + i) ↔
        d.SSD1306.CurrentY ≤ y ∧ y < d.SSD1306.CurrentY + Font.FontHeight := by
      constructor
      · rintro ⟨i, hi, e⟩
        have := List.mem_range.1 hi
        omega
      · rintro ⟨h1, h2⟩
        exact ⟨y - d.SSD1306.CurrentY, List.mem_range.2 (by omega), by omega⟩
    by_cases hc : d.SSD1306.CurrentX ≤ x ∧ x < d.SSD1306.CurrentX + Font.FontWidth ∧
        d.SSD1306.CurrentY ≤ y ∧ y < d.SSD1306.CurrentY + Font.FontHeight
    · rw [if_pos ⟨hrowy.2 ⟨hc.2.2.1, hc.2.2.2⟩, hc.1, hc.2.1⟩, if_pos hc]
    · rw [if_neg (fun h => hc ⟨h.2.1, h.2.2, (hrowy.1 h.1).1, (hrowy.1 h.1).2⟩), if_neg hc]

/-- Witness for `writeChar_glyph_pixels`: the character 'A' in a 7x10 font at the
cursor (0, 0) of the cleared 128x64 display, colour White. -/
theorem writeChar_glyph_pixels_witness :
    (¬ (SSD1306_WIDTH .GEOMETRY_128_64 ≤ 0 + 7 ∨ SSD1306_HEIGHT .GEOMETRY_128_64 ≤ 0 + 10) ∧
      32 ≤ 65) ∧
    ∃ d2, ssd1306_WriteChar .GEOMETRY_128_64 65
        { FontWidth := 7, FontHeight := 10, data := List.replicate 950 0x7C00 }
        (cursorScreen .GEOMETRY_128_64 SSD1306_COLOR.White 0 0) = some (65, d2) ∧
      d2.SSD1306 = { (cursorScreen .GEOMETRY_128_64 SSD1306_COLOR.White 0 0).SSD1306 with
        CurrentX := 0 + 7 } ∧
      ∀ x y, x < SSD1306_WIDTH .GEOMETRY_128_64 → y < SSD1306_HEIGHT .GEOMETRY_128_64 →
        pixelLit .GEOMETRY_128_64 d2 x y =
          if 0 ≤ x ∧ x < 0 + 7 ∧ 0 ≤ y ∧ y < 0 + 10 then
            glyphPixel { FontWidth := 7, FontHeight := 10, data := List.replicate 950 0x7C00 }
              65 SSD1306_COLOR.White (y - 0) (x - 0)
          else pixelLit .GEOMETRY_128_64
            (cursorScreen .GEOMETRY_128_64 SSD1306_COLOR.White 0 0) x y :=
  ⟨⟨by decide, by decide⟩,
   writeChar_glyph_pixels .GEOMETRY_128_64 65
     { FontWidth := 7, FontHeight := 10, data := List.replicate 950 0x7C00 }
     (cursorScreen .GEOMETRY_128_64 SSD1306_COLOR.White 0 0) rfl (Or.inl rfl)
     (List.length_replicate _ _) (by decide) (by decide)
     (le_trans (show (65 - 32) * 10 + 10 ≤ 950 by decide)
       (le_of_eq (List.length_replicate 950 0x7C00).symm))⟩

set_option maxRecDepth 100000 in
/-- C26, counterexample: `ssd1306_DrawBitmap(0, 0, 1, 4, {0xFF})` on a cleared
buffer with colour White consumes one byte and lights all eight rows of column
0: the pixels `(0, 4)` .. `(0, 7)` lie below the rectangle `[0, 1) x [0, 4)`, so
the bottom bits of the band are drawn, not cut off. -/
theorem drawBitmap_stays_in_bands_counterexample :
    (ssd1306_DrawBitmap .GEOMETRY_128_64 8 0 0 1 4 [0xFF]
        (blankScreen .GEOMETRY_128_64 SSD1306_COLOR.White)).map
      (fun r => (r.1, (List.range 8).map fun y => pixelLit .GEOMETRY_128_64 r.2 0 y)) =
      some (1, [true, true, true, true, true, true, true, true]) ∧
    (List.range 8).map
      (fun y => pixelLit .GEOMETRY_128_64 (blankScreen .GEOMETRY_128_64 SSD1306_COLOR.White) 0 y) =
      [false, false, false, false, false, false, false, false] := by
  decide

/-! ## The path of the reference walk -/

theorem bresenhamSteps_fst_bounds (dx dy step : Int) (n : Nat) :
    ∀ (a b err : Int), ∀ p ∈ bresenhamSteps dx dy step n a b err, a ≤ p.1 ∧ p.1 < a + n := by
  induction n with
  | zero => intro a b err p hp; simp [bresenhamSteps] at hp
  | succ n ih =>
    intro a b err p hp
    simp only [bresenhamSteps, List.mem_cons] at hp
    rcases hp with hp | hp
    · subst hp
      push_cast
      constructor <;> simp
    · split_ifs at hp
      · have := ih _ _ _ p hp
        push_cast
        omega
      · have := ih _ _ _ p hp
        push_cast
        omega

theorem bresenhamSteps_length (dx dy step : Int) (n : Nat) :
    ∀ (a b err : Int), (bresenhamSteps dx dy step n a b err).length = n := by
  induction n with
  | zero => intro a b err; rfl
  | succ n ih =>
    intro a b err
    simp only [bresenhamSteps, List.length_cons]
    split_ifs <;> rw [ih]

/-- The major coordinate grows strictly along the walk. -/
theorem bresenhamSteps_sorted (dx dy step : Int) (n : Nat) :
    ∀ (a b err : Int),
      (bresenhamSteps dx dy step n a b err).Pairwise (fun p p2 => p.1 < p2.1) := by
  induction n with
  | zero => intro a b err; simp [bresenhamSteps]
  | succ n ih =>
    intro a b err
    simp only [bresenhamSteps, List.pairwise_cons]
    split_ifs
    · refine ⟨fun p hp => ?_, ih _ _ _⟩
      have := (bresenhamSteps_fst_bounds dx dy step n _ _ _ p hp).1
      show a < p.1
      omega
    · refine ⟨fun p hp => ?_, ih _ _ _⟩
      have := (bresenhamSteps_fst_bounds dx dy step n _ _ _ p hp).1
      show a < p.1
      omega

theorem pairwise_fst_unique (l : List (Int × Int)) (h : l.Pairwise (fun p p2 => p.1 < p2.1)) :
    ∀ p ∈ l, ∀ p2 ∈ l, p.1 = p2.1 → p = p2 := by
  induction l with
  | nil => intro p hp; simp at hp
  | cons x l ih =>
    rw [List.pairwise_cons] at h
    intro p hp p2 hp2 he
    rcases List.mem_cons.1 hp with h1 | h1 <;> rcases List.mem_cons.1 hp2 with h2 | h2
    · rw [h1, h2]
    · subst h1
      have := h.1 p2 h2
      omega
    · subst h2
      have := h.1 p h1
      omega
    · exact ih h.2 p h1 p2 h2 he

theorem pairwise_fst_nodup (l : List (Int × Int)) (h : l.Pairwise (fun p p2 => p.1 < p2.1)) :
    l.Nodup := by
  unfold List.Nodup
  refine h.imp ?_
  intro p p2 hlt he
  rw [he] at hlt
  exact lt_irrefl _ hlt

/-- Every major coordinate of the range has a point on the walk. -/
theorem bresenhamSteps_exists (dx dy step : Int) (n : Nat) :
    ∀ (a b err t : Int), a ≤ t → t < a + n →
      ∃ q, (t, q) ∈ bresenhamSteps dx dy step n a b err := by
  induction n with
  | zero => intro a b err t h1 h2; simp at h2; omega
  | succ n ih =>
    intro a b err t h1 h2
    push_cast at h2
    by_cases ht : t = a
    · subst ht
      exact ⟨b, by simp [bresenhamSteps]⟩
    · simp only [bresenhamSteps, List.mem_cons]
      split_ifs
      · obtain ⟨q, hq⟩ := ih (a + 1) (b + step) (err - dy + dx) t (by omega) (by omega)
        exact ⟨q, Or.inr hq⟩
      · obtain ⟨q, hq⟩ := ih (a + 1) b (err - dy) t (by omega) (by omega)
        exact ⟨q, Or.inr hq⟩

/-- From one point of the walk to the next the minor coordinate stays or
moves by `step`. -/
theorem bresenhamSteps_next (dx dy step : Int) (n : Nat) :
    ∀ (a b err : Int), ∀ p ∈ bresenhamSteps dx dy step n a b err,
      ∀ p2 ∈ bresenhamSteps dx dy step n a b err, p2.1 = p.1 + 1 →
        p2.2 = p.2 ∨ p2.2 = p.2 + step := by
  induction n with
  | zero => intro a b err p hp; simp [bresenhamSteps] at hp
  | succ n ih =>
    intro a b err p hp p2 hp2 he
    have hsorted := bresenhamSteps_sorted dx dy step (n + 1) a b err
    simp only [bresenhamSteps, List.mem_cons] at hp hp2 hsorted
    have key : ∀ (b2 err2 : Int), (b2 = b ∨ b2 = b + step) →
        (p = (a, b) ∨ p ∈ bresenhamSteps dx dy step n (a + 1) b2 err2) →
        (p2 = (a, b) ∨ p2 ∈ bresenhamSteps dx dy step n (a + 1) b2 err2) →
        p2.2 = p.2 ∨ p2.2 = p.2 + step := by
      intro b2 err2 hb2 hp hp2
      rcases hp with h1 | h1 <;> rcases hp2 with h2 | h2
      · subst h1 h2
        simp at he
      · subst h1
        -- the second point is the head of the rest
        cases n with
        | zero => simp [bresenhamSteps] at h2
        | succ m =>
          have hhead : (a + 1, b2) ∈ bresenhamSteps dx dy step (m + 1) (a + 1) b2 err2 := by
            simp [bresenhamSteps]
          have := pairwise_fst_unique _ (bresenhamSteps_sorted dx dy step (m + 1) (a + 1) b2 err2)
            p2 h2 (a + 1, b2) hhead (by simpa using he)
          rw [this]
          simpa using hb2
      · subst h2
        have := (bresenhamSteps_fst_bounds dx dy step n _ _ _ p h1).1
        simp at he
        omega
      · exact ih _ _ _ p h1 p2 h2 he
    split_ifs at hp hp2
    · exact key (b + step) _ (Or.inr rfl) hp hp2
    · exact key b _ (Or.inl rfl) hp hp2

/-- The full walk from `(a, b)` ends at `(a + dx, b + step * dy)`. -/
theorem bresenhamSteps_last (dx dy step : Int) (hdx : 0 ≤ dx) (hdy0 : 0 ≤ dy) (hdy : dy ≤ dx)
    (a b : Int) :
    (a + dx, b + step * dy) ∈ bresenhamSteps dx dy step (dx + 1).toNat a b (Int.tdiv dx 2) := by
  have hn : (((dx + 1).toNat : Nat) : Int) = dx + 1 := Int.toNat_of_nonneg (by omega)
  rcases lt_or_eq_of_le hdx with hpos | hzero
  · have hdiv : Int.tdiv dx 2 = dx / 2 := Int.tdiv_eq_ediv hdx (by decide)
    rw [hdiv]
    obtain ⟨q, hq⟩ := bresenhamSteps_exists dx dy step (dx + 1).toNat a b (dx / 2) (a + dx)
      (by omega) (by omega)
    obtain ⟨m, hm0, hmb, -, -, hu, hl⟩ :=
      bresenhamSteps_mem dx dy step hdy0 hdy _ a b (dx / 2) (by omega) (by omega) (a + dx, q) hq
    simp only [add_sub_cancel_left] at hu hl hmb
    have h2 : 0 ≤ dx / 2 := by omega
    have h3 : dx / 2 < dx := by omega
    have hm : m = dy := by
      apply le_antisymm
      · by_contra hc
        have h1 : dy + 1 ≤ m := by omega
        have := mul_le_mul_of_nonneg_right h1 hdx
        nlinarith
      · by_contra hc
        have h1 : m + 1 ≤ dy := by omega
        have := mul_le_mul_of_nonneg_right h1 hdx
        nlinarith
    rw [hmb, hm] at hq
    exact hq
  · subst hzero
    have : dy = 0 := by omega
    subst this
    simp [bresenhamSteps]

/-- The number of lit pixels, when the lit pixels are the points of a list
without repetition. -/
theorem litCount_eq_length (g : SSD1306_Geometry) (d : Screen) (L : List (Int × Int))
    (hnd : L.Nodup) (h : ∀ x y : Int, litAt g d x y ↔ (x, y) ∈ L) :
    litCount g d = L.length := by
  unfold litCount
  have hA : (((List.range (SSD1306_WIDTH g)).product (List.range (SSD1306_HEIGHT g))).filter
      fun p => pixelLit g d p.1 p.2).Nodup :=
    ((List.nodup_range _).product (List.nodup_range _)).filter _
  rw [← List.toFinset_card_of_nodup hA, ← List.toFinset_card_of_nodup hnd]
  have hinj : Function.Injective (fun p : Nat × Nat => ((p.1 : Int), (p.2 : Int))) := by
    intro p q hpq
    simp only [Prod.mk.injEq, Nat.cast_inj] at hpq
    exact Prod.ext hpq.1 hpq.2
  rw [← Finset.card_image_of_injective _ hinj]
  congr 1
  ext ⟨x, y⟩
  simp only [Finset.mem_image, List.mem_toFinset, List.mem_filter, Prod.mk.injEq, Prod.exists]
  rw [← h x y]
  unfold litAt
  constructor
  · rintro ⟨a, b, ⟨hm, hl⟩, ha, hb⟩
    have hm2 := List.mem_product.1 hm
    simp only [List.mem_range] at hm2
    subst ha hb
    refine ⟨by omega, by omega, by omega, by omega, ?_⟩
    simpa using hl
  · rintro ⟨h1, h2, h3, h4, h5⟩
    refine ⟨x.toNat, y.toNat, ⟨?_, h5⟩, by omega, by omega⟩
    apply List.mem_product.2
    simp only [List.mem_range]
    omega

/-- The path drawn by the loop of `ssd1306_DrawLine`, in major/minor
coordinates: both ends are lit, `p1 - p0 + 1` pixels are lit, one for each major
coordinate, and neighbours differ by at most 1 along the minor axis. -/
theorem drawLine_path_core (g : SSD1306_Geometry) (steep : Bool) (p0 q0 p1 q1 : Int) (fuel : Nat)
    (M N : Int) (hM : M = if steep then (SSD1306_HEIGHT g : Int) else (SSD1306_WIDTH g : Int))
    (hN : N = if steep then (SSD1306_WIDTH g : Int) else (SSD1306_HEIGHT g : Int))
    (hp : p0 ≤ p1) (hp0 : 0 ≤ p0) (hp1 : p1 < M)
    (hq0 : 0 ≤ q0 ∧ q0 < N) (hq1 : 0 ≤ q1 ∧ q1 < N)
    (hflat : cAbs (q1 - q0) ≤ p1 - p0) (hf : SSD1306_WIDTH g < fuel) :
    ∃ d, drawLineLoop g steep p1 (wrap16 (p1 - p0)) (wrap16 (cAbs (q1 - q0)))
          (if q0 < q1 then 1 else -1) fuel p0 q0 (wrap16 (Int.tdiv (wrap16 (p1 - p0)) 2))
          (blankScreen g SSD1306_COLOR.White) = some d ∧
      litMajor g d steep p0 q0 ∧ litMajor g d steep p1 q1 ∧
      litCount g d = (p1 - p0).toNat + 1 ∧
      (∀ t, p0 ≤ t → t ≤ p1 → ∃! q, litMajor g d steep t q) ∧
      (∀ t q q2, litMajor g d steep t q → litMajor g d steep (t + 1) q2 →
        q2 = q ∨ q2 = q + 1 ∨ q2 = q - 1) := by
  obtain ⟨d, hd, -, hlit⟩ := drawLine_core g steep p0 q0 p1 q1 fuel M N hM hN hp hp0 hp1 hq0 hq1
    hflat hf
  have hdy0 := cAbs_nonneg (q1 - q0)
  have hn : (((p1 - p0 + 1).toNat : Nat) : Int) = p1 - p0 + 1 := Int.toNat_of_nonneg (by omega)
  generalize hW : bresenhamSteps (p1 - p0) (cAbs (q1 - q0)) (if q0 < q1 then 1 else -1)
    (p1 - p0 + 1).toNat p0 q0 (Int.tdiv (p1 - p0) 2) = W at hlit
  have hsorted : W.Pairwise (fun p p2 => p.1 < p2.1) := by
    rw [← hW]; exact bresenhamSteps_sorted _ _ _ _ _ _ _
  have hlen : W.length = (p1 - p0 + 1).toNat := by
    rw [← hW]; exact bresenhamSteps_length _ _ _ _ _ _ _
  have hLM : ∀ t q, litMajor g d steep t q ↔ (t, q) ∈ W := by
    intro t q
    cases steep
    · simp only [litMajor, Bool.false_eq_true, if_false] at hlit ⊢
      exact hlit t q
    · simp only [litMajor, if_true] at hlit ⊢
      rw [hlit q t, List.mem_map]
      constructor
      · rintro ⟨p, hp, he⟩
        simp only [Prod.mk.injEq] at he
        have : p = (t, q) := Prod.ext he.2 he.1
        rw [← this]; exact hp
      · intro h
        exact ⟨(t, q), h, rfl⟩
  have hfirst : (p0, q0) ∈ W := by
    rw [← hW]
    obtain ⟨k, hk⟩ : ∃ k, (p1 - p0 + 1).toNat = k + 1 := ⟨(p1 - p0).toNat, by omega⟩
    rw [hk]
    simp [bresenhamSteps]
  have hlast : (p1, q1) ∈ W := by
    have := bresenhamSteps_last (p1 - p0) (cAbs (q1 - q0)) (if q0 < q1 then 1 else -1)
      (by omega) hdy0 hflat p0 q0
    rw [hW] at this
    have e1 : p0 + (p1 - p0) = p1 := by omega
    have e2 : q0 + (if q0 < q1 then 1 else -1) * cAbs (q1 - q0) = q1 := by
      unfold cAbs
      split_ifs <;> omega
    rw [e1, e2] at this
    exact this
  have hcount : litCount g d = (p1 - p0).toNat + 1 := by
    have hnd : W.Nodup := pairwise_fst_nodup W hsorted
    have hnd2 : (if steep then W.map (fun p => (p.2, p.1)) else W).Nodup := by
      split_ifs
      · refine hnd.map ?_
        intro p q hpq
        simp only [Prod.mk.injEq] at hpq
        exact Prod.ext hpq.2 hpq.1
      · exact hnd
    rw [litCount_eq_length g d _ hnd2 hlit]
    have : (if steep then W.map (fun p => (p.2, p.1)) else W).length = W.length := by
      split_ifs
      · rw [List.length_map]
      · rfl
    rw [this, hlen]
    omega
  refine ⟨d, hd, (hLM _ _).2 hfirst, (hLM _ _).2 hlast, hcount, ?_, ?_⟩
  · intro t ht0 ht1
    have hex : ∃ q, (t, q) ∈ W := by
      rw [← hW]
      exact bresenhamSteps_exists _ _ _ _ _ _ _ t ht0 (by omega)
    obtain ⟨q, hq⟩ := hex
    refine ⟨q, (hLM _ _).2 hq, ?_⟩
    intro q2 hq2
    have := pairwise_fst_unique W hsorted (t, q2) ((hLM _ _).1 hq2) (t, q) hq rfl
    exact (Prod.mk.injEq _ _ _ _ ▸ this).2
  · intro t q q2 h1 h2
    have h1w := (hLM _ _).1 h1
    have h2w := (hLM _ _).1 h2
    rw [← hW] at h1w h2w
    have := bresenhamSteps_next _ _ _ _ _ _ _ (t, q) h1w (t + 1, q2) h2w rfl
    simp only at this
    split_ifs at this <;> omega

/-- C29: for on-screen endpoints, on a cleared buffer with colour White,
`ssd1306_DrawLine` returns and then both endpoints are lit, exactly
`max(|x1 - x0|, |y1 - y0|) + 1` pixels are lit, there is exactly one lit pixel
for each major-axis coordinate between the endpoints, and lit pixels at
neighbouring major coordinates differ by at most 1 along the minor axis. -/
theorem drawLine_connected_path (g : SSD1306_Geometry) (x0 y0 x1 y1 : Int) (fuel : Nat)
    (hx0 : 0 ≤ x0 ∧ x0 < SSD1306_WIDTH g) (hy0 : 0 ≤ y0 ∧ y0 < SSD1306_HEIGHT g)
    (hx1 : 0 ≤ x1 ∧ x1 < SSD1306_WIDTH g) (hy1 : 0 ≤ y1 ∧ y1 < SSD1306_HEIGHT g)
    (hf : SSD1306_WIDTH g < fuel) :
    ∃ d, ssd1306_DrawLine g fuel x0 y0 x1 y1 (blankScreen g SSD1306_COLOR.White) = some d ∧
      litAt g d x0 y0 ∧ litAt g d x1 y1 ∧
      litCount g d = (max (cAbs (x1 - x0)) (cAbs (y1 - y0))).toNat + 1 ∧
      (∀ t, min (if cAbs (y1 - y0) > cAbs (x1 - x0) then y0 else x0)
            (if cAbs (y1 - y0) > cAbs (x1 - x0) then y1 else x1) ≤ t →
          t ≤ max (if cAbs (y1 - y0) > cAbs (x1 - x0) then y0 else x0)
            (if cAbs (y1 - y0) > cAbs (x1 - x0) then y1 else x1) →
          ∃! q, litMajor g d (decide (cAbs (y1 - y0) > cAbs (x1 - x0))) t q) ∧
      (∀ t q q2, litMajor g d (decide (cAbs (y1 - y0) > cAbs (x1 - x0))) t q →
        litMajor g d (decide (cAbs (y1 - y0) > cAbs (x1 - x0))) (t + 1) q2 →
        q2 = q ∨ q2 = q + 1 ∨ q2 = q - 1) := by
  simp only [ssd1306_DrawLine]
  by_cases hs : cAbs (y1 - y0) > cAbs (x1 - x0)
  · simp only [hs, decide_True, if_true]
    by_cases hsw : y0 > y1
    · simp only [hsw, if_true]
      obtain ⟨d, hd, l0, l1, hc, hu, hn⟩ := drawLine_path_core g true y1 x1 y0 x0 fuel _ _ rfl rfl
        (by omega) hy1.1 hy0.2 hx1 hx0
        (by unfold cAbs at hs ⊢; split_ifs at hs ⊢ <;> omega) hf
      refine ⟨d, hd, l1, l0, ?_, ?_, hn⟩
      · rw [hc]; unfold cAbs at hs ⊢; split_ifs at hs ⊢ <;> omega
      · intro t h1 h2
        exact hu t (by omega) (by omega)
    · simp only [hsw, if_false]
      obtain ⟨d, hd, l0, l1, hc, hu, hn⟩ := drawLine_path_core g true y0 x0 y1 x1 fuel _ _ rfl rfl
        (by omega) hy0.1 hy1.2 hx0 hx1
        (by unfold cAbs at hs ⊢; split_ifs at hs ⊢ <;> omega) hf
      refine ⟨d, hd, l0, l1, ?_, ?_, hn⟩
      · rw [hc]; unfold cAbs at hs ⊢; split_ifs at hs ⊢ <;> omega
      · intro t h1 h2
        exact hu t (by omega) (by omega)
  · simp only [hs, decide_False, Bool.false_eq_true, if_false]
    by_cases hsw : x0 > x1
    · simp only [hsw, if_true]
      obtain ⟨d, hd, l0, l1, hc, hu, hn⟩ := drawLine_path_core g false x1 y1 x0 y0 fuel _ _ rfl rfl
        (by omega) hx1.1 hx0.2 hy1 hy0
        (by unfold cAbs at hs ⊢; split_ifs at hs ⊢ <;> omega) hf
      refine ⟨d, hd, l1, l0, ?_, ?_, hn⟩
      · rw [hc]; unfold cAbs at hs ⊢; split_ifs at hs ⊢ <;> omega
      · intro t h1 h2
        exact hu t (by omega) (by omega)
    · simp only [hsw, if_false]
      obtain ⟨d, hd, l0, l1, hc, hu, hn⟩ := drawLine_path_core g false x0 y0 x1 y1 fuel _ _ rfl rfl
        (by omega) hx0.1 hx1.2 hy0 hy1
        (by unfold cAbs at hs ⊢; split_ifs at hs ⊢ <;> omega) hf
      refine ⟨d, hd, l0, l1, ?_, ?_, hn⟩
      · rw [hc]; unfold cAbs at hs ⊢; split_ifs at hs ⊢ <;> omega
      · intro t h1 h2
        exact hu t (by omega) (by omega)

/-- Witness for `drawLine_connected_path`: the line (0,0)-(10,3) on the
128x64 display. -/
theorem drawLine_connected_path_witness :
    ((0 : Int) ≤ 10 ∧ (10 : Int) < SSD1306_WIDTH .GEOMETRY_128_64) ∧
    ((0 : Int) ≤ 3 ∧ (3 : Int) < SSD1306_HEIGHT .GEOMETRY_128_64) ∧
    ∃ d, ssd1306_DrawLine .GEOMETRY_128_64 129 0 0 10 3
        (blankScreen .GEOMETRY_128_64 SSD1306_COLOR.White) = some d ∧
      litAt .GEOMETRY_128_64 d 0 0 ∧ litAt .GEOMETRY_128_64 d 10 3 ∧
      litCount .GEOMETRY_128_64 d = (max (cAbs (10 - 0)) (cAbs (3 - 0))).toNat + 1 ∧
      (∀ t, min (if cAbs (3 - 0) > cAbs (10 - 0) then (0 : Int) else 0)
            (if cAbs (3 - 0) > cAbs (10 - 0) then 3 else 10) ≤ t →
          t ≤ max (if cAbs (3 - 0) > cAbs (10 - 0) then (0 : Int) else 0)
            (if cAbs (3 - 0) > cAbs (10 - 0) then 3 else 10) →
          ∃! q, litMajor .GEOMETRY_128_64 d (decide (cAbs (3 - 0) > cAbs (10 - 0))) t q) ∧
      (∀ t q q2, litMajor .GEOMETRY_128_64 d (decide (cAbs (3 - 0) > cAbs (10 - 0))) t q →
        litMajor .GEOMETRY_128_64 d (decide (cAbs (3 - 0) > cAbs (10 - 0))) (t + 1) q2 →
        q2 = q ∨ q2 = q + 1 ∨ q2 = q - 1) :=
  ⟨by decide, by decide,
   drawLine_connected_path .GEOMETRY_128_64 0 0 10 3 129 (by decide) (by decide) (by decide)
     (by decide) (by decide)⟩

/-! ## `ssd1306_DrawBitmap` -/

theorem drawPixels_nil (g : SSD1306_Geometry) (d : Screen) : drawPixels g [] d = d := rfl

theorem drawPixels_single (g : SSD1306_Geometry) (x y : Nat) (d : Screen) :
    drawPixels g [(x, y)] d = ssd1306_DrawPixel g x y d := rfl

theorem filterMap_none (l : List Nat) :
    l.filterMap (fun _ => (none : Option (Nat × Nat))) = [] := by
  induction l with
  | nil => rfl
  | cons a l ih => simp [List.filterMap_cons, ih]

/-- The bit loop of `ssd1306_DrawBitmap` for a non-zero byte: it draws the set
bits from bit `bL` on and leaves through `pX++; break`. -/
theorem bitmapBits_eq (g : SSD1306_Geometry) (pY : Nat) (n : Nat) :
    ∀ (pX tmpCh bL : Nat) (d : Screen), tmpCh ≠ 0 → tmpCh < 2 ^ n →
      bitmapBits g pY n pX tmpCh bL d =
        ((pX + 1) % 256,
          drawPixels g ((List.range n).filterMap fun k =>
            if tmpCh.testBit k then some (pX, (pY + (bL + k)) % 256) else none) d) := by
  induction n with
  | zero => intro pX tmpCh bL d h0 h1; exact absurd (by simpa using h1) h0
  | succ n ih =>
    intro pX tmpCh bL d h0 h1
    have hshift : tmpCh >>> 1 = tmpCh / 2 := by
      simp [Nat.shiftRight_eq_div_pow]
    have htest : (tmpCh &&& 0x01 ≠ 0) ↔ tmpCh.testBit 0 = true := by
      rw [Nat.testBit_zero, Nat.and_one_is_mod]
      simp
    have hlist : ((List.range (n + 1)).filterMap fun k =>
          if tmpCh.testBit k then some (pX, (pY + (bL + k)) % 256) else none) =
        (if tmpCh.testBit 0 then [(pX, (pY + bL) % 256)] else []) ++
          ((List.range n).filterMap fun k =>
            if (tmpCh / 2).testBit k then some (pX, (pY + (bL + 1 + k)) % 256) else none) := by
      rw [List.range_succ_eq_map, List.filterMap_cons, List.filterMap_map]
      have hf : ((fun k => if tmpCh.testBit k then some (pX, (pY + (bL + k)) % 256) else none) ∘
            Nat.succ) =
          fun k => if (tmpCh / 2).testBit k then some (pX, (pY + (bL + 1 + k)) % 256)
            else none := by
        funext k
        simp only [Function.comp, Nat.succ_eq_add_one, Nat.testBit_succ]
        have : bL + (k + 1) = bL + 1 + k := by omega
        rw [this]
      rw [hf]
      by_cases hb : tmpCh.testBit 0 = true
      · simp [hb]
      · simp [hb]
    rw [hlist, drawPixels_append]
    simp only [bitmapBits, hshift]
    have hd1 : (if tmpCh &&& 0x01 ≠ 0 then ssd1306_DrawPixel g pX ((pY + bL) % 256) d else d) =
        drawPixels g (if tmpCh.testBit 0 then [(pX, (pY + bL) % 256)] else []) d := by
      by_cases hb : tmpCh.testBit 0 = true
      · rw [if_pos (htest.2 hb), if_pos hb, drawPixels_single]
      · rw [if_neg (fun h => hb (htest.1 h)), if_neg hb, drawPixels_nil]
    rw [hd1]
    by_cases ht : tmpCh / 2 ≠ 0
    · rw [if_pos ht]
      exact ih pX (tmpCh / 2) (bL + 1) _ ht (by rw [pow_succ] at h1; omega)
    · rw [if_neg ht]
      have hz : tmpCh / 2 = 0 := by omega
      rw [hz]
      simp [drawPixels_nil, filterMap_none]

/-- One source byte of `ssd1306_DrawBitmap`, zero or not: the pixels of its set
bits are drawn and the column moves on by one. -/
theorem bitmapByte_eq (g : SSD1306_Geometry) (pX pY tmpCh : Nat) (d : Screen)
    (hb : tmpCh < 256) (hy : pY + 7 ≤ 255) :
    (if tmpCh ≠ 0 then bitmapBits g pY 8 pX tmpCh 0 d else ((pX + 1) % 256, d)) =
      ((pX + 1) % 256, drawPixels g (bytePoints pX pY tmpCh) d) := by
  have hpts : ((List.range 8).filterMap fun k =>
        if tmpCh.testBit k then some (pX, (pY + (0 + k)) % 256) else none) =
      bytePoints pX pY tmpCh := by
    unfold bytePoints
    apply List.filterMap_congr
    intro k hk
    have := List.mem_range.1 hk
    have e : (pY + (0 + k)) % 256 = pY + k := by omega
    rw [e]
  by_cases h0 : tmpCh ≠ 0
  · rw [if_pos h0, bitmapBits_eq g pY 8 pX tmpCh 0 d h0 (by omega), hpts]
  · rw [if_neg h0]
    have : tmpCh = 0 := by omega
    subst this
    simp [bytePoints, drawPixels_nil, filterMap_none]

theorem range_succ_flatMap (m : Nat) (f : Nat → List (Nat × Nat)) :
    (List.range (m + 1)).flatMap f = f 0 ++ (List.range m).flatMap (fun i => f (i + 1)) := by
  rw [List.range_succ_eq_map, List.flatMap_cons, List.flatMap_map]

/-- The column loop of `ssd1306_DrawBitmap` from column `X + c` on: it reads
the `m` remaining bytes of the band and draws their set bits. -/
theorem bitmapColumns_eq (g : SSD1306_Geometry) (pBMP : List Nat) (X W pY : Nat)
    (hbytes : ∀ v ∈ pBMP, v < 256) (hXW : X + W ≤ 255) (hy : pY + 7 ≤ 255) (m : Nat) :
    ∀ (fuel c idx : Nat) (d : Screen), c + m = W → m ≤ fuel → idx + m ≤ pBMP.length →
      bitmapColumns g pBMP X W pY fuel (X + c) idx d =
        some (idx + m, drawPixels g
          ((List.range m).flatMap fun i => bytePoints (X + c + i) pY (pBMP.getD (idx + i) 0)) d) := by
  induction m with
  | zero =>
    intro fuel c idx d hc _ _
    have hn : ¬ X + c < X + W := by omega
    cases fuel with
    | zero => simp [bitmapColumns, hn, drawPixels_nil]
    | succ f => simp [bitmapColumns, hn, drawPixels_nil]
  | succ m ih =>
    intro fuel c idx d hc hf hidx
    obtain ⟨f, rfl⟩ : ∃ f, fuel = f + 1 := ⟨fuel - 1, by omega⟩
    have hlt : X + c < X + W := by omega
    have hi : idx < pBMP.length := by omega
    have hv : pBMP[idx] < 256 := hbytes _ (List.getElem_mem _)
    have hget : pBMP.getD (idx + 0) 0 = pBMP[idx] := by
      rw [Nat.add_zero, List.getD_eq_getElem _ _ hi]
    have hbyte := bitmapByte_eq g (X + c) pY pBMP[idx] d hv hy
    have hnext : (X + c + 1) % 256 = X + (c + 1) := by omega
    have hrec := ih f (c + 1) (idx + 1)
      (drawPixels g (bytePoints (X + c) pY pBMP[idx]) d) (by omega) (by omega) (by omega)
    rw [range_succ_flatMap, drawPixels_append, hget]
    have hfun : (fun i => bytePoints (X + c + (i + 1)) pY (pBMP.getD (idx + (i + 1)) 0)) =
        fun i => bytePoints (X + (c + 1) + i) pY (pBMP.getD (idx + 1 + i) 0) := by
      funext i
      have e1 : X + c + (i + 1) = X + (c + 1) + i := by omega
      have e2 : idx + (i + 1) = idx + 1 + i := by omega
      rw [e1, e2]
    rw [hfun]
    simp only [Nat.add_zero]
    have e3 : idx + (m + 1) = idx + 1 + m := by omega
    rw [e3, ← hrec]
    simp only [bitmapColumns, if_pos hlt, List.getElem?_eq_getElem hi]
    by_cases h0 : pBMP[idx] ≠ 0
    · rw [if_pos h0] at hbyte ⊢
      simp only [hbyte, hnext]
    · rw [if_neg h0] at hbyte ⊢
      have hd : drawPixels g (bytePoints (X + c) pY pBMP[idx]) d = d := by
        have := congrArg Prod.snd hbyte
        exact this.symm
      rw [hnext, hd]

/-- The band loop of `ssd1306_DrawBitmap` from band `j` on. -/
theorem bitmapBands_eq (g : SSD1306_Geometry) (pBMP : List Nat) (X Y W H fuelX : Nat)
    (hbytes : ∀ v ∈ pBMP, v < 256) (hXW : X + W ≤ 255) (hYH : Y + H ≤ 248)
    (hsrc : (H + 7) / 8 * W ≤ pBMP.length) (hfx : W ≤ fuelX) (r : Nat) :
    ∀ (fuel j : Nat) (d : Screen), j + r = (H + 7) / 8 → r ≤ fuel →
      bitmapBands g pBMP X Y W H fuelX fuel (Y + 8 * j) (j * W) d =
        some ((H + 7) / 8 * W, drawPixels g
          ((List.range r).flatMap fun k => bandPoints X Y W pBMP (j + k)) d) := by
  induction r with
  | zero =>
    intro fuel j d hj _
    have hn : ¬ Y + 8 * j < Y + H := by omega
    have hjw : j * W = (H + 7) / 8 * W := by rw [← hj, Nat.add_zero]
    cases fuel with
    | zero => simp [bitmapBands, hn, drawPixels_nil, hjw]
    | succ f => simp [bitmapBands, hn, drawPixels_nil, hjw]
  | succ r ih =>
    intro fuel j d hj hf
    obtain ⟨f, rfl⟩ : ∃ f, fuel = f + 1 := ⟨fuel - 1, by omega⟩
    have hlt : Y + 8 * j < Y + H := by omega
    have hjw : (j + 1) * W ≤ (H + 7) / 8 * W := Nat.mul_le_mul_right _ (by omega)
    have hjw2 : j * W + W = (j + 1) * W := by ring
    have hcols := bitmapColumns_eq g pBMP X W (Y + 8 * j) hbytes hXW (by omega) W fuelX 0
      (j * W) d (by omega) hfx (by omega)
    have hband : ((List.range W).flatMap fun i =>
          bytePoints (X + 0 + i) (Y + 8 * j) (pBMP.getD (j * W + i) 0)) =
        bandPoints X Y W pBMP j := by
      simp only [bandPoints, Nat.add_zero]
    rw [hband] at hcols
    have hnext : (Y + 8 * j + 8) % 256 = Y + 8 * (j + 1) := by omega
    have hrec := ih f (j + 1) (drawPixels g (bandPoints X Y W pBMP j) d) (by omega) (by omega)
    rw [range_succ_flatMap, drawPixels_append]
    simp only [Nat.add_zero]
    have hfun : (fun k => bandPoints X Y W pBMP (j + (k + 1))) =
        fun k => bandPoints X Y W pBMP (j + 1 + k) := by
      funext k
      have e1 : j + (k + 1) = j + 1 + k := by omega
      rw [e1]
    rw [hfun, ← hrec]
    simp only [bitmapBands, if_pos hlt]
    rw [show X = X + 0 from rfl] at hcols ⊢
    simp only [Nat.add_zero] at hcols ⊢
    rw [hcols]
    simp only [hnext, hjw2]

theorem mem_bitmapPoints (X Y W : Nat) (pBMP : List Nat) (bands x y : Nat) :
    (x, y) ∈ bitmapPoints X Y W pBMP bands ↔
      ∃ j i b, j < bands ∧ i < W ∧ b < 8 ∧ (pBMP.getD (j * W + i) 0).testBit b = true ∧
        x = X + i ∧ y = Y + 8 * j + b := by
  simp only [bitmapPoints, bandPoints, bytePoints, List.mem_flatMap, List.mem_filterMap,
    List.mem_range]
  constructor
  · rintro ⟨j, hj, i, hi, b, hb, h⟩
    split_ifs at h with ht
    simp only [Option.some.injEq, Prod.mk.injEq] at h
    exact ⟨j, i, b, hj, hi, hb, ht, h.1.symm, h.2.symm⟩
  · rintro ⟨j, i, b, hj, hi, hb, ht, hx, hy⟩
    refine ⟨j, hj, i, hi, b, hb, ?_⟩
    rw [if_pos ht, hx, hy]

/-- C25: for `X + W <= 255` and `Y + H <= 248`, colour White, and a source of at
least `W * ceil(H / 8)` bytes, `ssd1306_DrawBitmap` returns after consuming
exactly `W * ceil(H / 8)` source bytes; its result is that of drawing, band by
band from the top and column by column from the left, the pixel
`(X + i, Y + 8 * j + b)` of every set bit `b` of source byte `j * W + i`; so a
pixel of the screen is lit afterwards iff it was lit before or is the pixel of
a set bit, and an all-zero bitmap leaves the drawing state unchanged. -/
theorem drawBitmap_transparent (g : SSD1306_Geometry) (fuel X Y W H : Nat) (pBMP : List Nat)
    (d : Screen) (hXW : X + W ≤ 255) (hYH : Y + H ≤ 248) (hbytes : ∀ v ∈ pBMP, v < 256)
    (hsrc : W * ((H + 7) / 8) ≤ pBMP.length) (hready : WhiteReady g d) (hf : 255 ≤ fuel) :
    ∃ d2, ssd1306_DrawBitmap g fuel X Y W H pBMP d = some (W * ((H + 7) / 8), d2) ∧
      d2 = drawPixels g (bitmapPoints X Y W pBMP ((H + 7) / 8)) d ∧
      (∀ x y, x < SSD1306_WIDTH g → y < SSD1306_HEIGHT g →
        (pixelLit g d2 x y = true ↔
          pixelLit g d x y = true ∨
            ∃ j i b, j < (H + 7) / 8 ∧ i < W ∧ b < 8 ∧
              (pBMP.getD (j * W + i) 0).testBit b = true ∧ x = X + i ∧ y = Y + 8 * j + b)) ∧
      ((∀ v ∈ pBMP, v = 0) → d2 = d) := by
  have hsrc2 : (H + 7) / 8 * W ≤ pBMP.length := by rw [Nat.mul_comm]; exact hsrc
  have hmain := bitmapBands_eq g pBMP X Y W H fuel hbytes hXW hYH hsrc2 (by omega)
    ((H + 7) / 8) fuel 0 d (by omega) (by omega)
  have hpts : ((List.range ((H + 7) / 8)).flatMap fun k => bandPoints X Y W pBMP (0 + k)) =
      bitmapPoints X Y W pBMP ((H + 7) / 8) := by
    simp only [bitmapPoints, Nat.zero_add]
  rw [hpts] at hmain
  simp only [Nat.mul_zero, Nat.add_zero, Nat.zero_mul] at hmain
  refine ⟨drawPixels g (bitmapPoints X Y W pBMP ((H + 7) / 8)) d, ?_, rfl, ?_, ?_⟩
  · unfold ssd1306_DrawBitmap
    rw [hmain, Nat.mul_comm]
  · intro x y hx hy
    rw [drawPixels_lit g _ d hready x y hx hy, Bool.or_eq_true, decide_eq_true_eq,
      mem_bitmapPoints]
    exact or_comm
  · intro hz
    have hnil : bitmapPoints X Y W pBMP ((H + 7) / 8) = [] := by
      apply List.eq_nil_iff_forall_not_mem.2
      rintro ⟨x, y⟩ hm
      obtain ⟨j, i, b, -, -, -, ht, -, -⟩ := (mem_bitmapPoints X Y W pBMP _ x y).1 hm
      have h0 : pBMP.getD (j * W + i) 0 = 0 := by
        rw [List.getD_eq_getElem?_getD]
        cases hq : pBMP[j * W + i]? with
        | none => rfl
        | some v => exact hz v (List.mem_iff_getElem?.2 ⟨_, hq⟩)
      rw [h0] at ht
      simp at ht
    rw [hnil]
    rfl

/-- Witness for `drawBitmap_transparent`: a 2x12 bitmap at (3, 5) on the
cleared 128x64 display. -/
theorem drawBitmap_transparent_witness :
    (3 + 2 ≤ 255 ∧ 5 + 12 ≤ 248 ∧ 2 * ((12 + 7) / 8) ≤ [0x81, 0, 0x03, 0xF0].length) ∧
    ∃ d2, ssd1306_DrawBitmap .GEOMETRY_128_64 255 3 5 2 12 [0x81, 0, 0x03, 0xF0]
        (blankScreen .GEOMETRY_128_64 SSD1306_COLOR.White) = some (2 * ((12 + 7) / 8), d2) ∧
      d2 = drawPixels .GEOMETRY_128_64 (bitmapPoints 3 5 2 [0x81, 0, 0x03, 0xF0] ((12 + 7) / 8))
        (blankScreen .GEOMETRY_128_64 SSD1306_COLOR.White) ∧
      (∀ x y, x < SSD1306_WIDTH .GEOMETRY_128_64 → y < SSD1306_HEIGHT .GEOMETRY_128_64 →
        (pixelLit .GEOMETRY_128_64 d2 x y = true ↔
          pixelLit .GEOMETRY_128_64 (blankScreen .GEOMETRY_128_64 SSD1306_COLOR.White) x y = true ∨
            ∃ j i b, j < (12 + 7) / 8 ∧ i < 2 ∧ b < 8 ∧
              (([0x81, 0, 0x03, 0xF0] : List Nat).getD (j * 2 + i) 0).testBit b = true ∧
              x = 3 + i ∧ y = 5 + 8 * j + b)) ∧
      ((∀ v ∈ ([0x81, 0, 0x03, 0xF0] : List Nat), v = 0) →
        d2 = blankScreen .GEOMETRY_128_64 SSD1306_COLOR.White) :=
  ⟨by decide,
   drawBitmap_transparent .GEOMETRY_128_64 255 3 5 2 12 [0x81, 0, 0x03, 0xF0]
     (blankScreen .GEOMETRY_128_64 SSD1306_COLOR.White) (by decide) (by decide) (by decide)
     (by decide) (blankScreen_whiteReady .GEOMETRY_128_64) (by decide)⟩

namespace DmaOneShot

end DmaOneShot

namespace DmaOneShot

end DmaOneShot

/-- `ssd1306_DrawPixel` changes no other pixel, whatever the colour. -/
theorem drawPixel_other_lit (g : SSD1306_Geometry) (x y : Nat) (d : Screen)
    (hinv : d.SSD1306.Inverted = 0) (hlen : d.SSD1306_Buffer.length = SSD1306_BUFFER_SIZE g)
    (x2 y2 : Nat) (hx2 : x2 < SSD1306_WIDTH g) (hy2 : y2 < SSD1306_HEIGHT g)
    (hne : ¬ (x2 = x ∧ y2 = y)) :
    pixelLit g (ssd1306_DrawPixel g x y d) x2 y2 = pixelLit g d x2 y2 := by
  by_cases hr : x ≥ SSD1306_WIDTH g ∨ y ≥ SSD1306_HEIGHT g
  · simp [ssd1306_DrawPixel, hr]
  · by_cases hc : d.SSD1306.Color = SSD1306_COLOR.White
    · rw [drawPixel_white_lit g x y d hinv hc hlen x2 y2 hx2 hy2]
      simp [hne]
    · rw [drawPixel_nonwhite_lit g x y d (by omega) (by omega) hinv hc hlen x2 y2 hx2]
      simp [hne]

/-- Drawing a list of pixels changes no pixel outside the list, whatever the
colour. -/
theorem drawPixels_frame (g : SSD1306_Geometry) (pts : List (Nat × Nat)) :
    ∀ d : Screen, d.SSD1306.Inverted = 0 → d.SSD1306_Buffer.length = SSD1306_BUFFER_SIZE g →
      ∀ x2 y2, x2 < SSD1306_WIDTH g → y2 < SSD1306_HEIGHT g → (x2, y2) ∉ pts →
        pixelLit g (drawPixels g pts d) x2 y2 = pixelLit g d x2 y2 := by
  induction pts with
  | nil => intro d _ _ x2 y2 _ _ _; rfl
  | cons q pts ih =>
    intro d hinv hlen x2 y2 hx2 hy2 hnot
    have h1 : (x2, y2) ∉ pts := fun h => hnot (List.mem_cons_of_mem _ h)
    have h2 : ¬ (x2 = q.1 ∧ y2 = q.2) := by
      rintro ⟨e1, e2⟩
      exact hnot (by rw [e1, e2]; exact List.mem_cons_self _ _)
    have := ih (ssd1306_DrawPixel g q.1 q.2 d) (by rw [drawPixel_SSD1306]; exact hinv)
      (by rw [drawPixel_length]; exact hlen) x2 y2 hx2 hy2 h1
    simp only [drawPixels, List.foldl_cons] at this ⊢
    rw [this, drawPixel_other_lit g q.1 q.2 d hinv hlen x2 y2 hx2 hy2 h2]

/-- C26 (amended to whole bands): for `X + W <= 255`, `Y + H <= 248`, every
colour and every source image of at least `W * ceil(H / 8)` bytes,
`ssd1306_DrawBitmap` returns and changes no pixel outside the rectangle
`[X, X + W) x [Y, Y + 8 * ceil(H / 8))` of whole bands; the bottom bits are not
cut off: with colour White every set bit of a byte of the last band lights its
pixel, also on the rows from `Y + H` on. -/
theorem drawBitmap_stays_in_bands (g : SSD1306_Geometry) (fuel X Y W H : Nat) (pBMP : List Nat)
    (d : Screen) (hXW : X + W ≤ 255) (hYH : Y + H ≤ 248) (hbytes : ∀ v ∈ pBMP, v < 256)
    (hsrc : W * ((H + 7) / 8) ≤ pBMP.length) (hinv : d.SSD1306.Inverted = 0)
    (hlen : d.SSD1306_Buffer.length = SSD1306_BUFFER_SIZE g) (hf : 255 ≤ fuel) :
    ∃ d2, ssd1306_DrawBitmap g fuel X Y W H pBMP d = some (W * ((H + 7) / 8), d2) ∧
      (∀ x y, x < SSD1306_WIDTH g → y < SSD1306_HEIGHT g →
        ¬ (X ≤ x ∧ x < X + W ∧ Y ≤ y ∧ y < Y + 8 * ((H + 7) / 8)) →
        pixelLit g d2 x y = pixelLit g d x y) ∧
      (d.SSD1306.Color = SSD1306_COLOR.White → 0 < H →
        ∀ i b, i < W → b < 8 →
          (pBMP.getD (((H + 7) / 8 - 1) * W + i) 0).testBit b = true →
          X + i < SSD1306_WIDTH g → Y + 8 * ((H + 7) / 8 - 1) + b < SSD1306_HEIGHT g →
          pixelLit g d2 (X + i) (Y + 8 * ((H + 7) / 8 - 1) + b) = true) := by
  have hsrc2 : (H + 7) / 8 * W ≤ pBMP.length := by rw [Nat.mul_comm]; exact hsrc
  have hmain := bitmapBands_eq g pBMP X Y W H fuel hbytes hXW hYH hsrc2 (by omega)
    ((H + 7) / 8) fuel 0 d (by omega) (by omega)
  have hpts : ((List.range ((H + 7) / 8)).flatMap fun k => bandPoints X Y W pBMP (0 + k)) =
      bitmapPoints X Y W pBMP ((H + 7) / 8) := by
    simp only [bitmapPoints, Nat.zero_add]
  rw [hpts] at hmain
  simp only [Nat.mul_zero, Nat.add_zero, Nat.zero_mul] at hmain
  refine ⟨drawPixels g (bitmapPoints X Y W pBMP ((H + 7) / 8)) d, ?_, ?_, ?_⟩
  · unfold ssd1306_DrawBitmap
    rw [hmain, Nat.mul_comm]
  · intro x y hx hy hout
    apply drawPixels_frame g _ d hinv hlen x y hx hy
    intro hm
    obtain ⟨j, i, b, hj, hi, hb, -, ex, ey⟩ := (mem_bitmapPoints X Y W pBMP _ x y).1 hm
    apply hout
    subst ex ey
    refine ⟨by omega, by omega, by omega, ?_⟩
    have : 8 * j + 8 ≤ 8 * ((H + 7) / 8) := by omega
    omega
  · intro hc hH i b hi hb ht hx hy
    rw [drawPixels_lit g _ d ⟨hinv, hc, hlen⟩ _ _ hx hy, Bool.or_eq_true, decide_eq_true_eq]
    left
    exact (mem_bitmapPoints X Y W pBMP _ _ _).2
      ⟨(H + 7) / 8 - 1, i, b, by omega, hi, hb, ht, rfl, rfl⟩

/-- Witness for `drawBitmap_stays_in_bands`: a 2x12 bitmap at (3, 5) on the
cleared 128x64 display, colour White; the byte `0xF0` of the second band
lights the rows 17 to 20, below row `5 + 12`. -/
theorem drawBitmap_stays_in_bands_witness :
    (3 + 2 ≤ 255 ∧ 5 + 12 ≤ 248 ∧ 2 * ((12 + 7) / 8) ≤ [0x81, 0, 0x03, 0xF0].length) ∧
    ∃ d2, ssd1306_DrawBitmap .GEOMETRY_128_64 255 3 5 2 12 [0x81, 0, 0x03, 0xF0]
        (blankScreen .GEOMETRY_128_64 SSD1306_COLOR.White) = some (2 * ((12 + 7) / 8), d2) ∧
      (∀ x y, x < SSD1306_WIDTH .GEOMETRY_128_64 → y < SSD1306_HEIGHT .GEOMETRY_128_64 →
        ¬ (3 ≤ x ∧ x < 3 + 2 ∧ 5 ≤ y ∧ y < 5 + 8 * ((12 + 7) / 8)) →
        pixelLit .GEOMETRY_128_64 d2 x y =
          pixelLit .GEOMETRY_128_64 (blankScreen .GEOMETRY_128_64 SSD1306_COLOR.White) x y) ∧
      ((blankScreen .GEOMETRY_128_64 SSD1306_COLOR.White).SSD1306.Color = SSD1306_COLOR.White →
        0 < 12 →
        ∀ i b, i < 2 → b < 8 →
          (([0x81, 0, 0x03, 0xF0] : List Nat).getD (((12 + 7) / 8 - 1) * 2 + i) 0).testBit b =
            true →
          3 + i < SSD1306_WIDTH .GEOMETRY_128_64 →
          5 + 8 * ((12 + 7) / 8 - 1) + b < SSD1306_HEIGHT .GEOMETRY_128_64 →
          pixelLit .GEOMETRY_128_64 d2 (3 + i) (5 + 8 * ((12 + 7) / 8 - 1) + b) = true) :=
  ⟨by decide,
   drawBitmap_stays_in_bands .GEOMETRY_128_64 255 3 5 2 12 [0x81, 0, 0x03, 0xF0]
     (blankScreen .GEOMETRY_128_64 SSD1306_COLOR.White) (by decide) (by decide) (by decide)
     (by decide) rfl (blankScreen_whiteReady .GEOMETRY_128_64).2.2 (by decide)⟩
